import Mathlib

/-!
# OpenSCAD MainWindow: the compile orchestrator

A shallow embedding of the parts of `src/gui/MainWindow.cc` and
`src/gui/MainWindow.h` that drive a compile: `instantiateRoot`,
`compileCSG`, the preview slots, the GUI lock and the progress callback,
and of the members `fileChangedOnDisk`, `canExport`, `convertTabsToSpaces`,
`trust_python_file` and `activateWindow` and the function `getCodeLocation`.

Pointers (`shared_ptr`, raw pointers) are `Option` values, `none` being the
null pointer.  The scene nodes, the CSG terms and the render products are
type parameters: their classes are declared outside these two files.  The
collaborators that `MainWindow` calls into (evaluator, normalizer, the product
builder, preferences) are the fields of `Env`.

The sources are read with `ENABLE_OPENCSG` defined: `compileCSG` uses
`csgrenderer` unconditionally, so it only builds in that configuration.

Left out of the window state: the status bar and progress widget objects,
the output handler (`setCurrentOutput` / `clearCurrentOutput`), the camera,
the render statistics and the animation frame dump.  `processEvents()` is a
no-op here: the slots it could run re-entrantly are the ones guarded by the
GUI lock.
-/

namespace OpenSCAD

/-! ## Data model -/

/-- Severity groups that `LOG` is called with in the embedded functions. -/
inductive message_group where
  | NONE
  | Warning
  | Error
  | UI_Warning
  | UI_Error
  deriving DecidableEq, Repr

/-- One console line written by `LOG`. -/
structure Message where
  group : message_group
  text : String
  deriving DecidableEq, Repr

/-- The two renderer classes constructed by `compileCSG`. -/
inductive RendererKind where
  | OpenCSGRenderer
  | ThrownTogetherRenderer
  deriving DecidableEq, Repr

/-- A renderer object: its class and the three product sets handed to its
constructor (each a possibly null `shared_ptr<CSGProducts>`). -/
structure Renderer (Products : Type) where
  kind : RendererKind
  root_products : Option Products
  highlights_products : Option Products
  background_products : Option Products
  deriving DecidableEq, Repr

/-- The slots that `afterCompileSlot` / `callslot` name. -/
inductive Slot where
  | csgRender
  | csgReloadRender
  | cgalRender
  | compileEnded
  deriving DecidableEq, Repr

/-- Calls into collaborators, recorded in order.  This is a ghost trace: with
it a statement can say that a collaborator was or was not called, and on
what. -/
inductive Call (Node Term : Type) where
  | buildCSGTree (root : Node)
  | normalize (limit : Nat) (term : Term)
  | compile (reload forcedone : Bool)
  | singleShot_actionRenderPreview
  | cgalworker_start
  deriving DecidableEq, Repr

/-- Handle of a parsed `SourceFile` (`rootFile`). -/
abbrev SourceFile := Nat

/-- Handle of a source `Location`. -/
abbrev Location := Nat

/-- The object `activeEditor` points to, as far as the embedded functions
read or write it; `address` stands for the identity of the object. -/
structure EditorInterface where
  address : Nat
  filepath : String
  autoReloadId : String
  contentsRendered : Bool
  deriving DecidableEq, Repr

/-- What the embedded functions ask of the geometry `rootGeom` points to. -/
structure Geometry where
  /-- The value of `getDimension()`. -/
  dimension : Nat
  /-- The value of `isEmpty()`. -/
  isEmpty : Bool
  /-- The geometry is a `CGAL_Nef_polyhedron` whose `p3` is not simple. -/
  nefNotSimple : Bool
  /-- The geometry is a `ManifoldGeometry` that is not valid. -/
  manifoldInvalid : Bool
  deriving DecidableEq, Repr

/-- How a call of `CSGTreeEvaluator::buildCSGTree` ends. -/
inductive BuildOutcome (Term : Type) where
  /-- It returns a term; `none` is the null term (no geometry). -/
  | returned (term : Option Term)
  /-- The traversal raises `ProgressCancelException`. -/
  | cancelled
  /-- The traversal raises `HardWarningException`. -/
  | hardWarning
  deriving DecidableEq, Repr

/-- Everything `compileCSG` observes of one `buildCSGTree` call: how it ended
and what `getHighlightNodes()` / `getBackgroundNodes()` hold afterwards (when
the traversal was cut short by an exception: what it had collected so far). -/
structure BuildResult (Term : Type) where
  outcome : BuildOutcome Term
  highlightNodes : List Term
  backgroundNodes : List Term

/-- The fields of `MainWindow` (and the statics it uses) that the embedded
functions read or write. -/
structure MainWindow (Node Term Products : Type) where
  isPreview : Bool
  rootFile : Option SourceFile
  absoluteRootNode : Option Node
  rootNode : Option Node
  python_active : Bool
  /-- The global `python_result_node` (null unless built with Python) -/
  python_result_node : Option Node
  /-- The root held by `tree`. -/
  tree_root : Option Node
  opencsgRenderer : Option (Renderer Products)
  thrownTogetherRenderer : Option (Renderer Products)
  /-- The renderer installed in the view by `qglview->setRenderer` -/
  qglview_renderer : Option (Renderer Products)
  csgRoot : Option Term
  normalizedRoot : Option Term
  rootProduct : Option Products
  highlightsProducts : Option Products
  backgroundProducts : Option Products
  afterCompileSlot : Option Slot
  procevents : Bool
  isClosing : Bool
  parser_error_pos : Int
  /-- The static `GuiLocker::guiLocked`, an `unsigned int`. -/
  guiLocked : Nat
  /-- The function-local static of `actionRenderPreview` -/
  preview_requested : Bool
  autoReloadTimerActive : Bool
  designActionAutoReloadChecked : Bool
  designActionMeasureDistEnabled : Bool
  designActionMeasureAngleEnabled : Bool
  windowActionHideAnimateChecked : Bool
  viewActionThrownTogetherChecked : Bool
  viewActionThrownTogetherEnabled : Bool
  viewActionPreviewChecked : Bool
  viewActionPreviewEnabled : Bool
  /-- The editor `activeEditor` points to. -/
  activeEditor : EditorInterface
  /-- The editor most recently rendered (`renderedEditor`), by identity. -/
  renderedEditor : Option Nat
  /-- Result of the last full render. -/
  rootGeom : Option Geometry
  /-- The console, oldest line first -/
  console : List Message
  /-- Ghost trace of collaborator calls, oldest first -/
  calls : List (Call Node Term)

/-- The collaborators and preferences `MainWindow` depends on. -/
structure Env (Node Term Products : Type) where
  /-- The preference "advanced/openCSGLimit", read with `toUInt()`. -/
  openCSGLimit : Nat
  /-- Width in bits of `unsigned long` / `size_t` (for `2ul * limit`) -/
  ulongBits : Nat
  /-- Whether `LOG` of a message of this group raises `HardWarningException`
  (decided by the logging code and `OpenSCAD::hardwarnings`, both outside
  these sources) -/
  logRaises : message_group → Bool
  /-- The call `rootFile->instantiate(...)`: the instantiated tree (null when
  there is no top level object), or `none` when the evaluation raises
  `HardWarningException`. -/
  instantiate : SourceFile → Option (Option Node)
  /-- The call `find_root_tag(absoluteRootNode, &nextLocation)`: the node tagged with
  the root modifier, and the location of a second tagged node if any -/
  find_root_tag : Node → Option Node × Option Location
  /-- The call `CSGTreeEvaluator::buildCSGTree(*rootNode)`. -/
  buildCSGTree : Node → BuildResult Term
  /-- The call `CSGTreeNormalizer(limit).normalize(term)`; `none` is the null
  result. -/
  normalize : Nat → Term → Option Term
  /-- A fresh `new CSGProducts()`. -/
  newProducts : Products
  /-- The call `CSGProducts::import(term)` on a product set. -/
  importTerm : Products → Term → Products
  /-- The call `CSGProducts::size()`. -/
  size : Products → Nat
  /-- The call `qglview->hasOpenCSGSupport()`. -/
  hasOpenCSGSupport : Bool
  /-- The member `compile(reload, forcedone)` (MainWindow.cc 1027-1122): it
  parses the document and ends in `compileDone`.  The action slots only call
  it, so its effect on the window is a parameter here. -/
  compile : Bool → Bool → MainWindow Node Term Products → MainWindow Node Term Products

/-- Result of a statement sequence that may raise `HardWarningException`:
the state reached, and whether the exception is propagating. -/
inductive Outcome (σ : Type) where
  | done (s : σ)
  | hardWarning (s : σ)

/-- Sequencing: the rest of a block runs only when nothing was raised. -/
def Outcome.andThen {σ : Type} (o : Outcome σ) (f : σ → Outcome σ) : Outcome σ :=
  match o with
  | .done s => f s
  | .hardWarning s => .hardWarning s

/-- State carried by an outcome, raised or not. -/
def Outcome.state {σ : Type} : Outcome σ → σ
  | .done s => s
  | .hardWarning s => s

section Model

variable {Node Term Products : Type}

/-! ## Logging -/

/-- Append a line to the console. -/
def print (g : message_group) (text : String) (s : MainWindow Node Term Products) :
    MainWindow Node Term Products :=
  { s with console := s.console ++ [⟨g, text⟩] }

/-- The call `LOG(group, text)`.  The line is printed; a message of a group
other than NONE then raises `HardWarningException` when `Env.logRaises` says
so.  Messages of group NONE only print: the exception handlers in
`compileCSG` and `exceptionCleanup` log them while handling that exception. -/
def LOG (env : Env Node Term Products) (g : message_group) (text : String)
    (s : MainWindow Node Term Products) : Outcome (MainWindow Node Term Products) :=
  if g ≠ message_group.NONE ∧ env.logRaises g = true then .hardWarning (print g text s)
  else .done (print g text s)

/-! ## GuiLocker (MainWindow.h) -/

/-- The operation `x++` on an `unsigned int` (32 bits). -/
def unsignedIncrement (x : Nat) : Nat := (x + 1) % 2 ^ 32

/-- The operation `x--` on an `unsigned int` (32 bits): 0 wraps to 2^32 - 1. -/
def unsignedDecrement (x : Nat) : Nat := (x + 2 ^ 32 - 1) % 2 ^ 32

/-- The call `GuiLocker::isLocked()`: `guiLocked > 0`. -/
def GuiLocker.isLocked (s : MainWindow Node Term Products) : Bool :=
  decide (s.guiLocked > 0)

/-- The call `GuiLocker::lock()`: `guiLocked++` on an `unsigned int`. -/
def GuiLocker.lock (s : MainWindow Node Term Products) : MainWindow Node Term Products :=
  { s with guiLocked := unsignedIncrement s.guiLocked }

/-- The call `GuiLocker::unlock()`: `guiLocked--` on an `unsigned int`. -/
def GuiLocker.unlock (s : MainWindow Node Term Products) : MainWindow Node Term Products :=
  { s with guiLocked := unsignedDecrement s.guiLocked }

/-- Record a collaborator call in the ghost trace. -/
def record (c : Call Node Term) (s : MainWindow Node Term Products) :
    MainWindow Node Term Products :=
  { s with calls := s.calls ++ [c] }

/-! ## View modes (MainWindow.cc 2996-3026) -/

/-- The slot `viewModeThrownTogether`. -/
def viewModeThrownTogether (env : Env Node Term Products) (s : MainWindow Node Term Products) :
    MainWindow Node Term Products :=
  { s with
    viewActionThrownTogetherEnabled := true
    viewActionPreviewEnabled := env.hasOpenCSGSupport
    viewActionThrownTogetherChecked := true
    viewActionPreviewChecked := false
    qglview_renderer := s.thrownTogetherRenderer }

/-- The slot `viewModePreview`: the OpenCSG view mode; it installs
`opencsgRenderer ? opencsgRenderer : thrownTogetherRenderer`, and goes to
thrown-together mode when the view has no OpenCSG support. -/
def viewModePreview (env : Env Node Term Products) (s : MainWindow Node Term Products) :
    MainWindow Node Term Products :=
  if env.hasOpenCSGSupport then
    { s with
      viewActionThrownTogetherEnabled := true
      viewActionPreviewEnabled := env.hasOpenCSGSupport
      viewActionPreviewChecked := true
      viewActionThrownTogetherChecked := false
      qglview_renderer :=
        match s.opencsgRenderer with
        | some r => some r
        | none => s.thrownTogetherRenderer }
  else
    viewModeThrownTogether env
      { s with
        viewActionThrownTogetherEnabled := true
        viewActionPreviewEnabled := env.hasOpenCSGSupport }

/-! ## End of a compile (MainWindow.cc 1198-1203, 2661-2666) -/

/-- The slot `compileEnded`: release the GUI lock, restart auto reload. -/
def compileEnded (s : MainWindow Node Term Products) : MainWindow Node Term Products :=
  let s1 := GuiLocker.unlock s
  if s1.designActionAutoReloadChecked then { s1 with autoReloadTimerActive := true } else s1

/-- The member `exceptionCleanup`, the handler body for `HardWarningException`. -/
def exceptionCleanup (s : MainWindow Node Term Products) : MainWindow Node Term Products :=
  let s1 := print .NONE "Execution aborted" s
  let s2 := print .NONE " " s1
  let s3 := GuiLocker.unlock s2
  if s3.designActionAutoReloadChecked then { s3 with autoReloadTimerActive := true } else s3

/-! ## instantiateRoot (MainWindow.cc 1205-1275) -/

/-- Lines 1209-1224: invalidate the renderers and remove the previous CSG
tree, before anything new is built. -/
def invalidate (s : MainWindow Node Term Products) : MainWindow Node Term Products :=
  { s with
    qglview_renderer := none
    opencsgRenderer := none
    thrownTogetherRenderer := none
    absoluteRootNode := none
    csgRoot := none
    normalizedRoot := none
    rootProduct := none
    rootNode := none
    tree_root := none }

/-- Lines 1251-1263: choose `rootNode` inside a non-null `absoluteRootNode`
and hand it to the tree. -/
def selectRoot (env : Env Node Term Products) (absolute : Node)
    (s : MainWindow Node Term Products) : MainWindow Node Term Products :=
  let found := env.find_root_tag absolute
  let s1 : MainWindow Node Term Products :=
    { s with rootNode := match found.1 with
                         | some tagged => some tagged
                         | none => some absolute }
  let s2 := match found.2 with
    | some _ => print .NONE "More than one Root Modifier (!)" s1
    | none => s1
  { s2 with tree_root := s2.rootNode }

/-- Lines 1241-1245: the tree assigned to `absoluteRootNode`: the Python
result node when there is one and Python is active, else the instantiation
of `rootFile`; `none` when the instantiation raises. -/
def instantiated (env : Env Node Term Products) (s : MainWindow Node Term Products)
    (file : SourceFile) : Option (Option Node) :=
  if s.python_result_node.isSome ∧ s.python_active = true then some s.python_result_node
  else env.instantiate file

/-- Lines 1229-1264: evaluate the CSG tree when there is a `rootFile`. -/
def evaluateRootFile (env : Env Node Term Products) (s : MainWindow Node Term Products) :
    Outcome (MainWindow Node Term Products) :=
  match s.rootFile with
  | none => .done s
  | some file =>
    let s1 := print .NONE "Compiling design (CSG Tree generation)..." s
    match instantiated env s1 file with
    | none => .hardWarning s1
    | some absolute =>
      let s2 : MainWindow Node Term Products := { s1 with absoluteRootNode := absolute }
      match absolute with
      | some a => .done (selectRoot env a s2)
      | none => .done s2

/-- Lines 1266-1274: report a compile that produced no root node. -/
def reportNoRoot (env : Env Node Term Products) (s : MainWindow Node Term Products) :
    Outcome (MainWindow Node Term Products) :=
  match s.rootNode with
  | some _ => .done s
  | none =>
    (if s.parser_error_pos < 0 then
       LOG env .Error "Compilation failed! (no top level object found)" s
     else
       LOG env .Error "Compilation failed!" s).andThen
      fun s1 => .done (print .NONE " " s1)

/-- The member `instantiateRoot`. -/
def instantiateRoot (env : Env Node Term Products) (s : MainWindow Node Term Products) :
    Outcome (MainWindow Node Term Products) :=
  (evaluateRootFile env (invalidate s)).andThen (reportNoRoot env)

/-! ## compileCSG (MainWindow.cc 1281-1389) -/

/-- Line 1318: `size_t normalizelimit = 2ul * ...toUInt()`. -/
def normalizelimit (env : Env Node Term Products) : Nat :=
  (2 * env.openCSGLimit) % 2 ^ env.ulongBits

/-- Lines 1300-1311: the inner `try`.  The assignment to `csgRoot` happens
only when `buildCSGTree` returns; both handlers just log. -/
def evaluateCSG (root : Node) (built : BuildResult Term)
    (s : MainWindow Node Term Products) : MainWindow Node Term Products :=
  let s1 := record (.buildCSGTree root) s
  match built.outcome with
  | .returned term => { s1 with csgRoot := term }
  | .cancelled => print .NONE "CSG generation cancelled." s1
  | .hardWarning => print .NONE "CSG generation cancelled due to hardwarning being enabled." s1

/-- Lines 1321-1331: normalize and import the root term. -/
def normalizeRoot (env : Env Node Term Products) (limit : Nat)
    (s : MainWindow Node Term Products) : Outcome (MainWindow Node Term Products) :=
  match s.csgRoot with
  | none => .done s
  | some term =>
    let s1 : MainWindow Node Term Products :=
      { record (.normalize limit term) s with normalizedRoot := env.normalize limit term }
    match s1.normalizedRoot with
    | some normalized =>
      .done { s1 with rootProduct := some (env.importTerm env.newProducts normalized) }
    | none =>
      LOG env .Warning "CSG normalization resulted in an empty tree"
        { s1 with rootProduct := none }

/-- The loop body of lines 1339-1344 and 1355-1360: normalize one term and,
when the result is not null, import it. -/
def importNormalized (env : Env Node Term Products) (limit : Nat) (products : Products)
    (term : Term) : Products :=
  match env.normalize limit term with
  | some nterm => env.importTerm products nterm
  | none => products

/-- Lines 1338-1344 and 1354-1360: a fresh `CSGProducts` into which the
non-null normalizations of the terms are imported, in order. -/
def importForest (env : Env Node Term Products) (limit : Nat) (terms : List Term) : Products :=
  terms.foldl (importNormalized env limit) env.newProducts

/-- Lines 1333-1347: the highlight forest. -/
def compileHighlights (env : Env Node Term Products) (limit : Nat) (highlight_terms : List Term)
    (s : MainWindow Node Term Products) : MainWindow Node Term Products :=
  if highlight_terms.length > 0 then
    let s1 := print .NONE "Compiling highlights (%1$d CSG Trees)..." s
    { s1 with
      highlightsProducts := some (importForest env limit highlight_terms)
      calls := s1.calls ++ highlight_terms.map (Call.normalize limit) }
  else
    { s with highlightsProducts := none }

/-- Lines 1349-1363: the background forest. -/
def compileBackground (env : Env Node Term Products) (limit : Nat) (background_terms : List Term)
    (s : MainWindow Node Term Products) : MainWindow Node Term Products :=
  if background_terms.length > 0 then
    let s1 := print .NONE "Compiling background (%1$d CSG Trees)..." s
    { s1 with
      backgroundProducts := some (importForest env limit background_terms)
      calls := s1.calls ++ background_terms.map (Call.normalize limit) }
  else
    { s with backgroundProducts := none }

/-- Line 1375: `std::make_shared<OpenCSGRenderer>(rootProduct, ...)`. -/
def makeOpenCSGRenderer (s : MainWindow Node Term Products) : MainWindow Node Term Products :=
  { s with
    opencsgRenderer :=
      some ⟨.OpenCSGRenderer, s.rootProduct, s.highlightsProducts, s.backgroundProducts⟩ }

/-- Line 1380: `std::make_shared<ThrownTogetherRenderer>(rootProduct, ...)`. -/
def makeThrownTogetherRenderer (s : MainWindow Node Term Products) :
    MainWindow Node Term Products :=
  { s with
    thrownTogetherRenderer :=
      some ⟨.ThrownTogetherRenderer, s.rootProduct, s.highlightsProducts, s.backgroundProducts⟩ }

/-- Lines 1365-1382: the OpenCSG renderer is created in the `else` branch of
`rootProduct && rootProduct->size() > openCSGLimit`; the thrown-together
renderer is created in both branches. -/
def createRenderers (env : Env Node Term Products) (s : MainWindow Node Term Products) :
    Outcome (MainWindow Node Term Products) :=
  let tooLarge : Bool :=
    match s.rootProduct with
    | some products => decide (env.size products > env.openCSGLimit)
    | none => false
  (if tooLarge then
     (LOG env .UI_Warning "Normalized tree has %1$d elements!" s).andThen
       (LOG env .UI_Warning "OpenCSG rendering has been disabled.")
   else
     .done (makeOpenCSGRenderer (print .NONE "Normalized tree has %1$d elements!" s))).andThen
    fun s1 => .done (makeThrownTogetherRenderer s1)

/-- Lines 1285-1385: the body of the outer `try`, with `*rootNode = root`. -/
def compileCSG_try (env : Env Node Term Products) (root : Node)
    (s : MainWindow Node Term Products) : Outcome (MainWindow Node Term Products) :=
  let s1 := print .NONE "Compiling design (CSG Products generation)..." s
  -- 1298-1299: `if (!isClosing) progress_report_prep(...); else return;`
  if s1.isClosing then .done s1
  else
    let built := env.buildCSGTree root
    let s2 := evaluateCSG root built s1
    let s3 := print .NONE "Compiling design (CSG Products normalization)..." s2
    let limit := normalizelimit env
    (normalizeRoot env limit s3).andThen fun s4 =>
      let s5 := compileHighlights env limit built.highlightNodes s4
      let s6 := compileBackground env limit built.backgroundNodes s5
      (createRenderers env s6).andThen fun s7 =>
        .done (print .NONE "Compile and preview finished." s7)

/-- The member `compileCSG`.  It starts with `assert(this->rootNode)`: the
result is `none` when the assertion fails.  A `HardWarningException` leaving
the outer `try` is handled by `exceptionCleanup`. -/
def compileCSG (env : Env Node Term Products) (s : MainWindow Node Term Products) :
    Option (MainWindow Node Term Products) :=
  match s.rootNode with
  | none => none
  | some root =>
    match compileCSG_try env root s with
    | .done s1 => some s1
    | .hardWarning s1 => some (exceptionCleanup s1)

/-! ## Preview slots (MainWindow.cc 2115-2202, 2289-2296) -/

/-- The slot `csgRender`. -/
def csgRender (env : Env Node Term Products) (s : MainWindow Node Term Products) :
    MainWindow Node Term Products :=
  let s1 := if s.rootNode.isSome then (compileCSG env s).getD s else s
  let s2 := if s1.viewActionThrownTogetherChecked then viewModeThrownTogether env s1
            else viewModePreview env s1
  compileEnded s2

/-- The slot `csgReloadRender`. -/
def csgReloadRender (env : Env Node Term Products) (s : MainWindow Node Term Products) :
    MainWindow Node Term Products :=
  let s1 := if s.rootNode.isSome then (compileCSG env s).getD s else s
  let s2 := if s1.viewActionThrownTogetherChecked then viewModeThrownTogether env s1
            else viewModePreview env s1
  compileEnded s2

/-- The member `prepareCompile`. -/
def prepareCompile (afterCompileSlot : Slot) (procevents preview : Bool)
    (s : MainWindow Node Term Products) : MainWindow Node Term Products :=
  let s1 : MainWindow Node Term Products := { s with autoReloadTimerActive := false }
  let s2 := print .NONE " " s1
  let s3 := print .NONE "Parsing design (AST generation)..." s2
  { s3 with afterCompileSlot := some afterCompileSlot, procevents := procevents,
            isPreview := preview }

/-- A call of the member `compile(reload, forcedone)`. -/
def callCompile (env : Env Node Term Products) (reload forcedone : Bool)
    (s : MainWindow Node Term Products) : MainWindow Node Term Products :=
  env.compile reload forcedone (record (.compile reload forcedone) s)

/-- Lines 2118-2124 of `actionReloadRenderPreview`: from taking the lock to
the state `compile(true)` is called in. -/
def actionReloadRenderPreview_prepare (s : MainWindow Node Term Products) :
    MainWindow Node Term Products :=
  let s1 := GuiLocker.lock s
  let s2 : MainWindow Node Term Products := { s1 with autoReloadTimerActive := false }
  { s2 with afterCompileSlot := some .csgReloadRender, procevents := true, isPreview := true }

/-- The slot `actionReloadRenderPreview`. -/
def actionReloadRenderPreview (env : Env Node Term Products)
    (s : MainWindow Node Term Products) : MainWindow Node Term Products :=
  if GuiLocker.isLocked s then s
  else callCompile env true false (actionReloadRenderPreview_prepare s)

/-- Lines 2163-2169 of `actionRenderPreview`: from taking the lock to the
state `compile(false, false)` is called in. -/
def actionRenderPreview_prepare (s : MainWindow Node Term Products) :
    MainWindow Node Term Products :=
  let s1 := GuiLocker.lock s
  let s2 : MainWindow Node Term Products :=
    { s1 with preview_requested := false, designActionMeasureDistEnabled := false,
              designActionMeasureAngleEnabled := false }
  prepareCompile .csgRender s2.windowActionHideAnimateChecked true s2

/-- The slot `actionRenderPreview`. -/
def actionRenderPreview (env : Env Node Term Products) (s : MainWindow Node Term Products) :
    MainWindow Node Term Products :=
  let s1 : MainWindow Node Term Products := { s with preview_requested := true }
  if GuiLocker.isLocked s1 then s1
  else
    let s2 := callCompile env false false (actionRenderPreview_prepare s1)
    -- 2171-2176: asked again while the lock was held: run once more from the main loop
    if s2.preview_requested then record .singleShot_actionRenderPreview s2 else s2

/-- Lines 2292-2294 of `actionRender`: from taking the lock to the state
`compile(false)` is called in. -/
def actionRender_prepare (s : MainWindow Node Term Products) : MainWindow Node Term Products :=
  prepareCompile .cgalRender true false (GuiLocker.lock s)

/-- The slot `actionRender`. -/
def actionRender (env : Env Node Term Products) (s : MainWindow Node Term Products) :
    MainWindow Node Term Products :=
  if GuiLocker.isLocked s then s
  else callCompile env false false (actionRender_prepare s)

end Model

/-! ## Progress callback (MainWindow.cc 978-997) -/

/-- What `report_func` reads and writes: the static `progressThrottle` timer
and the value shown by the progress widget. -/
structure ProgressState where
  /-- Clock reading (ms, monotonic clock) at the last `progressThrottle->start()`. -/
  throttleStart : Int
  /-- The value `progresswidget->value()`. -/
  value : Int
  deriving DecidableEq, Repr

/-- One call of `report_func`. -/
structure ReportCall where
  /-- Clock reading (ms) when the call is made. -/
  now : Int
  mark : Int
  /-- What `progresswidget->wasCanceled()` answers during this call. -/
  wasCanceled : Bool
  /-- The `int` that `static_cast<int>` produces in this call when the
  `double` it converts has no `int` value: the conversion is undefined then
  (x86-64 produces `INT_MIN`). -/
  outOfRange : Int
  deriving DecidableEq, Repr

/-- What one call of `report_func` did. -/
structure ReportResult where
  state : ProgressState
  /-- The throttle test succeeded: the body of the `if` ran. -/
  passed : Bool
  /-- The value forwarded to `setValue`, if any. -/
  setValue : Option Int
  /-- The call raised `ProgressCancelException`. -/
  cancelled : Bool
  deriving DecidableEq, Repr

/-- The constant `MIN_TIMEOUT`. -/
def MIN_TIMEOUT : Int := 200

/-- The call `progressThrottle->hasExpired(timeout)` at clock reading `now`:
more than `timeout` milliseconds have elapsed since the timer was started. -/
def hasExpired (p : ProgressState) (now timeout : Int) : Bool :=
  decide (now - p.throttleStart > timeout)

/-- The least value of the 32-bit `int`. -/
def INT_MIN : Int := -2147483648

/-- The greatest value of the 32-bit `int`. -/
def INT_MAX : Int := 2147483647

/-- The conversion `static_cast<int>` of a finite `double` whose integer part
(the value truncated toward zero) is `truncated`: that integer when it is an
`int`, and otherwise whatever the undefined conversion produces. -/
def static_cast_int (outOfRange truncated : Int) : Int :=
  if INT_MIN ≤ truncated ∧ truncated ≤ INT_MAX then truncated else outOfRange

/-- Lines 986-987: `v = static_cast<int>((mark * 1000.0) / progress_report_count)`
and `permille = v < 1000 ? v : 999`.  The product `mark * 1000.0` is exact in
`double` (an `int` times 1000 is below 2^53) and the rounded quotient has the
integer part of the exact one, so the value converted is the quotient
truncated toward zero; a zero `progress_report_count` gives an infinity or a
NaN, which has no `int` value. -/
def permille (progress_report_count mark outOfRange : Int) : Int :=
  let v :=
    if progress_report_count = 0 then outOfRange
    else static_cast_int outOfRange (Int.tdiv (mark * 1000) progress_report_count)
  if v < 1000 then v else 999

/-- The member `report_func`. -/
def report_func (progress_report_count : Int) (c : ReportCall) (p : ProgressState) :
    ReportResult :=
  if hasExpired p c.now MIN_TIMEOUT then
    let p1 : ProgressState := { p with throttleStart := c.now }
    let pm := permille progress_report_count c.mark c.outOfRange
    if pm > p1.value then
      ⟨{ p1 with value := pm }, true, some pm, c.wasCanceled⟩
    else
      ⟨p1, true, none, c.wasCanceled⟩
  else
    ⟨p, false, none, false⟩

/-- What happens to the static `progressThrottle` timer over time: a call of
`report_func`, or the construction of another `MainWindow`, whose constructor
runs `progressThrottle->start()` (line 419) at the given clock reading. -/
inductive ThrottleEvent where
  | report (c : ReportCall)
  | windowCreated (now : Int)
  deriving DecidableEq, Repr

/-- Clock reading at which an event happens. -/
def ThrottleEvent.time : ThrottleEvent → Int
  | .report c => c.now
  | .windowCreated now => now

/-- Clock readings of the `report_func` calls that passed the throttle, in
order, when the events happen one after the other. -/
def passedTimes (progress_report_count : Int) : ProgressState → List ThrottleEvent → List Int
  | _, [] => []
  | p, .windowCreated now :: es =>
    passedTimes progress_report_count { p with throttleStart := now } es
  | p, .report c :: es =>
    let r := report_func progress_report_count c p
    if r.passed then c.now :: passedTimes progress_report_count r.state es
    else passedTimes progress_report_count r.state es

/-- The value shown by the progress widget after the calls of `report_func`
in the list, one after the other. -/
def displayedAfter (progress_report_count : Int) (p : ProgressState)
    (calls : List ReportCall) : Int :=
  (calls.foldl (fun q c => (report_func progress_report_count c q).state) p).value

/-! ## Concrete instances, used to evaluate the model -/

/-- A window before any compile: every pointer null, the lock free, the
console and the call trace empty. -/
def MainWindow.init {Node Term Products : Type} : MainWindow Node Term Products :=
  { isPreview := false
    rootFile := none
    absoluteRootNode := none
    rootNode := none
    python_active := false
    python_result_node := none
    tree_root := none
    opencsgRenderer := none
    thrownTogetherRenderer := none
    qglview_renderer := none
    csgRoot := none
    normalizedRoot := none
    rootProduct := none
    highlightsProducts := none
    backgroundProducts := none
    afterCompileSlot := none
    procevents := false
    isClosing := false
    parser_error_pos := -1
    guiLocked := 0
    preview_requested := false
    autoReloadTimerActive := false
    designActionAutoReloadChecked := false
    designActionMeasureDistEnabled := true
    designActionMeasureAngleEnabled := true
    windowActionHideAnimateChecked := false
    viewActionThrownTogetherChecked := false
    viewActionThrownTogetherEnabled := true
    viewActionPreviewChecked := true
    viewActionPreviewEnabled := true
    activeEditor := ⟨1, "", "", false⟩
    renderedEditor := none
    rootGeom := none
    console := []
    calls := [] }

/-- An environment over numbered nodes and terms.  A product set is the list
of the terms imported into it; the view supports OpenCSG; no `LOG` raises;
a file instantiates to the node of the same number and no node carries the
root modifier.  The evaluator and the normalizer are the arguments. -/
def Env.sample (build : Nat → BuildResult Nat) (normalize : Nat → Nat → Option Nat) :
    Env Nat Nat (List Nat) :=
  { openCSGLimit := 2000
    ulongBits := 64
    logRaises := fun _ => false
    instantiate := fun file => some (some file)
    find_root_tag := fun _ => (none, none)
    buildCSGTree := build
    normalize := normalize
    newProducts := []
    importTerm := fun products term => products ++ [term]
    size := List.length
    hasOpenCSGSupport := true
    compile := fun _ _ s => s }

/-- A normalizer that always runs out of budget. -/
def normalizeFails : Nat → Nat → Option Nat := fun _ _ => none

/-- A normalizer that returns its input unchanged. -/
def normalizeKeeps : Nat → Nat → Option Nat := fun _ term => some term

/-- An evaluator that returns term 5 for every node, with no highlight or
background nodes. -/
def buildsFive : Nat → BuildResult Nat := fun _ => ⟨.returned (some 5), [], []⟩

/-- A window whose root node is node 1, ready for `compileCSG`. -/
def readyWindow : MainWindow Nat Nat (List Nat) :=
  { (MainWindow.init : MainWindow Nat Nat (List Nat)) with rootNode := some 1, tree_root := some 1 }

/-- An evaluator that returns the null term for every node (no geometry),
having collected the highlight node 7. -/
def buildsNothing : Nat → BuildResult Nat := fun _ => ⟨.returned none, [7], []⟩

/-- An evaluator whose traversal is cancelled after it has collected the
highlight node 7 and the background node 8. -/
def cancelledAfterCollecting : Nat → BuildResult Nat := fun _ => ⟨.cancelled, [7], [8]⟩

/-- The window after one complete preview compile of file 1 (whose tree
evaluates to term 5): `instantiateRoot`, `compileCSG`, `viewModePreview`. -/
def previousCompile : MainWindow Nat Nat (List Nat) :=
  let env := Env.sample buildsFive normalizeKeeps
  let s0 : MainWindow Nat Nat (List Nat) := { MainWindow.init with rootFile := some 1 }
  let s1 := (instantiateRoot env s0).state
  viewModePreview env ((compileCSG env s1).getD s1)

/-- The window of `previousCompile` when the next parse has produced no
`rootFile`. -/
def previousCompileNoFile : MainWindow Nat Nat (List Nat) :=
  { previousCompile with rootFile := none }

/-- A window in which a compile is in flight: the GUI lock is held once. -/
def lockedWindow : MainWindow Nat Nat (List Nat) :=
  GuiLocker.lock readyWindow

/-- The state `instantiateRoot` leaves the previous results in: the view's
renderer, both renderers, `csgRoot`, `normalizedRoot` and `rootProduct` are
all null. -/
def Invalidated {Node Term Products : Type} (s : MainWindow Node Term Products) : Prop :=
  s.qglview_renderer = none ∧ s.opencsgRenderer = none ∧ s.thrownTogetherRenderer = none ∧
    s.csgRoot = none ∧ s.normalizedRoot = none ∧ s.rootProduct = none

/-- An evaluator that returns term 5 and has collected the highlight nodes 7
and 9 and the background node 8. -/
def buildsThreeForests : Nat → BuildResult Nat := fun _ => ⟨.returned (some 5), [7, 9], [8]⟩

/-- A normalizer that fails on term 9 and keeps every other term. -/
def normalizeAllButNine : Nat → Nat → Option Nat :=
  fun _ term => if term = 9 then none else some term

/-- The sample environment, except that node 2 carries the root modifier in
every tree. -/
def Env.sampleTagged (build : Nat → BuildResult Nat) (normalize : Nat → Nat → Option Nat) :
    Env Nat Nat (List Nat) :=
  { Env.sample build normalize with find_root_tag := fun _ => (some 2, none) }

/-- A window whose parsed document is file 1, before `instantiateRoot`. -/
def parsedWindow : MainWindow Nat Nat (List Nat) :=
  { (MainWindow.init : MainWindow Nat Nat (List Nat)) with rootFile := some 1 }

/-- A call trace that holds calls of the normalizer only. -/
def onlyNormalizeCalls {Node Term : Type} (cs : List (Call Node Term)) : Prop :=
  ∀ c ∈ cs, ∃ limit term, c = Call.normalize limit term

/-! ## Compile dispatch (MainWindow.cc 1178-1196, 2298-2319) -/

section Dispatch

variable {Node Term Products : Type}

/-- The slot `cgalRender`, up to the start of the worker thread: without a
root file or root node the compile ends at once; otherwise the renderer is
taken out of the view, `rootGeom` is dropped and, unless the window is
closing, the worker is started (its completion is a later event). -/
def cgalRender (s : MainWindow Node Term Products) : MainWindow Node Term Products :=
  if s.rootFile.isNone ∨ s.rootNode.isNone then compileEnded s
  else
    let s1 : MainWindow Node Term Products := { s with qglview_renderer := none, rootGeom := none }
    let s2 := print .NONE "Rendering Polygon Mesh using %1$s..." s1
    if s2.isClosing then s2 else record .cgalworker_start s2

/-- The call `QMetaObject::invokeMethod(this, callslot)`: the named slot runs
at once. -/
def invokeMethod (env : Env Node Term Products) (callslot : Option Slot)
    (s : MainWindow Node Term Products) : MainWindow Node Term Products :=
  match callslot with
  | some .csgRender => csgRender env s
  | some .csgReloadRender => csgReloadRender env s
  | some .cgalRender => cgalRender s
  | some .compileEnded => compileEnded s
  | none => s

/-- The member `compileDone`: after a change the root is instantiated and
`afterCompileSlot` is invoked, otherwise `compileEnded`; a
`HardWarningException` from `instantiateRoot` is handled by
`exceptionCleanup`. -/
def compileDone (env : Env Node Term Products) (didchange : Bool)
    (s : MainWindow Node Term Products) : MainWindow Node Term Products :=
  if didchange then
    match instantiateRoot env s with
    | .hardWarning s1 => exceptionCleanup s1
    | .done s1 => invokeMethod env s1.afterCompileSlot { s1 with procevents := false }
  else invokeMethod env (some .compileEnded) { s with procevents := false }

/-- The environment of a preview run whose front end raises nothing.  In
`compile(false, false)` the document is always parsed (`reload` is false, so
`shouldcompiletoplevel` and `didcompile` are true) and, when neither the
parser nor the dependency handling raises, line 1114 calls
`compileDone(true)`; `parse` is what lines 1037-1103 do to the window. -/
def previewEnv (env : Env Node Term Products)
    (parse : MainWindow Node Term Products → MainWindow Node Term Products) :
    Env Node Term Products :=
  { env with compile := fun _ _ s => compileDone env true (parse s) }

end Dispatch

/-! ## fileChangedOnDisk (MainWindow.cc 1950-1967) -/

/-- The fields of `struct stat` that `fileChangedOnDisk` reads, as the
unsigned values that `%x` prints. -/
structure Stat where
  st_mtime : Nat
  st_size : Nat
  deriving DecidableEq, Repr

/-- The conversion `%x`: lower-case hexadecimal digits. -/
def hexDigits (n : Nat) : String := String.mk (Nat.toDigits 16 n)

/-- Line 1959: `str(boost::format("%x.%x") % st.st_mtime % st.st_size)`. -/
def autoReloadIdOf (st : Stat) : String :=
  hexDigits st.st_mtime ++ "." ++ hexDigits st.st_size

/-- The value of a hexadecimal digit, `0` to `9` and `a` to `f`. -/
def hexDigitValue (c : Char) : Nat :=
  if '0' ≤ c ∧ c ≤ '9' then c.toNat - 48 else c.toNat - 87

/-- The number that a string of hexadecimal digits denotes, most significant
digit first. -/
def hexValue (digits : String) : Nat :=
  digits.toList.foldl (fun value c => value * 16 + hexDigitValue c) 0

/-- The member `fileChangedOnDisk`; the first argument is the system call
`stat`, `none` when it fails. -/
def fileChangedOnDisk {Node Term Products : Type} (stat : String → Option Stat)
    (s : MainWindow Node Term Products) : Bool × MainWindow Node Term Products :=
  if s.activeEditor.filepath ≠ "" then
    match stat s.activeEditor.filepath with
    | none => (false, s)
    | some st =>
      let newid := autoReloadIdOf st
      if newid ≠ s.activeEditor.autoReloadId then
        (true, { s with activeEditor := { s.activeEditor with autoReloadId := newid } })
      else (false, s)
  else (false, s)

/-! ## canExport (MainWindow.cc 2776-2834) -/

/-- The buttons a `QMessageBox::warning` call can return here. -/
inductive StandardButton where
  | Yes
  | YesAll
  | No
  | NoButton
  deriving DecidableEq, Repr

/-- Result of a member function with a return value that may instead let a
`HardWarningException` propagate. -/
inductive Returned (α σ : Type) where
  | value (result : α) (s : σ)
  | hardWarning (s : σ)

/-- Return a value after a `LOG` call, unless the call raised. -/
def Outcome.thenReturn {α σ : Type} (o : Outcome σ) (result : α) : Returned α σ :=
  match o with
  | .done s => .value result s
  | .hardWarning s => .hardWarning s

/-- The member `canExport(dim)`.  The two button arguments are what the user
answers to the prompt about a tab modified since its last render and to the
prompt about another tab having been rendered, when the prompt is shown. -/
def canExport {Node Term Products : Type} (env : Env Node Term Products)
    (answerModified answerOtherTab : StandardButton) (dim : Nat)
    (s : MainWindow Node Term Products) : Returned Bool (MainWindow Node Term Products) :=
  match s.rootGeom with
  | none =>
    (LOG env .Error "Nothing to export! Try rendering first (press F6)" s).thenReturn false
  | some geom =>
    if s.activeEditor.contentsRendered = false ∧ answerModified ≠ .Yes then .value false s
    else if s.renderedEditor ≠ some s.activeEditor.address ∧ answerOtherTab ≠ .Yes then
      .value false s
    else if geom.dimension ≠ dim then
      (LOG env .UI_Error "Current top level object is not a %1$dD object." s).thenReturn false
    else if geom.isEmpty then
      (LOG env .UI_Error "Current top level object is empty." s).thenReturn false
    else
      ((if geom.nefNotSimple then
          LOG env .UI_Warning "Object may not be a valid 2-manifold and may need repair!" s
        else .done s).andThen
        fun s1 =>
          if geom.manifoldInvalid then
            LOG env .UI_Warning "Object may not be a valid manifold and may need repair!" s1
          else .done s1).thenReturn true

/-! ## convertTabsToSpaces (MainWindow.cc 1857-1878) -/

/-- One round of the loop of `convertTabsToSpaces`, on the text converted so
far and the counter `cnt`: a tab appends `cnt` spaces (the inner loop runs
while `cnt > 0` and leaves `cnt` at 0), any other character is appended;
then `if (cnt <= 0 || c == '\n') cnt = 5;` and `cnt--`. -/
def convertStep (state : List Char × Int) (c : Char) : List Char × Int :=
  let afterAppend : List Char × Int :=
    if c = '\t' then (state.1 ++ List.replicate state.2.toNat ' ', min state.2 0)
    else (state.1 ++ [c], state.2)
  let cnt : Int := if afterAppend.2 ≤ 0 ∨ c = '\n' then 5 else afterAppend.2
  (afterAppend.1, cnt - 1)

/-- The member `convertTabsToSpaces`, from the text of the editor to the
text set back into it: the loop starts with `cnt = 4`. -/
def convertTabsToSpaces (text : List Char) : List Char :=
  (text.foldl convertStep ([], 4)).1

/-! ## trust_python_file (MainWindow.cc 1974-2024) -/

/-- What `trust_python_file` reads and writes: the global `python_trusted`,
the two document names of the window and the settings store (`QSettings`),
newest entry first. -/
structure TrustState where
  python_trusted : Bool
  trusted_edit_document_name : String
  untrusted_edit_document_name : String
  settings : List (String × String)
  deriving DecidableEq, Repr

/-- Line 1980: `snprintf(setting_key, sizeof(setting_key) - 1,
"python_hash/%s", file.c_str())` into a buffer of 256 characters: at most
254 characters are kept (a character of the string stands for one `char` of
the `std::string`). -/
def setting_key (file : String) : String :=
  String.mk (("python_hash/" ++ file).toList.take 254)

/-- Lines 1995-1999: the reference hash, the stored value when the settings
contain the key and the empty string otherwise. -/
def ref_hash (t : TrustState) (file : String) : String :=
  (t.settings.lookup (setting_key file)).getD ""

/-- The call `settings.setValue(setting_key, act_hash)`. -/
def storeHash (t : TrustState) (file act_hash : String) : TrustState :=
  { t with settings := (setting_key file, act_hash) :: t.settings }

/-- The member `trust_python_file(file, content)`.  The first argument is
`SHA256HashString` (which calls into the hash library), the second what the
user answers to the warning box when it is shown. -/
def trust_python_file (SHA256HashString : String → String) (answer : StandardButton)
    (file content : String) (t : TrustState) : Bool × TrustState :=
  if t.python_trusted then (true, t)
  else
    let act_hash := SHA256HashString content
    if file = t.untrusted_edit_document_name then (false, t)
    else if file = t.trusted_edit_document_name then (true, storeHash t file act_hash)
    else if content.utf8ByteSize ≤ 1 then (true, { t with trusted_edit_document_name := file })
    else if act_hash = ref_hash t file then (true, { t with trusted_edit_document_name := file })
    else
      match answer with
      | .YesAll => (true, { t with python_trusted := true })
      | .Yes => (true, storeHash { t with trusted_edit_document_name := file } file act_hash)
      | .No => (false, { t with untrusted_edit_document_name := file })
      | .NoButton => (false, t)

/-! ## activateWindow (MainWindow.cc 3518-3546) -/

/-- How a call of `activateWindow` ends. -/
inductive Activation where
  /-- The call `dock.focus(this)` on the dock of this index, then `return`. -/
  | focused (dock : Nat)
  /-- The loops ended and nothing was focused. -/
  | unchanged
  /-- The call `docks.at(target)` threw `std::out_of_range`. -/
  | out_of_range
  deriving DecidableEq, Repr

/-- The constant `cnt = docks.size()` of the array of 7 docks. -/
def docks_size : Int := 7

/-- The lookup `docks.at(index)` of `std::array`: the `int` index is converted
to `size_t`, so a negative one is out of range like one that is too large. -/
def docks_at (index : Int) : Option Nat :=
  if 0 ≤ index ∧ index < docks_size then some index.toNat else none

/-- Line 3536: `target = (cnt + idx + o * offset) % cnt`, in `int`, where `%`
takes the sign of the dividend.  The operands stay far from the limits of
`int` for the offsets the callers pass. -/
def target (idx o offset : Int) : Int :=
  Int.tmod (docks_size + idx + o * offset) docks_size

/-- Lines 3535-3542: the loop over `o`, here over the values of `o` still to
come.  The result is `none` when the loop ends without a `return`. -/
def tryOffsets (isVisible : Nat → Bool) (idx offset : Int) : List Int → Option Activation
  | [] => none
  | o :: later =>
    match docks_at (target idx o offset) with
    | none => some .out_of_range
    | some dock =>
      if isVisible dock then some (.focused dock)
      else tryOffsets isVisible idx offset later

/-- Lines 3533-3544: the loop over `idx`, here over the indices still to
come, for one widget of the focus chain.  `dockWidget idx` is the widget of
`docks.at(idx)`. -/
def tryDocks (dockWidget : Nat → Nat) (isVisible : Nat → Bool) (offset : Int) (widget : Nat) :
    List Nat → Option Activation
  | [] => none
  | idx :: later =>
    if widget = dockWidget idx then
      match tryOffsets isVisible idx offset [1, 2, 3, 4, 5, 6] with
      | some result => some result
      | none => tryDocks dockWidget isVisible offset widget later
    else tryDocks dockWidget isVisible offset widget later

/-- The member `activateWindow(offset)`.  The last argument is the focus
widget followed by its parent widgets, innermost first (empty when no widget
has the focus). -/
def activateWindow (dockWidget : Nat → Nat) (isVisible : Nat → Bool) (offset : Int) :
    List Nat → Activation
  | [] => .unchanged
  | widget :: parents =>
    match tryDocks dockWidget isVisible offset widget [0, 1, 2, 3, 4, 5, 6] with
    | some result => result
    | none => activateWindow dockWidget isVisible offset parents

/-- The docks in the order in which `activateWindow(offset)` tries them when
the dock of index `idx` has the focus. -/
def triedDocks (idx offset : Int) : List Nat :=
  [1, 2, 3, 4, 5, 6].map fun o : Int => (target idx o offset).toNat

/-! ## getCodeLocation (MainWindow.cc 2483-2525) -/

/-- What `modinst->location()` gives: the accessors `firstLine()`,
`firstColumn()`, `lastLine()` and `lastColumn()`, all `int`. -/
structure NodeLocation where
  firstLine : Int
  firstColumn : Int
  lastLine : Int
  lastColumn : Int
  deriving DecidableEq, Repr

/-- What `getCodeLocation` reads of an `AbstractNode`: the location and the
name of its module instantiation, its `verbose_name()` and its children. -/
inductive AbstractNode where
  | mk (location : NodeLocation) (verbose_name : String) (modinst_name : String)
      (children : List AbstractNode)

/-- The four `int` behind the pointers `firstLine`, `firstColumn`, `lastLine`
and `lastColumn`. -/
structure CodeRange where
  firstLine : Int
  firstColumn : Int
  lastLine : Int
  lastColumn : Int
  deriving DecidableEq, Repr

/-- Lines 2487-2492, and again 2498-2503: the update of `*firstLine` and
`*firstColumn`. -/
def includeFirst (location : NodeLocation) (r : CodeRange) : CodeRange :=
  if r.firstLine < 0 ∨ r.firstLine > location.firstLine then
    { r with firstLine := location.firstLine, firstColumn := location.firstColumn }
  else if r.firstLine = location.firstLine ∧ r.firstColumn > location.firstColumn then
    { r with firstColumn := location.firstColumn }
  else r

/-- Lines 2487-2510: the body of the first `if` of `getCodeLocation`. -/
def includeLocation (location : NodeLocation) (r : CodeRange) : CodeRange :=
  let r1 := includeFirst location r
  if r1.lastLine < 0 ∨ r1.lastLine < location.lastLine then
    { r1 with lastLine := location.lastLine, lastColumn := location.lastColumn }
  else
    let r2 := includeFirst location r1
    if r2.lastLine < 0 ∨ r2.lastLine < location.lastLine then
      { r2 with lastLine := location.lastLine, lastColumn := location.lastColumn }
    else if r2.lastLine = location.lastLine ∧ r2.lastColumn < location.lastColumn then
      { r2 with lastColumn := location.lastColumn }
    else r2

/-- Line 2513: `verbose_name().rfind("module", 0) == 0`, the name starts with
"module". -/
def startsWithModule (verbose_name : String) : Bool :=
  List.isPrefixOf "module".toList verbose_name.toList

/-- Lines 2513-2518: the nested-module depth with which the children of a
node are visited. -/
def childrenDepth (verbose_name modinst_name : String) (nestedModuleDepth : Int) : Int :=
  let entered := if startsWithModule verbose_name then nestedModuleDepth + 1
    else nestedModuleDepth
  if modinst_name = "children" then entered - 1 else entered

mutual
/-- The function `getCodeLocation`, from the range behind the four pointers
on entry to the range behind them on return.  The recursion follows the
tree, so the function returns for every tree.  The counters `currentLevel`
and `nestedModuleDepth` stay far from the limits of `int`: they change by at
most one per level of the tree. -/
def getCodeLocation (self : AbstractNode) (currentLevel includeLevel : Int) (r : CodeRange)
    (nestedModuleDepth : Int) : CodeRange :=
  match self with
  | .mk location verbose_name modinst_name children =>
    let r1 :=
      if currentLevel ≥ includeLevel ∧ nestedModuleDepth = 0 then includeLocation location r
      else r
    let depth := childrenDepth verbose_name modinst_name nestedModuleDepth
    if depth ≥ 0 then
      getCodeLocationOfChildren children (currentLevel + 1) includeLevel r1 depth
    else r1

/-- Lines 2520-2524: the loop over the children still to come. -/
def getCodeLocationOfChildren (nodes : List AbstractNode) (currentLevel includeLevel : Int)
    (r : CodeRange) (nestedModuleDepth : Int) : CodeRange :=
  match nodes with
  | [] => r
  | node :: later =>
    getCodeLocationOfChildren later currentLevel includeLevel
      (getCodeLocation node currentLevel includeLevel r nestedModuleDepth) nestedModuleDepth
end

mutual
/-- The locations of the nodes that a call of `getCodeLocation` on the node,
entered with the given nested-module depth, visits at nested-module depth 0,
in the order of the visits. -/
def visitedAtDepthZero (self : AbstractNode) (nestedModuleDepth : Int) : List NodeLocation :=
  match self with
  | .mk location verbose_name modinst_name children =>
    (if nestedModuleDepth = 0 then [location] else []) ++
      (if childrenDepth verbose_name modinst_name nestedModuleDepth ≥ 0 then
        visitedBelow children (childrenDepth verbose_name modinst_name nestedModuleDepth)
      else [])

/-- The same for a list of children, all entered with the given depth. -/
def visitedBelow (nodes : List AbstractNode) (nestedModuleDepth : Int) : List NodeLocation :=
  match nodes with
  | [] => []
  | node :: later =>
    visitedAtDepthZero node nestedModuleDepth ++ visitedBelow later nestedModuleDepth
end

/-! ## The CSG core, modelled from the specification

The term classes, the term evaluator, the normalizer and the render products
are declared outside `MainWindow.cc` and `MainWindow.h`.  For the statements
that are about them, they are modelled here from the text of the
specification (sections 3, 4.1, 4.2 and 4.3). -/

/-- Modelled from the spec: the operator of an `OperationTerm` (section 3,
`op ∈ {UNION, INTERSECTION, DIFFERENCE}`); the CSG term classes are missing
from the sources. -/
inductive Operator where
  | UNION
  | INTERSECTION
  | DIFFERENCE
  deriving DecidableEq, Repr

/-- Modelled from the spec: the fields of a `PrimitiveTerm` (section 3:
geometry handle, local transform, label for debugging), with the index of the
originating scene node, which the render products carry for picking (4.3).
The transform is the sequence of the transforms accumulated on the way down.
The CSG term classes are missing from the sources. -/
structure PrimitiveTerm where
  geometryHandle : Nat
  localTransform : List Nat
  labelForDebug : String
  sourceNodeIndex : Nat
  deriving DecidableEq, Repr

/-- Modelled from the spec: the CSG term (section 3), a leaf geometry
reference or a binary boolean operation over two sub-terms; the CSG term
classes are missing from the sources.  The bounding volume a term carries is
not a field: the one use the spec makes of it is the disjointness test of the
normalizer, which is a parameter there. -/
inductive CSGTerm where
  | primitive (p : PrimitiveTerm)
  | operation (op : Operator) (left right : CSGTerm)
  deriving DecidableEq, Repr

/-- Modelled from the spec: the modifiers of a scene node (section 3,
`modifier {highlight, background, root, disable}`); the scene node classes
are missing from the sources. -/
inductive Modifier where
  | highlight
  | background
  | root
  | disable
  deriving DecidableEq, Repr

/-- Modelled from the spec: the node-kind tag of a scene node (section 3); a
primitive carries the fingerprint under which its geometry is requested, a
transform the handle of its matrix.  The scene node classes are missing from
the sources. -/
inductive NodeKind where
  | primitive (fingerprint : Nat)
  | transform (matrix : Nat)
  | booleanOp (op : Operator)
  | modifier (m : Modifier)
  | group
  deriving DecidableEq, Repr

/-- Modelled from the spec: the scene node (section 3): a stable index, the
kind tag, the ordered list of owned children and the label for diagnostics.
The scene node classes are missing from the sources. -/
inductive SceneNode where
  | mk (index : Nat) (kind : NodeKind) (children : List SceneNode) (label : String)

/-- Modelled from the spec: the accumulated modifier state of the traversal
context (4.1, `{normal, highlight, background, disabled}`); the evaluator is
missing from the sources. -/
inductive ModifierState where
  | normal
  | highlight
  | background
  | disabled
  deriving DecidableEq, Repr

/-- Modelled from the spec: the traversal context of the term evaluator
(4.1): the accumulated transform and the accumulated modifier state; the
evaluator is missing from the sources. -/
structure TraversalContext where
  transform : List Nat
  state : ModifierState
  deriving DecidableEq, Repr

/-- Modelled from the spec: what the term evaluator produces for a subtree
(4.1): the primary term, null when the subtree is empty, and the highlight
and background term roots met in it; the evaluator is missing from the
sources. -/
structure Evaluated where
  term : Option CSGTerm
  highlights : List CSGTerm
  backgrounds : List CSGTerm
  deriving DecidableEq, Repr

/-- Modelled from the spec: the result for a subtree without geometry (4.1,
the null term is the valid outcome for no geometry); the evaluator is missing
from the sources. -/
def Evaluated.empty : Evaluated := ⟨none, [], []⟩

/-- Modelled from the spec: how the evaluator combines the term built so far
with the term of the next child (4.1): UNION ignores a null operand,
INTERSECTION with a null operand is null, DIFFERENCE with a null left operand
is null and a null subtrahend subtracts nothing; the evaluator is missing
from the sources. -/
def combineTerms : Operator → Option CSGTerm → Option CSGTerm → Option CSGTerm
  | .UNION, none, right => right
  | .UNION, some left, none => some left
  | .UNION, some left, some right => some (.operation .UNION left right)
  | .INTERSECTION, some left, some right => some (.operation .INTERSECTION left right)
  | .INTERSECTION, _, _ => none
  | .DIFFERENCE, none, _ => none
  | .DIFFERENCE, some left, none => some left
  | .DIFFERENCE, some left, some right => some (.operation .DIFFERENCE left right)

/-- Modelled from the spec: one step of the left-to-right fold over the
children of a node (4.1): the terms are combined, the side collections of the
child are appended; the evaluator is missing from the sources. -/
def combineEvaluated (op : Operator) (acc child : Evaluated) : Evaluated :=
  ⟨combineTerms op acc.term child.term, acc.highlights ++ child.highlights,
    acc.backgrounds ++ child.backgrounds⟩

mutual

/-- Modelled from the spec: the CSG term evaluator (4.1), missing from the
sources.  A recursive depth-first walk with an accumulated transform and a
sticky modifier state: nothing is evaluated in the disabled state; a
primitive node asks the geometry provider and wraps the handle as a
`PrimitiveTerm` under the accumulated transform (null when the provider has
no geometry); a boolean-op node folds its children left to right; a group or
transform node combines its children as an implicit union; a highlight or
background subtree met in the normal state is evaluated, kept out of the
primary term and pushed onto its side collection; the root modifier is
selected upstream and is a group here. -/
def evaluateNode (computeOrFetch : Nat → Option Nat) (ctx : TraversalContext) :
    SceneNode → Evaluated
  | .mk index kind children label =>
    match ctx.state with
    | .disabled => Evaluated.empty
    | _ =>
      match kind with
      | .primitive fingerprint =>
        ⟨(computeOrFetch fingerprint).map
            fun handle => CSGTerm.primitive ⟨handle, ctx.transform, label, index⟩, [], []⟩
      | .transform matrix =>
        evaluateChildren computeOrFetch { ctx with transform := ctx.transform ++ [matrix] }
          .UNION children
      | .group => evaluateChildren computeOrFetch ctx .UNION children
      | .booleanOp op => evaluateChildren computeOrFetch ctx op children
      | .modifier .root => evaluateChildren computeOrFetch ctx .UNION children
      | .modifier .disable => Evaluated.empty
      | .modifier .highlight =>
        match ctx.state with
        | .normal =>
          let inner := evaluateChildren computeOrFetch { ctx with state := .highlight }
            .UNION children
          ⟨none, inner.term.toList ++ inner.highlights, inner.backgrounds⟩
        | _ => evaluateChildren computeOrFetch ctx .UNION children
      | .modifier .background =>
        match ctx.state with
        | .normal =>
          let inner := evaluateChildren computeOrFetch { ctx with state := .background }
            .UNION children
          ⟨none, inner.highlights, inner.term.toList ++ inner.backgrounds⟩
        | _ => evaluateChildren computeOrFetch ctx .UNION children

/-- Modelled from the spec: the fold `fold(C1, op, C2, op, C3, ...)` over the
children of a node (4.1), started with the first child; the evaluator is
missing from the sources. -/
def evaluateChildren (computeOrFetch : Nat → Option Nat) (ctx : TraversalContext)
    (op : Operator) : List SceneNode → Evaluated
  | [] => Evaluated.empty
  | first :: rest =>
    evaluateRest computeOrFetch ctx op (evaluateNode computeOrFetch ctx first) rest

/-- Modelled from the spec: the rest of the fold (4.1).  An INTERSECTION whose
term so far is null yields null at once and its remaining children are not
evaluated; the evaluator is missing from the sources. -/
def evaluateRest (computeOrFetch : Nat → Option Nat) (ctx : TraversalContext)
    (op : Operator) (acc : Evaluated) : List SceneNode → Evaluated
  | [] => acc
  | child :: rest =>
    if op = .INTERSECTION ∧ acc.term = none then acc
    else
      evaluateRest computeOrFetch ctx op
        (combineEvaluated op acc (evaluateNode computeOrFetch ctx child)) rest

end

/-- Modelled from the spec: the evaluation of a whole tree from its selected
root (4.1), under the identity transform and in the normal state, in the form
`compileCSG` observes it: the returned term and the two side collections.
The evaluator is missing from the sources. -/
def buildCSGTree (computeOrFetch : Nat → Option Nat) (root : SceneNode) : BuildResult CSGTerm :=
  let evaluated := evaluateNode computeOrFetch ⟨[], .normal⟩ root
  ⟨.returned evaluated.term, evaluated.highlights, evaluated.backgrounds⟩

/-- Modelled from the spec: what a normalization reports (4.2 and section 7):
the failure sentinel for an exhausted budget (normalization incomplete),
distinct from a completed normalization, whose result may be the empty
(null) term.  The normalizer is missing from the sources. -/
inductive Normalized where
  | incomplete
  | complete (term : Option CSGTerm)
  deriving DecidableEq, Repr

/-- Modelled from the spec: emitting one operation term (4.2): the running
count of emitted terms goes up by one and the normalization is aborted
(`none`) as soon as the count exceeds the budget.  The normalizer is missing
from the sources. -/
def emit (budget : Nat) (op : Operator) (left right : CSGTerm) (count : Nat) :
    Option (CSGTerm × Nat) :=
  if count + 1 > budget then none else some (.operation op left right, count + 1)

/-- Modelled from the spec: DIFFERENCE of two normalized terms (4.2), from a
running count.  When the operands cannot overlap the left operand is the
result, without further expansion; a UNION on the right is distributed,
`A - (B ∪ C) → (A - B) - C`, and each part is checked again; otherwise the
DIFFERENCE term is emitted.  The first argument is the disjointness test on
the bounding boxes of two terms.  The normalizer is missing from the
sources. -/
def subtractWithin (cannotOverlap : CSGTerm → CSGTerm → Bool) (budget : Nat) :
    CSGTerm → CSGTerm → Nat → Option (CSGTerm × Nat)
  | a, .primitive p, count =>
    if cannotOverlap a (.primitive p) then some (a, count)
    else emit budget .DIFFERENCE a (.primitive p) count
  | a, .operation op b c, count =>
    if cannotOverlap a (.operation op b c) then some (a, count)
    else
      match op with
      | .UNION =>
        (subtractWithin cannotOverlap budget a b count).bind fun first =>
          subtractWithin cannotOverlap budget first.1 c first.2
      | .INTERSECTION => emit budget .DIFFERENCE a (.operation .INTERSECTION b c) count
      | .DIFFERENCE => emit budget .DIFFERENCE a (.operation .DIFFERENCE b c) count

/-- Modelled from the spec: UNION of two possibly empty terms inside the
normalizer, from a running count: an empty operand is ignored (the identity
behaviour of 4.1), otherwise the UNION term is emitted.  The normalizer is
missing from the sources. -/
def uniteWithin (budget : Nat) : Option CSGTerm → Option CSGTerm → Nat →
    Option (Option CSGTerm × Nat)
  | none, right, count => some (right, count)
  | some left, none, count => some (some left, count)
  | some left, some right, count =>
    (emit budget .UNION left right count).map fun emitted => (some emitted.1, emitted.2)

/-- Modelled from the spec: INTERSECTION of two normalized terms (4.2), from a
running count.  When the operands cannot overlap the result is empty,
without further expansion; a UNION on the right is distributed,
`A ∩ (B ∪ C) → (A ∩ B) ∪ (A ∩ C)`, and each part is checked again;
otherwise the INTERSECTION term is emitted.  The normalizer is missing from
the sources. -/
def intersectWithin (cannotOverlap : CSGTerm → CSGTerm → Bool) (budget : Nat) :
    CSGTerm → CSGTerm → Nat → Option (Option CSGTerm × Nat)
  | a, .primitive p, count =>
    if cannotOverlap a (.primitive p) then some (none, count)
    else
      (emit budget .INTERSECTION a (.primitive p) count).map fun emitted =>
        (some emitted.1, emitted.2)
  | a, .operation op b c, count =>
    if cannotOverlap a (.operation op b c) then some (none, count)
    else
      match op with
      | .UNION =>
        (intersectWithin cannotOverlap budget a b count).bind fun first =>
          (intersectWithin cannotOverlap budget a c first.2).bind fun second =>
            uniteWithin budget first.1 second.1 second.2
      | .INTERSECTION =>
        (emit budget .INTERSECTION a (.operation .INTERSECTION b c) count).map fun emitted =>
          (some emitted.1, emitted.2)
      | .DIFFERENCE =>
        (emit budget .INTERSECTION a (.operation .DIFFERENCE b c) count).map fun emitted =>
          (some emitted.1, emitted.2)

/-- Modelled from the spec: the rewrite at one operation node whose children
have been normalized (4.2), from a running count.  An empty operand is
treated as in 4.1: ignored by UNION, INTERSECTION with it is empty,
DIFFERENCE from it is empty and subtracting it changes nothing.  The
normalizer is missing from the sources. -/
def combineWithin (cannotOverlap : CSGTerm → CSGTerm → Bool) (budget : Nat) :
    Operator → Option CSGTerm → Option CSGTerm → Nat → Option (Option CSGTerm × Nat)
  | .UNION, left, right, count => uniteWithin budget left right count
  | .DIFFERENCE, none, _, count => some (none, count)
  | .DIFFERENCE, some left, none, count => some (some left, count)
  | .DIFFERENCE, some left, some right, count =>
    (subtractWithin cannotOverlap budget left right count).map fun r => (some r.1, r.2)
  | .INTERSECTION, some left, some right, count =>
    intersectWithin cannotOverlap budget left right count
  | .INTERSECTION, none, _, count => some (none, count)
  | .INTERSECTION, some _, none, count => some (none, count)

/-- Modelled from the spec: the bottom-up recursive rewrite (4.2), from a
running count: a primitive is its own normal form at no cost; at an operation
node the children are normalized first, then the node is rewritten.  The
result is `none` when the budget was exceeded on the way.  The normalizer is
missing from the sources. -/
def normalizeWithin (cannotOverlap : CSGTerm → CSGTerm → Bool) (budget : Nat) :
    CSGTerm → Nat → Option (Option CSGTerm × Nat)
  | .primitive p, count => some (some (.primitive p), count)
  | .operation op left right, count =>
    (normalizeWithin cannotOverlap budget left count).bind fun l =>
      (normalizeWithin cannotOverlap budget right l.2).bind fun r =>
        combineWithin cannotOverlap budget op l.1 r.1 r.2

/-- Modelled from the spec: the CSG term normalizer (4.2), missing from the
sources: given a term and a maximum term-count budget, the flattened term,
or the failure sentinel when the budget is exhausted. -/
def normalize (cannotOverlap : CSGTerm → CSGTerm → Bool) (budget : Nat) (term : CSGTerm) :
    Normalized :=
  match normalizeWithin cannotOverlap budget term 0 with
  | none => .incomplete
  | some result => .complete result.1

/-- Modelled from the spec: the normalizer as `compileCSG` calls it, through
a pointer: the failure sentinel and the empty term are both the null pointer
(4.2: a null result if the budget is exhausted; an empty input normalizes to
null).  The normalizer is missing from the sources. -/
def normalizePointer (cannotOverlap : CSGTerm → CSGTerm → Bool) (budget : Nat)
    (term : CSGTerm) : Option CSGTerm :=
  match normalize cannotOverlap budget term with
  | .incomplete => none
  | .complete result => result

/-! ### The same rewrite without a budget

The reference against which the budget is judged: the normal form a term has
and the number of terms the rewrite emits for it when nothing stops it. -/

/-- Modelled from the spec: the DIFFERENCE rewrite of 4.2 without a budget:
the resulting term and the number of terms emitted.  The normalizer is
missing from the sources. -/
def subtractAll (cannotOverlap : CSGTerm → CSGTerm → Bool) :
    CSGTerm → CSGTerm → CSGTerm × Nat
  | a, .primitive p =>
    if cannotOverlap a (.primitive p) then (a, 0)
    else (.operation .DIFFERENCE a (.primitive p), 1)
  | a, .operation op b c =>
    if cannotOverlap a (.operation op b c) then (a, 0)
    else
      match op with
      | .UNION =>
        let first := subtractAll cannotOverlap a b
        let second := subtractAll cannotOverlap first.1 c
        (second.1, first.2 + second.2)
      | .INTERSECTION => (.operation .DIFFERENCE a (.operation .INTERSECTION b c), 1)
      | .DIFFERENCE => (.operation .DIFFERENCE a (.operation .DIFFERENCE b c), 1)

/-- Modelled from the spec: the UNION of two possibly empty terms without a
budget: the resulting term and the number of terms emitted.  The normalizer
is missing from the sources. -/
def uniteAll : Option CSGTerm → Option CSGTerm → Option CSGTerm × Nat
  | none, right => (right, 0)
  | some left, none => (some left, 0)
  | some left, some right => (some (.operation .UNION left right), 1)

/-- Modelled from the spec: the INTERSECTION rewrite of 4.2 without a budget:
the resulting term and the number of terms emitted.  The normalizer is
missing from the sources. -/
def intersectAll (cannotOverlap : CSGTerm → CSGTerm → Bool) :
    CSGTerm → CSGTerm → Option CSGTerm × Nat
  | a, .primitive p =>
    if cannotOverlap a (.primitive p) then (none, 0)
    else (some (.operation .INTERSECTION a (.primitive p)), 1)
  | a, .operation op b c =>
    if cannotOverlap a (.operation op b c) then (none, 0)
    else
      match op with
      | .UNION =>
        let first := intersectAll cannotOverlap a b
        let second := intersectAll cannotOverlap a c
        let united := uniteAll first.1 second.1
        (united.1, first.2 + second.2 + united.2)
      | .INTERSECTION => (some (.operation .INTERSECTION a (.operation .INTERSECTION b c)), 1)
      | .DIFFERENCE => (some (.operation .INTERSECTION a (.operation .DIFFERENCE b c)), 1)

/-- Modelled from the spec: the rewrite at one operation node without a
budget: the resulting term and the number of terms emitted.  The normalizer
is missing from the sources. -/
def combineAll (cannotOverlap : CSGTerm → CSGTerm → Bool) :
    Operator → Option CSGTerm → Option CSGTerm → Option CSGTerm × Nat
  | .UNION, left, right => uniteAll left right
  | .DIFFERENCE, none, _ => (none, 0)
  | .DIFFERENCE, some left, none => (some left, 0)
  | .DIFFERENCE, some left, some right =>
    let r := subtractAll cannotOverlap left right
    (some r.1, r.2)
  | .INTERSECTION, some left, some right => intersectAll cannotOverlap left right
  | .INTERSECTION, none, _ => (none, 0)
  | .INTERSECTION, some _, none => (none, 0)

/-- Modelled from the spec: the bottom-up rewrite of 4.2 without a budget:
the normal form of a term and the number of terms its normalization emits.
The normalizer is missing from the sources. -/
def normalizeAll (cannotOverlap : CSGTerm → CSGTerm → Bool) :
    CSGTerm → Option CSGTerm × Nat
  | .primitive p => (some (.primitive p), 0)
  | .operation op left right =>
    let l := normalizeAll cannotOverlap left
    let r := normalizeAll cannotOverlap right
    let combined := combineAll cannotOverlap op l.1 r.1
    (combined.1, l.2 + r.2 + combined.2)

/-- Modelled from the spec: the normal form of a term (4.2), empty or not,
when the budget does not stop the rewrite.  The normalizer is missing from
the sources. -/
def normalForm (cannotOverlap : CSGTerm → CSGTerm → Bool) (term : CSGTerm) : Option CSGTerm :=
  (normalizeAll cannotOverlap term).1

/-- Modelled from the spec: the number of emitted terms the normalization of
a term needs (4.2).  The normalizer is missing from the sources. -/
def emittedTerms (cannotOverlap : CSGTerm → CSGTerm → Bool) (term : CSGTerm) : Nat :=
  (normalizeAll cannotOverlap term).2

/-- Modelled from the spec: a term tree all of whose operation nodes are
UNION (section 8).  The CSG term classes are missing from the sources. -/
def CSGTerm.unionOnly : CSGTerm → Bool
  | .primitive _ => true
  | .operation op left right => op == .UNION && left.unionOnly && right.unionOnly

/-- Modelled from the spec: the number of operation terms of a term tree.
The CSG term classes are missing from the sources. -/
def CSGTerm.operations : CSGTerm → Nat
  | .primitive _ => 0
  | .operation _ left right => left.operations + right.operations + 1

/-- Modelled from the spec: the boolean role of a render product entry
(section 3, `booleanRole ∈ {ADD, SUBTRACT, INTERSECT}`); the render products
are missing from the sources. -/
inductive BooleanRole where
  | ADD
  | SUBTRACT
  | INTERSECT
  deriving DecidableEq, Repr

/-- Modelled from the spec: one render product entry (section 3); the render
products are missing from the sources. -/
structure ProductEntry where
  geometryHandle : Nat
  objectTransform : List Nat
  booleanRole : BooleanRole
  sourceNodeIndexForPicking : Nat
  deriving DecidableEq, Repr

/-- Modelled from the spec: the entry emitted for a primitive in a given role
(4.3); it carries the index of the originating scene node.  The render
products are missing from the sources. -/
def ProductEntry.of (p : PrimitiveTerm) (role : BooleanRole) : ProductEntry :=
  ⟨p.geometryHandle, p.localTransform, role, p.sourceNodeIndex⟩

/-- Modelled from the spec: the depth-first traversal of the products builder
(4.3), in left-to-right operand order: the leftmost primitive under a
disjunct keeps the role it is reached in (ADD at the top: a chain start),
everything chained to it by DIFFERENCE is emitted as SUBTRACT and by
INTERSECTION as INTERSECT.  The render products are missing from the
sources. -/
def importAs (role : BooleanRole) : CSGTerm → List ProductEntry
  | .primitive p => [ProductEntry.of p role]
  | .operation .UNION left right => importAs role left ++ importAs role right
  | .operation .DIFFERENCE left right => importAs role left ++ importAs .SUBTRACT right
  | .operation .INTERSECTION left right => importAs role left ++ importAs .INTERSECT right

/-- Modelled from the spec: the call `import` of the render products (4.3):
the entries of a normalized term are appended to the ordered sequence.  The
render products are missing from the sources. -/
def importTerm (products : List ProductEntry) (term : CSGTerm) : List ProductEntry :=
  products ++ importAs .ADD term

/-- Modelled from the spec: the chains of a sequence of entries (section 3):
each chain is one maximal run that starts with an ADD entry.  The render
products are missing from the sources. -/
def chains : List ProductEntry → List (List ProductEntry)
  | [] => []
  | entry :: rest =>
    match chains rest with
    | [] => [[entry]]
    | chain :: others =>
      match chain with
      | [] => [entry] :: others
      | next :: more =>
        if next.booleanRole = .ADD then [entry] :: (next :: more) :: others
        else (entry :: next :: more) :: others

/-- The environment of `compileCSG` in which the evaluator, the normalizer
and the render products are the ones modelled from the specification, for a
geometry provider, a disjointness test and an OpenCSG limit; no `LOG` raises
and `unsigned long` has 64 bits. -/
def coreEnv (computeOrFetch : Nat → Option Nat) (cannotOverlap : CSGTerm → CSGTerm → Bool)
    (openCSGLimit : Nat) : Env SceneNode CSGTerm (List ProductEntry) :=
  { openCSGLimit := openCSGLimit
    ulongBits := 64
    logRaises := fun _ => false
    instantiate := fun _ => some none
    find_root_tag := fun _ => (none, none)
    buildCSGTree := buildCSGTree computeOrFetch
    normalize := normalizePointer cannotOverlap
    newProducts := []
    importTerm := importTerm
    size := List.length
    hasOpenCSGSupport := true
    compile := fun _ _ s => s }

/-- The scene tree `difference(cube, union(sphere1, sphere2))`: the cube is
node 1 with fingerprint 10, the spheres are nodes 3 and 4 with fingerprints
11 and 12. -/
def differenceOfCubeAndSpheres : SceneNode :=
  .mk 0 (.booleanOp .DIFFERENCE)
    [.mk 1 (.primitive 10) [] "cube",
     .mk 2 (.booleanOp .UNION)
       [.mk 3 (.primitive 11) [] "sphere1", .mk 4 (.primitive 12) [] "sphere2"] "union"]
    "difference"

/-- A geometry provider that has geometry for every fingerprint: the handle
is the fingerprint plus 100. -/
def everyGeometry : Nat → Option Nat := fun fingerprint => some (fingerprint + 100)

/-- A disjointness test under which any two terms may overlap. -/
def mayOverlap : CSGTerm → CSGTerm → Bool := fun _ _ => false

/-- A window whose root node is the tree `differenceOfCubeAndSpheres`. -/
def cubeAndSpheresWindow : MainWindow SceneNode CSGTerm (List ProductEntry) :=
  { (MainWindow.init : MainWindow SceneNode CSGTerm (List ProductEntry)) with
    rootNode := some differenceOfCubeAndSpheres
    tree_root := some differenceOfCubeAndSpheres }

/-- The union `union(union(a, b), c)` of three primitive terms. -/
def unionOfThree : CSGTerm :=
  .operation .UNION
    (.operation .UNION (.primitive ⟨1, [], "a", 1⟩) (.primitive ⟨2, [], "b", 2⟩))
    (.primitive ⟨3, [], "c", 3⟩)

/-- The term `a ∩ (b ∪ c)`, whose normalization emits four terms. -/
def intersectionOverUnion : CSGTerm :=
  .operation .INTERSECTION (.primitive ⟨1, [], "a", 1⟩)
    (.operation .UNION (.primitive ⟨2, [], "b", 2⟩) (.primitive ⟨3, [], "c", 3⟩))

/-- A geometry provider that has no geometry for fingerprint 10 (the cube of
`differenceOfCubeAndSpheres`) and geometry for every other fingerprint. -/
def noCubeGeometry : Nat → Option Nat :=
  fun fingerprint => if fingerprint = 10 then none else some (fingerprint + 100)

/-- A window whose active editor shows the saved file `design.scad`, last
seen with modification time 0x10 and size 0x20. -/
def savedFileWindow : MainWindow Nat Nat (List Nat) :=
  { (MainWindow.init : MainWindow Nat Nat (List Nat)) with
    activeEditor := ⟨1, "design.scad", "10.20", true⟩ }

/-- A file system in which every file has modification time 0x11 and size
0x20. -/
def touchedOnDisk : String → Option Stat := fun _ => some ⟨17, 32⟩

/-- A window after a full render of a non-empty 3D object in the active
editor. -/
def renderedWindow : MainWindow Nat Nat (List Nat) :=
  { (MainWindow.init : MainWindow Nat Nat (List Nat)) with
    activeEditor := ⟨1, "design.scad", "10.20", true⟩
    renderedEditor := some 1
    rootGeom := some ⟨3, false, false, false⟩ }

/-- The sample environment in which a `LOG` of group Warning raises
`HardWarningException` (hard warnings are enabled). -/
def Env.sampleHardWarnings (build : Nat → BuildResult Nat)
    (normalize : Nat → Nat → Option Nat) : Env Nat Nat (List Nat) :=
  { Env.sample build normalize with logRaises := fun g => g == .Warning }

/-- A stand-in for the hash function: injective and never empty. -/
def sampleHash : String → String := fun content => "sha256:" ++ content

/-- The trust state of a session in which nothing has been typed or answered
yet, while the settings hold the hash of the content "print(1)" for the file
"a.py", approved in an earlier session. -/
def approvedEarlier : TrustState :=
  ⟨false, "", "", [(setting_key "a.py", sampleHash "print(1)")]⟩

/-- The trust state of a fresh session with empty settings. -/
def freshTrust : TrustState := ⟨false, "", "", []⟩

/-- A selected node at 3:5-3:20 with two children: an instance of a module
(3:1-4:2) whose body holds a cube at 1:1-9:9, and a sphere at 2:7-3:25. -/
def selectedNode : AbstractNode :=
  .mk ⟨3, 5, 3, 20⟩ "group" "translate"
    [.mk ⟨3, 1, 4, 2⟩ "module_x" "x" [.mk ⟨1, 1, 9, 9⟩ "cube" "cube" []],
     .mk ⟨2, 7, 3, 25⟩ "sphere" "sphere" []]

/-- An evaluator that returns term 5 and has collected the highlight node 9
and no background node. -/
def buildsOneHighlight : Nat → BuildResult Nat := fun _ => ⟨.returned (some 5), [9], []⟩

/-- The sample environment on a platform whose `unsigned long` has 32 bits,
with the limit 2^31 in the preferences. -/
def Env.sampleShortLong : Env Nat Nat (List Nat) :=
  { Env.sample buildsFive normalizeKeeps with ulongBits := 32, openCSGLimit := 2147483648 }

/-! ## Theorems -/

section Lemmas

variable {Node Term Products : Type}

/-- The highlight stage as one record update. -/
theorem compileHighlights_eq (env : Env Node Term Products) (limit : Nat) (terms : List Term)
    (s : MainWindow Node Term Products) :
    compileHighlights env limit terms s =
      { s with
        highlightsProducts :=
          if terms.length > 0 then some (importForest env limit terms) else none
        console := s.console ++
          (if terms.length > 0 then [⟨.NONE, "Compiling highlights (%1$d CSG Trees)..."⟩] else [])
        calls := s.calls ++ terms.map (Call.normalize limit) } := by
  cases terms <;> simp [compileHighlights, print]

/-- The background stage as one record update. -/
theorem compileBackground_eq (env : Env Node Term Products) (limit : Nat) (terms : List Term)
    (s : MainWindow Node Term Products) :
    compileBackground env limit terms s =
      { s with
        backgroundProducts :=
          if terms.length > 0 then some (importForest env limit terms) else none
        console := s.console ++
          (if terms.length > 0 then [⟨.NONE, "Compiling background (%1$d CSG Trees)..."⟩] else [])
        calls := s.calls ++ terms.map (Call.normalize limit) } := by
  cases terms <;> simp [compileBackground, print]

/-- The handler `exceptionCleanup` as one record update. -/
theorem exceptionCleanup_eq (s : MainWindow Node Term Products) :
    exceptionCleanup s =
      { s with
        console := s.console ++ [⟨.NONE, "Execution aborted"⟩, ⟨.NONE, " "⟩]
        guiLocked := unsignedDecrement s.guiLocked
        autoReloadTimerActive := s.designActionAutoReloadChecked || s.autoReloadTimerActive } := by
  cases h : s.designActionAutoReloadChecked <;>
    simp [exceptionCleanup, print, GuiLocker.unlock, h]

/-- The slot `compileEnded` as one record update. -/
theorem compileEnded_eq (s : MainWindow Node Term Products) :
    compileEnded s =
      { s with
        guiLocked := unsignedDecrement s.guiLocked
        autoReloadTimerActive := s.designActionAutoReloadChecked || s.autoReloadTimerActive } := by
  cases h : s.designActionAutoReloadChecked <;>
    simp [compileEnded, GuiLocker.unlock, h]

/-- The body of `compileCSG` when the window is not closing: evaluation,
normalization of the root, the two side forests, the renderers. -/
theorem compileCSG_try_eq (env : Env Node Term Products) (root : Node)
    (s : MainWindow Node Term Products) (hopen : s.isClosing = false) :
    compileCSG_try env root s =
      (normalizeRoot env (normalizelimit env)
        (print .NONE "Compiling design (CSG Products normalization)..."
          (evaluateCSG root (env.buildCSGTree root)
            (print .NONE "Compiling design (CSG Products generation)..." s)))).andThen
        fun s4 =>
          (createRenderers env
            (compileBackground env (normalizelimit env) (env.buildCSGTree root).backgroundNodes
              (compileHighlights env (normalizelimit env) (env.buildCSGTree root).highlightNodes
                s4))).andThen
            fun s7 => .done (print .NONE "Compile and preview finished." s7) := by
  simp [compileCSG_try, print, hopen]

/-- The state after `LOG` is the state after printing, raised or not. -/
theorem LOG_state (env : Env Node Term Products) (g : message_group) (text : String)
    (s : MainWindow Node Term Products) : (LOG env g text s).state = print g text s := by
  unfold LOG
  split <;> rfl

/-- Choosing the root node touches neither renderers nor CSG results. -/
theorem Invalidated.selectRoot (env : Env Node Term Products) (a : Node)
    {s : MainWindow Node Term Products} (h : Invalidated s) :
    Invalidated (selectRoot env a s) := by
  obtain ⟨h1, h2, h3, h4, h5, h6⟩ := h
  cases hloc : (env.find_root_tag a).2 <;>
    simp [OpenSCAD.selectRoot, Invalidated, print, hloc, h1, h2, h3, h4, h5, h6]

/-- Evaluating the root file touches neither renderers nor CSG results. -/
theorem Invalidated.evaluateRootFile (env : Env Node Term Products)
    {s : MainWindow Node Term Products} (h : Invalidated s) :
    Invalidated (evaluateRootFile env s).state := by
  unfold OpenSCAD.evaluateRootFile
  cases s.rootFile with
  | none => exact h
  | some file =>
    simp only
    cases instantiated env (print .NONE "Compiling design (CSG Tree generation)..." s) file with
    | none => exact h
    | some absolute =>
      cases absolute with
      | none => exact h
      | some a => exact Invalidated.selectRoot env a h

/-- Reporting a missing root touches neither renderers nor CSG results. -/
theorem Invalidated.reportNoRoot (env : Env Node Term Products)
    {s : MainWindow Node Term Products} (h : Invalidated s) :
    Invalidated (reportNoRoot env s).state := by
  unfold OpenSCAD.reportNoRoot
  cases s.rootNode with
  | some _ => exact h
  | none =>
    simp only
    split <;>
    · unfold LOG
      split <;> exact h

/-- The state of a sequence is the state of its second part when the first
part completes, and the state of the first part otherwise. -/
theorem Outcome.andThen_state {σ : Type} (o : Outcome σ) (f : σ → Outcome σ) :
    (o.andThen f).state = match o with
      | .done s => (f s).state
      | .hardWarning s => s := by
  cases o <;> rfl

/-- Whatever happens in `instantiateRoot`, raised or not, it ends with the
previous renderers and CSG results dropped. -/
theorem instantiateRoot_invalidated (env : Env Node Term Products)
    (s : MainWindow Node Term Products) : Invalidated (instantiateRoot env s).state := by
  have h0 : Invalidated (invalidate s) := ⟨rfl, rfl, rfl, rfl, rfl, rfl⟩
  have h1 := Invalidated.evaluateRootFile env h0
  unfold instantiateRoot
  rw [Outcome.andThen_state]
  cases h : OpenSCAD.evaluateRootFile env (invalidate s) with
  | done s1 =>
    rw [h] at h1
    exact Invalidated.reportNoRoot env h1
  | hardWarning s1 =>
    rw [h] at h1
    exact h1

/-- When there is no `rootFile`, or its instantiation is null, the
evaluation stage completes and leaves `rootNode` null. -/
theorem evaluateRootFile_without_root (env : Env Node Term Products)
    (s : MainWindow Node Term Products)
    (hfail : s.rootFile = none ∨
      ∃ file, s.rootFile = some file ∧ instantiated env s file = some none) :
    ∃ s1, evaluateRootFile env (invalidate s) = .done s1 ∧ s1.rootNode = none ∧
      s1.calls = s.calls := by
  rcases hfail with h | ⟨file, h, hnone⟩
  · have h0 : (invalidate s).rootFile = none := h
    exact ⟨invalidate s, by simp only [evaluateRootFile, h0], rfl, rfl⟩
  · have h0 : (invalidate s).rootFile = some file := h
    have hinst : instantiated env
        (print .NONE "Compiling design (CSG Tree generation)..." (invalidate s)) file
        = some none := hnone
    exact ⟨{ print .NONE "Compiling design (CSG Tree generation)..." (invalidate s) with
              absoluteRootNode := none },
      by simp only [evaluateRootFile, h0, hinst], rfl, rfl⟩

/-- Without a root node, `reportNoRoot` logs an Error (which may raise) and
touches neither `rootNode` nor the call trace. -/
theorem reportNoRoot_without_root (env : Env Node Term Products)
    (s : MainWindow Node Term Products) (hroot : s.rootNode = none) :
    (reportNoRoot env s).state.rootNode = none ∧
      (reportNoRoot env s).state.calls = s.calls ∧
      ∃ text, ⟨.Error, text⟩ ∈ (reportNoRoot env s).state.console := by
  by_cases hpos : s.parser_error_pos < 0 <;> cases hr : env.logRaises .Error <;>
    simp [reportNoRoot, LOG, print, Outcome.andThen, Outcome.state, hroot, hpos, hr]

/-- Without a root node and without renderers, `csgRender` skips
`compileCSG` and installs a null renderer in the view. -/
theorem csgRender_without_root (env : Env Node Term Products)
    (s : MainWindow Node Term Products) (hroot : s.rootNode = none)
    (hopencsg : s.opencsgRenderer = none) (hthrown : s.thrownTogetherRenderer = none) :
    (csgRender env s).qglview_renderer = none ∧ (csgRender env s).calls = s.calls ∧
      (csgRender env s).csgRoot = s.csgRoot ∧ (csgRender env s).rootProduct = s.rootProduct := by
  cases h1 : s.viewActionThrownTogetherChecked <;> cases h2 : env.hasOpenCSGSupport <;>
    cases h3 : s.designActionAutoReloadChecked <;>
    simp [csgRender, compileEnded, viewModePreview, viewModeThrownTogether, GuiLocker.unlock,
      hroot, hopencsg, hthrown, h1, h2, h3]

/-- Importing a forest is importing, in order, the non-null normalizations
of its terms into a fresh product set. -/
theorem importForest_eq_filterMap (env : Env Node Term Products) (limit : Nat)
    (terms : List Term) :
    importForest env limit terms
      = (terms.filterMap (env.normalize limit)).foldl env.importTerm env.newProducts := by
  unfold importForest
  generalize env.newProducts = acc
  induction terms generalizing acc with
  | nil => rfl
  | cons t ts ih =>
    rw [List.foldl_cons, ih, List.filterMap_cons]
    unfold importNormalized
    cases env.normalize limit t <;> rfl

/-- What `selectRoot` leaves in the window. -/
theorem selectRoot_fields (env : Env Node Term Products) (a : Node)
    (s : MainWindow Node Term Products) :
    (selectRoot env a s).rootNode = some ((env.find_root_tag a).1.getD a) ∧
      (selectRoot env a s).tree_root = some ((env.find_root_tag a).1.getD a) ∧
      (selectRoot env a s).absoluteRootNode = s.absoluteRootNode ∧
      (selectRoot env a s).calls = s.calls ∧
      (selectRoot env a s).isClosing = s.isClosing := by
  cases h1 : (env.find_root_tag a).1 <;> cases h2 : (env.find_root_tag a).2 <;>
    simp [selectRoot, print, h1, h2]

/-- With a `rootFile` whose tree is not null, `instantiateRoot` completes and
selects the root node. -/
theorem instantiateRoot_with_tree (env : Env Node Term Products)
    (s : MainWindow Node Term Products) (file : SourceFile) (absolute : Node)
    (hfile : s.rootFile = some file)
    (hinst : instantiated env s file = some (some absolute)) :
    ∃ s1, instantiateRoot env s = .done s1 ∧
      s1.absoluteRootNode = some absolute ∧
      s1.rootNode = some ((env.find_root_tag absolute).1.getD absolute) ∧
      s1.tree_root = some ((env.find_root_tag absolute).1.getD absolute) ∧
      s1.calls = s.calls ∧ s1.isClosing = s.isClosing := by
  have h0 : (invalidate s).rootFile = some file := hfile
  have hinst2 : instantiated env
      (print .NONE "Compiling design (CSG Tree generation)..." (invalidate s)) file
      = some (some absolute) := hinst
  obtain ⟨f1, f2, f3, f4, f5⟩ := selectRoot_fields env absolute
    { print .NONE "Compiling design (CSG Tree generation)..." (invalidate s) with
      absoluteRootNode := some absolute }
  refine ⟨selectRoot env absolute
    { print .NONE "Compiling design (CSG Tree generation)..." (invalidate s) with
      absoluteRootNode := some absolute }, ?_, f3, f1, f2, f4, f5⟩
  simp only [instantiateRoot, evaluateRootFile, h0, hinst2, Outcome.andThen, reportNoRoot, f1]

/-- Normalizing the root keeps `csgRoot` and adds normalizer calls only. -/
theorem normalizeRoot_state (env : Env Node Term Products) (limit : Nat)
    (s : MainWindow Node Term Products) :
    (normalizeRoot env limit s).state.csgRoot = s.csgRoot ∧
      ∃ rest, (normalizeRoot env limit s).state.calls = s.calls ++ rest ∧
        onlyNormalizeCalls rest := by
  cases hc : s.csgRoot with
  | none => exact ⟨by simp [normalizeRoot, hc, Outcome.state], [], by
      simp [normalizeRoot, hc, Outcome.state], fun c hmem => by simp at hmem⟩
  | some term =>
    refine ⟨?_, [Call.normalize limit term], ?_, fun c hmem => ⟨limit, term, by simpa using hmem⟩⟩
    · cases hn : env.normalize limit term <;> cases hr : env.logRaises .Warning <;>
        simp [normalizeRoot, hc, hn, hr, LOG, print, record, Outcome.state]
    · cases hn : env.normalize limit term <;> cases hr : env.logRaises .Warning <;>
        simp [normalizeRoot, hc, hn, hr, LOG, print, record, Outcome.state]

/-- Creating the renderers touches neither `csgRoot` nor the call trace. -/
theorem createRenderers_state (env : Env Node Term Products)
    (s : MainWindow Node Term Products) :
    (createRenderers env s).state.csgRoot = s.csgRoot ∧
      (createRenderers env s).state.calls = s.calls := by
  cases hp : s.rootProduct with
  | none =>
    simp [createRenderers, hp, print, Outcome.andThen, Outcome.state, makeOpenCSGRenderer,
      makeThrownTogetherRenderer]
  | some products =>
    by_cases hsize : env.size products > env.openCSGLimit <;>
      cases hr : env.logRaises .UI_Warning <;>
      simp [createRenderers, hp, hsize, hr, LOG, print, Outcome.andThen, Outcome.state,
        makeOpenCSGRenderer, makeThrownTogetherRenderer]

/-- The body of `compileCSG`, raised or not: the evaluator is called once, on
the root node it was given, the other calls go to the normalizer, and
`csgRoot` is whatever the evaluator returned. -/
theorem compileCSG_try_trace (env : Env Node Term Products)
    (s : MainWindow Node Term Products) (root : Node) (hopen : s.isClosing = false) :
    ∃ rest, (compileCSG_try env root s).state.calls
        = s.calls ++ Call.buildCSGTree root :: rest ∧
      onlyNormalizeCalls rest ∧
      ∀ term, (env.buildCSGTree root).outcome = .returned term →
        (compileCSG_try env root s).state.csgRoot = term := by
  rw [compileCSG_try_eq env root s hopen]
  generalize hs3 : print .NONE "Compiling design (CSG Products normalization)..."
    (evaluateCSG root (env.buildCSGTree root)
      (print .NONE "Compiling design (CSG Products generation)..." s)) = s3
  have e1 : s3.calls = s.calls ++ [Call.buildCSGTree root] := by
    rw [← hs3]
    cases hout : (env.buildCSGTree root).outcome <;> simp [evaluateCSG, print, record, hout]
  have e2 : ∀ term, (env.buildCSGTree root).outcome = .returned term → s3.csgRoot = term := by
    intro term hout
    rw [← hs3]
    simp [evaluateCSG, print, record, hout]
  obtain ⟨n1, restN, n2, n3⟩ := normalizeRoot_state env (normalizelimit env) s3
  cases hn : normalizeRoot env (normalizelimit env) s3 with
  | hardWarning s4 =>
    rw [hn] at n1 n2
    simp only [Outcome.state] at n1 n2
    refine ⟨restN, ?_, n3, fun term hout => ?_⟩
    · simp only [Outcome.andThen, Outcome.state, n2, e1, List.append_assoc, List.singleton_append]
    · simp only [Outcome.andThen, Outcome.state, n1, e2 term hout]
  | done s4 =>
    rw [hn] at n1 n2
    simp only [Outcome.state] at n1 n2
    obtain ⟨c1, c2⟩ := createRenderers_state env
      (compileBackground env (normalizelimit env) (env.buildCSGTree root).backgroundNodes
        (compileHighlights env (normalizelimit env) (env.buildCSGTree root).highlightNodes s4))
    have hcalls : (compileBackground env (normalizelimit env)
        (env.buildCSGTree root).backgroundNodes
        (compileHighlights env (normalizelimit env) (env.buildCSGTree root).highlightNodes
          s4)).calls
        = s4.calls ++
          ((env.buildCSGTree root).highlightNodes.map (Call.normalize (normalizelimit env)) ++
           (env.buildCSGTree root).backgroundNodes.map (Call.normalize (normalizelimit env))) := by
      simp [compileHighlights_eq, compileBackground_eq]
    have hcsg : (compileBackground env (normalizelimit env)
        (env.buildCSGTree root).backgroundNodes
        (compileHighlights env (normalizelimit env) (env.buildCSGTree root).highlightNodes
          s4)).csgRoot = s4.csgRoot := by
      simp [compileHighlights_eq, compileBackground_eq]
    rw [hcalls] at c2
    rw [hcsg] at c1
    simp only [Outcome.andThen]
    generalize createRenderers env
      (compileBackground env (normalizelimit env) (env.buildCSGTree root).backgroundNodes
        (compileHighlights env (normalizelimit env) (env.buildCSGTree root).highlightNodes
          s4)) = o at c1 c2 ⊢
    refine ⟨restN ++
      ((env.buildCSGTree root).highlightNodes.map (Call.normalize (normalizelimit env)) ++
       (env.buildCSGTree root).backgroundNodes.map (Call.normalize (normalizelimit env))),
      ?_, ?_, fun term hout => ?_⟩
    · cases o <;> simp only [Outcome.state] at c2 <;>
        simp [Outcome.andThen, Outcome.state, print, c2, n2, e1]
    · intro c hmem
      rcases List.mem_append.mp hmem with h | h
      · exact n3 c h
      · rcases List.mem_append.mp h with h | h
        · obtain ⟨t, _, rfl⟩ := List.mem_map.mp h
          exact ⟨_, _, rfl⟩
        · obtain ⟨t, _, rfl⟩ := List.mem_map.mp h
          exact ⟨_, _, rfl⟩
    · cases o <;> simp only [Outcome.state] at c1 <;>
        simp [Outcome.andThen, Outcome.state, print, c1, n1, e2 term hout]

end Lemmas

/-- A call passes the throttle exactly when the timer has expired. -/
theorem report_func_passed (count : Int) (c : ReportCall) (p : ProgressState) :
    (report_func count c p).passed = hasExpired p c.now MIN_TIMEOUT := by
  unfold report_func
  by_cases h : hasExpired p c.now MIN_TIMEOUT = true
  · by_cases h2 : permille count c.mark c.outOfRange > p.value <;> simp [h, h2]
  · simp [h]

/-- A call that passes restarts the timer at its own clock reading; a call
that does not pass leaves the whole state alone. -/
theorem report_func_state (count : Int) (c : ReportCall) (p : ProgressState) :
    (hasExpired p c.now MIN_TIMEOUT = true →
      (report_func count c p).state.throttleStart = c.now) ∧
    (hasExpired p c.now MIN_TIMEOUT = false → (report_func count c p).state = p) := by
  unfold report_func
  constructor
  · intro h
    by_cases h2 : permille count c.mark c.outOfRange > p.value <;> simp [h, h2]
  · intro h
    simp [h]

/-- With a monotonic clock, every call that passes comes more than 200 ms
after the last start of the timer. -/
theorem passedTimes_after_start (count : Int) :
    ∀ (es : List ThrottleEvent) (p : ProgressState),
      (∀ e ∈ es, p.throttleStart ≤ e.time) →
      (es.map ThrottleEvent.time).Pairwise (fun a b => a ≤ b) →
      ∀ t ∈ passedTimes count p es, p.throttleStart + 200 < t := by
  intro es
  induction es with
  | nil => intro p _ _ t ht; simp [passedTimes] at ht
  | cons e es ih =>
    intro p hstart hsorted t ht
    rw [List.map_cons, List.pairwise_cons] at hsorted
    obtain ⟨hfirst, hrest⟩ := hsorted
    have hlater : ∀ e2 ∈ es, e.time ≤ e2.time := fun e2 he2 =>
      hfirst _ (List.mem_map_of_mem _ he2)
    have he : p.throttleStart ≤ e.time := hstart e (List.mem_cons_self _ _)
    cases e with
    | windowCreated now =>
      simp only [passedTimes] at ht
      have := ih { p with throttleStart := now } hlater hrest t ht
      simp only [ThrottleEvent.time] at he this
      omega
    | report c =>
      simp only [ThrottleEvent.time] at he hlater
      simp only [passedTimes, report_func_passed] at ht
      cases hexp : hasExpired p c.now MIN_TIMEOUT with
      | true =>
        have hgap : p.throttleStart + 200 < c.now := by
          simp [hasExpired, MIN_TIMEOUT] at hexp; omega
        have hst := (report_func_state count c p).1 hexp
        simp only [hexp, if_true, List.mem_cons] at ht
        rcases ht with rfl | ht
        · exact hgap
        · have := ih (report_func count c p).state (by rw [hst]; exact hlater) hrest t ht
          rw [hst] at this
          omega
      | false =>
        have hst := (report_func_state count c p).2 hexp
        simp only [hexp] at ht
        rw [hst] at ht
        exact ih p (fun e2 he2 => hstart e2 (List.mem_cons_of_mem _ he2)) hrest t ht

/-- With a monotonic clock, the calls that pass are more than 200 ms apart. -/
theorem passedTimes_pairwise (count : Int) :
    ∀ (es : List ThrottleEvent) (p : ProgressState),
      (es.map ThrottleEvent.time).Pairwise (fun a b => a ≤ b) →
      (passedTimes count p es).Pairwise (fun earlier later => earlier + 200 < later) := by
  intro es
  induction es with
  | nil => intro p _; simp [passedTimes]
  | cons e es ih =>
    intro p hsorted
    rw [List.map_cons, List.pairwise_cons] at hsorted
    obtain ⟨hfirst, hrest⟩ := hsorted
    have hlater : ∀ e2 ∈ es, e.time ≤ e2.time := fun e2 he2 =>
      hfirst _ (List.mem_map_of_mem _ he2)
    cases e with
    | windowCreated now =>
      simp only [passedTimes]
      exact ih _ hrest
    | report c =>
      simp only [ThrottleEvent.time] at hlater
      simp only [passedTimes, report_func_passed]
      cases hexp : hasExpired p c.now MIN_TIMEOUT with
      | true =>
        have hst := (report_func_state count c p).1 hexp
        simp only [if_true, List.pairwise_cons]
        refine ⟨fun t ht => ?_, ih _ hrest⟩
        have := passedTimes_after_start count es (report_func count c p).state
          (by rw [hst]; exact hlater) hrest t ht
        rw [hst] at this
        exact this
      | false =>
        simp only [Bool.false_eq_true, if_false]
        exact ih _ hrest

/-- Time stamps that are pairwise more than 200 apart and lie between `lo`
and `hi` span at least 201 units per gap. -/
theorem span_of_spaced (l : List Int) :
    ∀ (lo hi : Int), l.Pairwise (fun earlier later => earlier + 200 < later) →
      (∀ t ∈ l, lo ≤ t ∧ t ≤ hi) → l ≠ [] → lo + 201 * ((l.length : Int) - 1) ≤ hi := by
  induction l with
  | nil => intro lo hi _ _ h; exact absurd rfl h
  | cons a rest ih =>
    intro lo hi hpw hin _
    rw [List.pairwise_cons] at hpw
    obtain ⟨hgap, hrest⟩ := hpw
    have ha := hin a (List.mem_cons_self _ _)
    cases hr : rest with
    | nil => simp; omega
    | cons b rest2 =>
      have hne : rest ≠ [] := by rw [hr]; exact List.cons_ne_nil _ _
      have := ih (a + 201) hi hrest
        (fun t ht => ⟨by have := hgap t ht; omega, (hin t (List.mem_cons_of_mem _ ht)).2⟩) hne
      rw [hr] at this
      simp only [List.length_cons] at this ⊢
      push_cast at this ⊢
      omega

/-! ### C1 -/

/-- C1, as stated, fails: with a non-null root term (5) whose normalization
returns null, `compileCSG` does create `opencsgRenderer` (over a null root
product), and `viewModePreview` installs that OpenCSG renderer, not the
thrown-together one. -/
theorem C1_opencsg_renderer_created_on_failed_normalization :
    (buildsFive 1).outcome = .returned (some 5) ∧
    normalizeFails (normalizelimit (Env.sample buildsFive normalizeFails)) 5 = none ∧
    ∃ s, compileCSG (Env.sample buildsFive normalizeFails) readyWindow = some s ∧
      s.opencsgRenderer = some ⟨.OpenCSGRenderer, none, none, none⟩ ∧
      (viewModePreview (Env.sample buildsFive normalizeFails) s).qglview_renderer
        = some ⟨.OpenCSGRenderer, none, none, none⟩ ∧
      (viewModePreview (Env.sample buildsFive normalizeFails) s).qglview_renderer
        ≠ s.thrownTogetherRenderer :=
  ⟨rfl, rfl, _, rfl, rfl, rfl, by decide⟩

/-- C1, amended: when the root term is non-null and its normalization returns
null, and the Warning is not raised as a hard warning, `compileCSG` logs the
Warning and completes without running `exceptionCleanup`; `rootProduct` is
null and BOTH renderers are created over that null root product; then
`viewModePreview` installs the OpenCSG renderer when the view supports
OpenCSG, and the thrown-together renderer otherwise. -/
theorem C1_failed_normalization_warns_and_builds_both_renderers
    {Node Term Products : Type} (env : Env Node Term Products)
    (s : MainWindow Node Term Products) (root : Node) (term : Term)
    (hroot : s.rootNode = some root) (hopen : s.isClosing = false)
    (hbuilt : (env.buildCSGTree root).outcome = .returned (some term))
    (hnorm : env.normalize (normalizelimit env) term = none)
    (hquiet : env.logRaises .Warning = false) :
    ∃ s1, compileCSG env s = some s1 ∧
      compileCSG_try env root s = .done s1 ∧
      ⟨.Warning, "CSG normalization resulted in an empty tree"⟩ ∈ s1.console ∧
      s1.guiLocked = s.guiLocked ∧
      s1.rootProduct = none ∧
      s1.opencsgRenderer
        = some ⟨.OpenCSGRenderer, none, s1.highlightsProducts, s1.backgroundProducts⟩ ∧
      s1.thrownTogetherRenderer
        = some ⟨.ThrownTogetherRenderer, none, s1.highlightsProducts, s1.backgroundProducts⟩ ∧
      (viewModePreview env s1).qglview_renderer
        = (if env.hasOpenCSGSupport then s1.opencsgRenderer else s1.thrownTogetherRenderer) := by
  simp only [compileCSG, hroot, compileCSG_try_eq env root s hopen]
  cases hsup : env.hasOpenCSGSupport <;>
  simp [hbuilt, hnorm, hquiet, hsup, evaluateCSG, normalizeRoot, LOG, print, record,
    Outcome.andThen, createRenderers, compileHighlights_eq, compileBackground_eq,
    makeOpenCSGRenderer, makeThrownTogetherRenderer, viewModePreview, viewModeThrownTogether]

/-- C1, amended, at a concrete input: node 1 evaluates to term 5, whose
normalization returns null. -/
theorem C1_failed_normalization_witness :
    ∃ s1, compileCSG (Env.sample buildsFive normalizeFails) readyWindow = some s1 ∧
      s1.rootProduct = none ∧
      s1.opencsgRenderer
        = some ⟨.OpenCSGRenderer, none, s1.highlightsProducts, s1.backgroundProducts⟩ :=
  let ⟨s1, h1, _, _, _, h5, h6, _⟩ :=
    C1_failed_normalization_warns_and_builds_both_renderers
      (Env.sample buildsFive normalizeFails) readyWindow 1 5 rfl rfl rfl rfl rfl
  ⟨s1, h1, h5, h6⟩

/-! ### C2 -/

/-- C2, as stated, fails: with the non-null `csgRoot` 5 whose normalization
returns null, the thrown-together renderer built by `compileCSG` gets a null
root input. -/
theorem C2_thrown_together_root_input_null :
    ∃ s, compileCSG (Env.sample buildsFive normalizeFails) readyWindow = some s ∧
      s.csgRoot = some 5 ∧
      s.thrownTogetherRenderer = some ⟨.ThrownTogetherRenderer, none, none, none⟩ :=
  ⟨_, rfl, rfl, rfl⟩

/-- C2, amended: for a non-null `csgRoot`, when no `LOG` raises, the
thrown-together renderer built by `compileCSG` is given `rootProduct`, the
product of the NORMALIZED root, and never the unnormalized tree: its root input
is null exactly when the normalizer returned null (a Warning is then
logged), while `csgRoot` itself stays in the window. -/
theorem C2_thrown_together_renderer_gets_normalized_product
    {Node Term Products : Type} (env : Env Node Term Products)
    (s : MainWindow Node Term Products) (root : Node) (term : Term)
    (hroot : s.rootNode = some root) (hopen : s.isClosing = false)
    (hbuilt : (env.buildCSGTree root).outcome = .returned (some term))
    (hquiet : env.logRaises .Warning = false) (hquietUI : env.logRaises .UI_Warning = false) :
    ∃ s1, compileCSG env s = some s1 ∧
      s1.csgRoot = some term ∧
      s1.rootProduct
        = (env.normalize (normalizelimit env) term).map (env.importTerm env.newProducts) ∧
      s1.thrownTogetherRenderer
        = some ⟨.ThrownTogetherRenderer, s1.rootProduct, s1.highlightsProducts,
            s1.backgroundProducts⟩ ∧
      (env.normalize (normalizelimit env) term = none →
        s1.rootProduct = none ∧
        ⟨.Warning, "CSG normalization resulted in an empty tree"⟩ ∈ s1.console) := by
  simp only [compileCSG, hroot, compileCSG_try_eq env root s hopen]
  cases hnorm : env.normalize (normalizelimit env) term with
  | none =>
    simp [hbuilt, hnorm, hquiet, evaluateCSG, normalizeRoot, LOG, print, record,
      Outcome.andThen, createRenderers, compileHighlights_eq, compileBackground_eq,
      makeOpenCSGRenderer, makeThrownTogetherRenderer]
  | some normalized =>
    by_cases hsize : env.size (env.importTerm env.newProducts normalized) > env.openCSGLimit <;>
    simp [hbuilt, hnorm, hquietUI, hsize, evaluateCSG, normalizeRoot, LOG, print, record,
      Outcome.andThen, createRenderers, compileHighlights_eq, compileBackground_eq,
      makeOpenCSGRenderer, makeThrownTogetherRenderer]

/-- C2, amended, at a concrete input: term 5 fails to normalize and the
thrown-together renderer gets the null root product. -/
theorem C2_thrown_together_renderer_witness :
    ∃ s1, compileCSG (Env.sample buildsFive normalizeFails) readyWindow = some s1 ∧
      s1.rootProduct = none ∧
      s1.thrownTogetherRenderer
        = some ⟨.ThrownTogetherRenderer, s1.rootProduct, s1.highlightsProducts,
            s1.backgroundProducts⟩ :=
  let ⟨s1, h1, _, _, h4, h5⟩ :=
    C2_thrown_together_renderer_gets_normalized_product
      (Env.sample buildsFive normalizeFails) readyWindow 1 5 rfl rfl rfl rfl rfl
  ⟨s1, h1, (h5 rfl).1, h4⟩

/-! ### C3 -/

/-- C3, as stated, fails: the traversal of node 1 is cancelled after it has
collected highlight node 7 and background node 8; after `compileCSG` these
two terms have been normalized and imported into `highlightsProducts` and
`backgroundProducts`, and both renderers are built over them. -/
theorem C3_cancelled_traversal_terms_are_imported :
    (cancelledAfterCollecting 1).outcome = .cancelled ∧
    7 ∈ (cancelledAfterCollecting 1).highlightNodes ∧
    8 ∈ (cancelledAfterCollecting 1).backgroundNodes ∧
    ∃ s, compileCSG (Env.sample cancelledAfterCollecting normalizeKeeps) readyWindow = some s ∧
      s.highlightsProducts = some [7] ∧
      s.backgroundProducts = some [8] ∧
      s.opencsgRenderer = some ⟨.OpenCSGRenderer, none, some [7], some [8]⟩ ∧
      s.thrownTogetherRenderer = some ⟨.ThrownTogetherRenderer, none, some [7], some [8]⟩ :=
  ⟨rfl, by decide, by decide, _, rfl, rfl, rfl, rfl, rfl⟩

/-- C3, amended: when `buildCSGTree` raises `ProgressCancelException` in a
compile (so `csgRoot` and `rootProduct` are null on entry, as `instantiateRoot`
leaves them), the exception is caught inside `compileCSG`, which logs the
cancellation and carries on without raising: `csgRoot` is not assigned and
stays null, the normalizer is not run on a root and `rootProduct` stays null;
but the highlight and background nodes collected before the cancellation ARE
normalized and imported into `highlightsProducts` and `backgroundProducts`,
over which the renderers are built. -/
theorem C3_cancellation_caught_root_discarded_side_forests_imported
    {Node Term Products : Type} (env : Env Node Term Products)
    (s : MainWindow Node Term Products) (root : Node)
    (hroot : s.rootNode = some root) (hopen : s.isClosing = false)
    (hcancel : (env.buildCSGTree root).outcome = .cancelled)
    (hcsg : s.csgRoot = none) (hprod : s.rootProduct = none) :
    ∃ s1, compileCSG env s = some s1 ∧
      compileCSG_try env root s = .done s1 ∧
      ⟨.NONE, "CSG generation cancelled."⟩ ∈ s1.console ∧
      s1.guiLocked = s.guiLocked ∧
      s1.csgRoot = none ∧
      s1.normalizedRoot = s.normalizedRoot ∧
      s1.rootProduct = none ∧
      s1.highlightsProducts
        = (if (env.buildCSGTree root).highlightNodes.length > 0 then
            some (importForest env (normalizelimit env) (env.buildCSGTree root).highlightNodes)
           else none) ∧
      s1.backgroundProducts
        = (if (env.buildCSGTree root).backgroundNodes.length > 0 then
            some (importForest env (normalizelimit env) (env.buildCSGTree root).backgroundNodes)
           else none) ∧
      s1.opencsgRenderer
        = some ⟨.OpenCSGRenderer, none, s1.highlightsProducts, s1.backgroundProducts⟩ ∧
      s1.thrownTogetherRenderer
        = some ⟨.ThrownTogetherRenderer, none, s1.highlightsProducts, s1.backgroundProducts⟩ := by
  simp only [compileCSG, hroot, compileCSG_try_eq env root s hopen]
  simp [hcancel, hcsg, hprod, evaluateCSG, normalizeRoot, print, record,
    Outcome.andThen, createRenderers, compileHighlights_eq, compileBackground_eq,
    makeOpenCSGRenderer, makeThrownTogetherRenderer]

/-- C3, amended, at a concrete input: the cancelled traversal had collected
highlight node 7, which ends up in `highlightsProducts`, while `csgRoot`
stays null. -/
theorem C3_cancellation_witness :
    ∃ s1, compileCSG (Env.sample cancelledAfterCollecting normalizeKeeps) readyWindow = some s1 ∧
      s1.csgRoot = none ∧ s1.rootProduct = none ∧ s1.highlightsProducts = some [7] :=
  let ⟨s1, h1, _, _, _, h5, _, h7, h8, _⟩ :=
    C3_cancellation_caught_root_discarded_side_forests_imported
      (Env.sample cancelledAfterCollecting normalizeKeeps) readyWindow 1 rfl rfl rfl rfl rfl
  ⟨s1, h1, h5, h7, h8⟩

/-! ### C4 -/

/-- C4, as stated, fails: the window holds the results of a previous compile
(term 5, its normalization, its product), and in the state between
`instantiateRoot` and `compileCSG` of the next compile all three are already
null although nothing new has been built. -/
theorem C4_previous_results_dropped_before_rebuild :
    previousCompile.csgRoot = some 5 ∧
    previousCompile.normalizedRoot = some 5 ∧
    previousCompile.rootProduct = some [5] ∧
    instantiateRoot (Env.sample buildsFive normalizeKeeps) previousCompile
      = .done (instantiateRoot (Env.sample buildsFive normalizeKeeps) previousCompile).state ∧
    (instantiateRoot (Env.sample buildsFive normalizeKeeps) previousCompile).state.csgRoot = none ∧
    (instantiateRoot (Env.sample buildsFive normalizeKeeps) previousCompile).state.normalizedRoot
      = none ∧
    (instantiateRoot (Env.sample buildsFive normalizeKeeps) previousCompile).state.rootProduct
      = none :=
  ⟨rfl, rfl, rfl, rfl, rfl, rfl, rfl⟩

/-- C4, amended: terms and products are not swapped atomically.  However
`instantiateRoot` ends (also when it raises), it has first taken the renderer
out of the view and dropped both renderers, and then dropped `csgRoot`,
`normalizedRoot` and `rootProduct`: all six are null in the state in which
`compileCSG` starts to build the new ones. -/
theorem C4_instantiateRoot_drops_renderers_then_results
    {Node Term Products : Type} (env : Env Node Term Products)
    (s : MainWindow Node Term Products) :
    (instantiateRoot env s).state.qglview_renderer = none ∧
    (instantiateRoot env s).state.opencsgRenderer = none ∧
    (instantiateRoot env s).state.thrownTogetherRenderer = none ∧
    (instantiateRoot env s).state.csgRoot = none ∧
    (instantiateRoot env s).state.normalizedRoot = none ∧
    (instantiateRoot env s).state.rootProduct = none :=
  instantiateRoot_invalidated env s

/-! ### C5 -/

/-- C5, as stated, fails: the window shows the result of a previous compile
and the next compile has no `rootFile`; after `instantiateRoot` the view's
renderer, both renderers, `csgRoot`, `normalizedRoot` and `rootProduct` are
null, not what they were before. -/
theorem C5_previous_render_state_not_kept :
    previousCompileNoFile.rootFile = none ∧
    previousCompileNoFile.qglview_renderer = some ⟨.OpenCSGRenderer, some [5], none, none⟩ ∧
    previousCompileNoFile.rootProduct = some [5] ∧
    (instantiateRoot (Env.sample buildsFive normalizeKeeps) previousCompileNoFile).state.qglview_renderer
      = none ∧
    (instantiateRoot (Env.sample buildsFive normalizeKeeps) previousCompileNoFile).state.opencsgRenderer
      = none ∧
    (instantiateRoot (Env.sample buildsFive normalizeKeeps) previousCompileNoFile).state.thrownTogetherRenderer
      = none ∧
    (instantiateRoot (Env.sample buildsFive normalizeKeeps) previousCompileNoFile).state.csgRoot
      = none ∧
    (instantiateRoot (Env.sample buildsFive normalizeKeeps) previousCompileNoFile).state.normalizedRoot
      = none ∧
    (instantiateRoot (Env.sample buildsFive normalizeKeeps) previousCompileNoFile).state.rootProduct
      = none :=
  ⟨rfl, rfl, rfl, rfl, rfl, rfl, rfl, rfl, rfl⟩

/-- C5, amended: when a compile pass produces no root node (`rootFile` is
null, or the instantiation yields a null tree), the previous render state is
cleared, not kept: after `instantiateRoot` (also when its Error message
raises) `rootNode`, the view's renderer, both renderers, `csgRoot`,
`normalizedRoot` and `rootProduct` are all null and an Error has been logged;
`csgRender` on that state does not evaluate anything and leaves the view
without a renderer, so no half-built product set is shown. -/
theorem C5_failed_compile_clears_render_state
    {Node Term Products : Type} (env : Env Node Term Products)
    (s : MainWindow Node Term Products)
    (hfail : s.rootFile = none ∨
      ∃ file, s.rootFile = some file ∧ instantiated env s file = some none) :
    (instantiateRoot env s).state.rootNode = none ∧
    (instantiateRoot env s).state.qglview_renderer = none ∧
    (instantiateRoot env s).state.opencsgRenderer = none ∧
    (instantiateRoot env s).state.thrownTogetherRenderer = none ∧
    (instantiateRoot env s).state.csgRoot = none ∧
    (instantiateRoot env s).state.normalizedRoot = none ∧
    (instantiateRoot env s).state.rootProduct = none ∧
    (∃ text, ⟨.Error, text⟩ ∈ (instantiateRoot env s).state.console) ∧
    (csgRender env (instantiateRoot env s).state).qglview_renderer = none ∧
    (csgRender env (instantiateRoot env s).state).calls = s.calls ∧
    (csgRender env (instantiateRoot env s).state).rootProduct = none := by
  obtain ⟨i1, i2, i3, i4, i5, i6⟩ := instantiateRoot_invalidated env s
  have hroot : (instantiateRoot env s).state.rootNode = none ∧
      (instantiateRoot env s).state.calls = s.calls ∧
      ∃ text, ⟨.Error, text⟩ ∈ (instantiateRoot env s).state.console := by
    obtain ⟨s1, hev, hnode, hcalls⟩ := evaluateRootFile_without_root env s hfail
    obtain ⟨n1, n2, n3⟩ := reportNoRoot_without_root env s1 hnode
    simp only [instantiateRoot, hev, Outcome.andThen]
    exact ⟨n1, n2.trans hcalls, n3⟩
  obtain ⟨r1, r2, r3⟩ := hroot
  obtain ⟨c1, c2, _, c4⟩ := csgRender_without_root env _ r1 i2 i3
  exact ⟨r1, i1, i2, i3, i4, i5, i6, r3, c1, c2.trans r2, c4.trans i6⟩

/-- C5, amended, at a concrete input: the window of a previous compile, the
next compile having no `rootFile`. -/
theorem C5_failed_compile_witness :
    (instantiateRoot (Env.sample buildsFive normalizeKeeps) previousCompileNoFile).state.rootNode
      = none ∧
    (csgRender (Env.sample buildsFive normalizeKeeps)
      (instantiateRoot (Env.sample buildsFive normalizeKeeps)
        previousCompileNoFile).state).qglview_renderer = none :=
  let h := C5_failed_compile_clears_render_state (Env.sample buildsFive normalizeKeeps)
    previousCompileNoFile (Or.inl rfl)
  ⟨h.1, h.2.2.2.2.2.2.2.2.1⟩

/-! ### C6 -/

/-- C6: when `buildCSGTree` returns the null term in a compile (`rootProduct`
is null on entry, as `instantiateRoot` leaves it), `compileCSG` completes
without raising and without running `exceptionCleanup`; `csgRoot` is null;
the normalizer is called on the highlight and background terms only, never
on a root; every console line it adds has group NONE (no Warning, no Error);
`rootProduct` is still null and both renderers are constructed over a null
root product.  The normalization-failure path differs observably: whenever a
non-null root term normalizes to null, a Warning is among the added lines. -/
theorem C6_null_term_is_a_valid_outcome
    {Node Term Products : Type} (env : Env Node Term Products)
    (s : MainWindow Node Term Products) (root : Node)
    (hroot : s.rootNode = some root) (hopen : s.isClosing = false)
    (hbuilt : (env.buildCSGTree root).outcome = .returned none)
    (hprod : s.rootProduct = none) :
    (∃ s1, compileCSG env s = some s1 ∧
      compileCSG_try env root s = .done s1 ∧
      s1.guiLocked = s.guiLocked ∧
      s1.csgRoot = none ∧
      s1.normalizedRoot = s.normalizedRoot ∧
      s1.rootProduct = none ∧
      s1.calls = s.calls ++ Call.buildCSGTree root ::
        ((env.buildCSGTree root).highlightNodes.map (Call.normalize (normalizelimit env)) ++
         (env.buildCSGTree root).backgroundNodes.map (Call.normalize (normalizelimit env))) ∧
      (∃ added, s1.console = s.console ++ added ∧ ∀ m ∈ added, m.group = .NONE) ∧
      s1.opencsgRenderer
        = some ⟨.OpenCSGRenderer, none, s1.highlightsProducts, s1.backgroundProducts⟩ ∧
      s1.thrownTogetherRenderer
        = some ⟨.ThrownTogetherRenderer, none, s1.highlightsProducts, s1.backgroundProducts⟩) ∧
    (∀ (env2 : Env Node Term Products) (s2 : MainWindow Node Term Products) (root2 : Node)
        (term : Term),
      s2.rootNode = some root2 → s2.isClosing = false →
      (env2.buildCSGTree root2).outcome = .returned (some term) →
      env2.normalize (normalizelimit env2) term = none →
      ∃ s3 added, compileCSG env2 s2 = some s3 ∧ s3.console = s2.console ++ added ∧
        ⟨.Warning, "CSG normalization resulted in an empty tree"⟩ ∈ added) := by
  constructor
  · simp only [compileCSG, hroot, compileCSG_try_eq env root s hopen]
    simp [hbuilt, hprod, evaluateCSG, normalizeRoot, print, record,
      Outcome.andThen, createRenderers, compileHighlights_eq, compileBackground_eq,
      makeOpenCSGRenderer, makeThrownTogetherRenderer]
    rintro a (⟨_, rfl⟩ | ⟨_, rfl⟩ | rfl | rfl) <;> rfl
  · intro env2 s2 root2 term hroot2 hopen2 hbuilt2 hnorm2
    simp only [compileCSG, hroot2, compileCSG_try_eq env2 root2 s2 hopen2]
    cases hr : env2.logRaises .Warning <;>
    simp [hbuilt2, hnorm2, hr, evaluateCSG, normalizeRoot, LOG, print, record,
      Outcome.andThen, createRenderers, compileHighlights_eq, compileBackground_eq,
      makeOpenCSGRenderer, makeThrownTogetherRenderer, exceptionCleanup_eq]

/-- C6 at a concrete input: node 1 evaluates to the null term. -/
theorem C6_null_term_witness :
    ∃ s1, compileCSG (Env.sample buildsNothing normalizeKeeps) readyWindow = some s1 ∧
      s1.csgRoot = none ∧ s1.rootProduct = none ∧
      s1.thrownTogetherRenderer
        = some ⟨.ThrownTogetherRenderer, none, s1.highlightsProducts, s1.backgroundProducts⟩ :=
  let ⟨s1, h1, _, _, h4, _, h6, _, _, _, h10⟩ :=
    (C6_null_term_is_a_valid_outcome (Env.sample buildsNothing normalizeKeeps) readyWindow 1
      rfl rfl rfl rfl).1
  ⟨s1, h1, h4, h6, h10⟩

/-! ### C7 -/

/-- C7: while the GUI lock is held, `actionRender` and
`actionReloadRenderPreview` return the window unchanged and
`actionRenderPreview` changes nothing but its own `preview_requested` flag:
none of them calls `compile` (the call trace is unchanged) or changes
`afterCompileSlot`, `procevents` or `isPreview`.  When the lock is free, each
of them calls `compile` exactly in its prepared state, in which the lock is
already held. -/
theorem C7_actions_guarded_by_gui_lock
    {Node Term Products : Type} (env : Env Node Term Products)
    (s : MainWindow Node Term Products) :
    (GuiLocker.isLocked s = true →
      actionRender env s = s ∧
      actionReloadRenderPreview env s = s ∧
      actionRenderPreview env s = { s with preview_requested := true } ∧
      (actionRenderPreview env s).calls = s.calls ∧
      (actionRenderPreview env s).afterCompileSlot = s.afterCompileSlot ∧
      (actionRenderPreview env s).procevents = s.procevents ∧
      (actionRenderPreview env s).isPreview = s.isPreview ∧
      (actionRenderPreview env s).guiLocked = s.guiLocked) ∧
    (GuiLocker.isLocked s = false →
      actionRender env s = callCompile env false false (actionRender_prepare s) ∧
      GuiLocker.isLocked (actionRender_prepare s) = true ∧
      actionReloadRenderPreview env s
        = callCompile env true false (actionReloadRenderPreview_prepare s) ∧
      GuiLocker.isLocked (actionReloadRenderPreview_prepare s) = true ∧
      actionRenderPreview env s
        = (let s2 := callCompile env false false
              (actionRenderPreview_prepare { s with preview_requested := true })
           if s2.preview_requested then record .singleShot_actionRenderPreview s2 else s2) ∧
      GuiLocker.isLocked (actionRenderPreview_prepare { s with preview_requested := true })
        = true) := by
  constructor
  · intro h
    have h1 : GuiLocker.isLocked ({ s with preview_requested := true } :
        MainWindow Node Term Products) = true := h
    simp [actionRender, actionReloadRenderPreview, actionRenderPreview, h, h1]
  · intro h
    have h1 : GuiLocker.isLocked ({ s with preview_requested := true } :
        MainWindow Node Term Products) = false := h
    have h0 : s.guiLocked = 0 := by
      simpa [GuiLocker.isLocked] using h
    have hinc : decide (unsignedIncrement 0 > 0) = true := by decide
    refine ⟨by simp [actionRender, h], ?_, by simp [actionReloadRenderPreview, h], ?_,
      by simp [actionRenderPreview, h1], ?_⟩
    · show decide (unsignedIncrement s.guiLocked > 0) = true
      rw [h0]; exact hinc
    · show decide (unsignedIncrement s.guiLocked > 0) = true
      rw [h0]; exact hinc
    · show decide (unsignedIncrement s.guiLocked > 0) = true
      rw [h0]; exact hinc

/-- C7 at concrete inputs: a locked window is returned unchanged by
`actionRender`, and from the free window `readyWindow` the state in which
`compile` is called holds the lock. -/
theorem C7_actions_guarded_witness :
    actionRender (Env.sample buildsFive normalizeKeeps) lockedWindow = lockedWindow ∧
    GuiLocker.isLocked (actionRender_prepare readyWindow) = true :=
  ⟨((C7_actions_guarded_by_gui_lock (Env.sample buildsFive normalizeKeeps) lockedWindow).1
      (by decide)).1,
   ((C7_actions_guarded_by_gui_lock (Env.sample buildsFive normalizeKeeps) readyWindow).2
      (by decide)).2.1⟩

/-! ### C8 -/

/-- C8: for every sequence of `report_func` calls (interleaved with timer
restarts by window constructors) whose clock readings are non-decreasing, any
two calls that pass the throttle are more than 200 ms apart, so at most 5 of
them fall in any window of 1000 ms; and a call that does not pass the
throttle neither forwards a value to the progress widget nor raises the
cancellation. -/
theorem C8_progress_reports_at_most_five_per_second
    (progress_report_count : Int) (p : ProgressState) (events : List ThrottleEvent)
    (hclock : (events.map ThrottleEvent.time).Pairwise (fun a b => a ≤ b)) :
    (passedTimes progress_report_count p events).Pairwise
        (fun earlier later => earlier + MIN_TIMEOUT < later) ∧
    (∀ w : Int,
      ((passedTimes progress_report_count p events).filter
        (fun t => decide (w ≤ t ∧ t ≤ w + 1000))).length ≤ 5) ∧
    (∀ (c : ReportCall) (q : ProgressState),
      (report_func progress_report_count c q).passed = false →
        (report_func progress_report_count c q).setValue = none ∧
        (report_func progress_report_count c q).cancelled = false ∧
        (report_func progress_report_count c q).state = q) := by
  have hpw := passedTimes_pairwise progress_report_count events p hclock
  refine ⟨hpw, fun w => ?_, fun c q hpass => ?_⟩
  · by_contra hlen
    have hne : (passedTimes progress_report_count p events).filter
        (fun t => decide (w ≤ t ∧ t ≤ w + 1000)) ≠ [] := by
      intro h; rw [h] at hlen; simp at hlen
    have := span_of_spaced _ w (w + 1000) (hpw.filter _)
      (fun t ht => by simpa using (List.mem_filter.mp ht).2) hne
    omega
  · rw [report_func_passed] at hpass
    have hst := (report_func_state progress_report_count c q).2 hpass
    refine ⟨?_, ?_, hst⟩ <;> simp [report_func, hpass]

/-- C8 at a concrete input: calls every 100 ms from 0 to 500 ms after a timer
start at 0; the calls at 201 and 402 pass. -/
theorem C8_progress_reports_witness :
    (passedTimes 10 ⟨0, 0⟩
      [.report ⟨100, 1, false, 0⟩, .report ⟨201, 2, false, 0⟩, .report ⟨300, 3, false, 0⟩,
       .report ⟨402, 4, false, 0⟩]).Pairwise (fun earlier later => earlier + MIN_TIMEOUT < later) :=
  (C8_progress_reports_at_most_five_per_second 10 ⟨0, 0⟩
    [.report ⟨100, 1, false, 0⟩, .report ⟨201, 2, false, 0⟩, .report ⟨300, 3, false, 0⟩,
     .report ⟨402, 4, false, 0⟩] (by decide)).1

/-! ### C9 -/

/-- C9 as stated does not hold after every `compileCSG`.  With hard warnings
enabled and a root term whose normalization fails, the Warning raises before
the side forests are compiled: the evaluator has reported the highlight nodes
7 and 9 and the background node 8, and both product sets are null.  And the
product sets are not reset by `instantiateRoot`: after a preview that left
the products of 7 and of 8, a preview of a design with the highlight node 9
and no background node that is aborted in the same way leaves those products
of the earlier compile in place. -/
theorem C9_aborted_compile_leaves_side_forests :
    ((Env.sampleHardWarnings buildsThreeForests normalizeFails).buildCSGTree 1).highlightNodes
      = [7, 9] ∧
    ((Env.sampleHardWarnings buildsThreeForests normalizeFails).buildCSGTree 1).backgroundNodes
      = [8] ∧
    (compileCSG (Env.sampleHardWarnings buildsThreeForests normalizeFails) readyWindow).map
      (fun s1 => (s1.highlightsProducts, s1.backgroundProducts)) = some (none, none) ∧
    (actionRenderPreview (previewEnv (Env.sample buildsThreeForests normalizeAllButNine) id)
      parsedWindow).highlightsProducts = some [7] ∧
    (actionRenderPreview (previewEnv (Env.sample buildsThreeForests normalizeAllButNine) id)
      parsedWindow).backgroundProducts = some [8] ∧
    ((Env.sampleHardWarnings buildsOneHighlight normalizeFails).buildCSGTree 1).highlightNodes
      = [9] ∧
    ((Env.sampleHardWarnings buildsOneHighlight normalizeFails).buildCSGTree 1).backgroundNodes
      = [] ∧
    (actionRenderPreview (previewEnv (Env.sampleHardWarnings buildsOneHighlight normalizeFails) id)
      (actionRenderPreview (previewEnv (Env.sample buildsThreeForests normalizeAllButNine) id)
        parsedWindow)).highlightsProducts = some [7] ∧
    (actionRenderPreview (previewEnv (Env.sampleHardWarnings buildsOneHighlight normalizeFails) id)
      (actionRenderPreview (previewEnv (Env.sample buildsThreeForests normalizeAllButNine) id)
        parsedWindow)).backgroundProducts = some [8] ∧
    ⟨.NONE, "Execution aborted"⟩ ∈
      (actionRenderPreview
        (previewEnv (Env.sampleHardWarnings buildsOneHighlight normalizeFails) id)
        (actionRenderPreview (previewEnv (Env.sample buildsThreeForests normalizeAllButNine) id)
          parsedWindow)).console := by
  decide

/-- C9, amended: in a compile that is not aborted (`compileCSG` entered in the
state `instantiateRoot` leaves, with a root node, the window not closing and
no `LOG` raising), each forest is normalized and imported on its own:
`rootProduct` is the product of the normalized root term alone (null when
there is no root term or its normalization is null); `highlightsProducts` is
null iff the evaluator reported no highlight nodes, and otherwise holds, in
the evaluator's order, exactly the non-null normalizations of the highlight
nodes; `backgroundProducts` relates to the background nodes in the same way.
Each product set is thus determined by the terms of its own forest. -/
theorem C9_forests_normalized_and_imported_independently
    {Node Term Products : Type} (env : Env Node Term Products)
    (s : MainWindow Node Term Products) (root : Node)
    (hroot : s.rootNode = some root) (hopen : s.isClosing = false)
    (hfresh : Invalidated s)
    (hquiet : env.logRaises .Warning = false) (hquietUI : env.logRaises .UI_Warning = false) :
    ∃ s1, compileCSG env s = some s1 ∧
      s1.csgRoot = (match (env.buildCSGTree root).outcome with
                    | .returned term => term
                    | .cancelled => none
                    | .hardWarning => none) ∧
      s1.normalizedRoot = s1.csgRoot.bind (env.normalize (normalizelimit env)) ∧
      s1.rootProduct = s1.normalizedRoot.map (env.importTerm env.newProducts) ∧
      (s1.highlightsProducts = none ↔ (env.buildCSGTree root).highlightNodes = []) ∧
      ((env.buildCSGTree root).highlightNodes ≠ [] →
        s1.highlightsProducts = some
          (((env.buildCSGTree root).highlightNodes.filterMap
              (env.normalize (normalizelimit env))).foldl env.importTerm env.newProducts)) ∧
      (s1.backgroundProducts = none ↔ (env.buildCSGTree root).backgroundNodes = []) ∧
      ((env.buildCSGTree root).backgroundNodes ≠ [] →
        s1.backgroundProducts = some
          (((env.buildCSGTree root).backgroundNodes.filterMap
              (env.normalize (normalizelimit env))).foldl env.importTerm env.newProducts)) := by
  obtain ⟨_, _, _, f4, f5, f6⟩ := hfresh
  have hlen : ∀ l : List Term, 0 < l.length ↔ l ≠ [] := fun l => List.length_pos
  simp only [compileCSG, hroot, compileCSG_try_eq env root s hopen,
    ← importForest_eq_filterMap]
  cases hout : (env.buildCSGTree root).outcome with
  | cancelled =>
    simp [hout, f4, f5, f6, hlen, evaluateCSG, normalizeRoot, print, record,
      Outcome.andThen, createRenderers, compileHighlights_eq, compileBackground_eq,
      makeOpenCSGRenderer, makeThrownTogetherRenderer]
  | hardWarning =>
    simp [hout, f4, f5, f6, hlen, evaluateCSG, normalizeRoot, print, record,
      Outcome.andThen, createRenderers, compileHighlights_eq, compileBackground_eq,
      makeOpenCSGRenderer, makeThrownTogetherRenderer]
  | returned term =>
    cases term with
    | none =>
      simp [hout, f5, f6, hlen, evaluateCSG, normalizeRoot, print, record,
        Outcome.andThen, createRenderers, compileHighlights_eq, compileBackground_eq,
        makeOpenCSGRenderer, makeThrownTogetherRenderer]
    | some t =>
      cases hnorm : env.normalize (normalizelimit env) t with
      | none =>
        simp [hout, hnorm, hquiet, hlen, evaluateCSG, normalizeRoot, LOG, print, record,
          Outcome.andThen, createRenderers, compileHighlights_eq, compileBackground_eq,
          makeOpenCSGRenderer, makeThrownTogetherRenderer]
      | some normalized =>
        by_cases hsize :
            env.size (env.importTerm env.newProducts normalized) > env.openCSGLimit <;>
        simp [hout, hnorm, hquietUI, hsize, hlen, evaluateCSG, normalizeRoot, LOG, print, record,
          Outcome.andThen, createRenderers, compileHighlights_eq, compileBackground_eq,
          makeOpenCSGRenderer, makeThrownTogetherRenderer]

/-- C9 at a concrete input: root term 5, highlight nodes 7 and 9 (9 fails to
normalize), background node 8. -/
theorem C9_forests_witness :
    ∃ s1, compileCSG (Env.sample buildsThreeForests normalizeAllButNine) readyWindow = some s1 ∧
      s1.rootProduct = some [5] ∧ s1.highlightsProducts = some [7] ∧
      s1.backgroundProducts = some [8] :=
  let ⟨s1, h1, h2, h3, h4, _, h6, _, h8⟩ :=
    C9_forests_normalized_and_imported_independently
      (Env.sample buildsThreeForests normalizeAllButNine) readyWindow 1 rfl rfl
      ⟨rfl, rfl, rfl, rfl, rfl, rfl⟩ rfl rfl
  ⟨s1, h1, by rw [h4, h3, h2]; rfl, by rw [h6 (by decide)]; rfl, by rw [h8 (by decide)]; rfl⟩

/-! ### C10 -/

/-- C10: when `rootFile` instantiates to a non-null tree, `instantiateRoot`
completes with `absoluteRootNode` that tree, `rootNode` the node returned by
`find_root_tag` when there is one and the absolute root otherwise, and the
tree root set to that same `rootNode`; `compileCSG` (window not closing) then
calls the evaluator exactly once, on that `rootNode`: all its other
collaborator calls go to the normalizer, and the primary term `csgRoot` is
what the evaluation of `rootNode` returned. -/
theorem C10_root_modifier_selected_before_evaluation
    {Node Term Products : Type} (env : Env Node Term Products)
    (s : MainWindow Node Term Products) (file : SourceFile) (absolute : Node)
    (hfile : s.rootFile = some file)
    (hinst : instantiated env s file = some (some absolute))
    (hopen : s.isClosing = false) :
    ∃ s1, instantiateRoot env s = .done s1 ∧
      s1.absoluteRootNode = some absolute ∧
      s1.rootNode = (match (env.find_root_tag absolute).1 with
                     | some tagged => some tagged
                     | none => some absolute) ∧
      s1.tree_root = s1.rootNode ∧
      ∃ root s2 rest, s1.rootNode = some root ∧ compileCSG env s1 = some s2 ∧
        s2.calls = s.calls ++ Call.buildCSGTree root :: rest ∧
        onlyNormalizeCalls rest ∧
        ∀ term, (env.buildCSGTree root).outcome = .returned term → s2.csgRoot = term := by
  obtain ⟨s1, h1, h2, h3, h4, h5, h6⟩ := instantiateRoot_with_tree env s file absolute hfile hinst
  have hopen1 : s1.isClosing = false := h6.trans hopen
  obtain ⟨rest, t1, t2, t3⟩ :=
    compileCSG_try_trace env s1 ((env.find_root_tag absolute).1.getD absolute) hopen1
  refine ⟨s1, h1, h2, ?_, h4.trans h3.symm, (env.find_root_tag absolute).1.getD absolute, ?_⟩
  · rw [h3]; cases (env.find_root_tag absolute).1 <;> rfl
  · cases htry : compileCSG_try env ((env.find_root_tag absolute).1.getD absolute) s1 with
    | done s2 =>
      rw [htry] at t1 t3
      exact ⟨s2, rest, h3, by simp only [compileCSG, h3, htry], by rw [← h5]; exact t1, t2, t3⟩
    | hardWarning s2 =>
      rw [htry] at t1 t3
      refine ⟨exceptionCleanup s2, rest, h3, by simp only [compileCSG, h3, htry], ?_, t2, ?_⟩
      · rw [← h5, exceptionCleanup_eq]; exact t1
      · intro term hout
        rw [exceptionCleanup_eq]; exact t3 term hout

/-- C10 at a concrete input: file 1 instantiates to node 1, in which node 2
carries the root modifier; `rootNode` is node 2 and the only evaluator call
of `compileCSG` is on node 2. -/
theorem C10_root_modifier_witness :
    ∃ s1, instantiateRoot (Env.sampleTagged buildsFive normalizeKeeps) parsedWindow = .done s1 ∧
      s1.absoluteRootNode = some 1 ∧ s1.rootNode = some 2 ∧ s1.tree_root = some 2 ∧
      ∃ s2 rest, compileCSG (Env.sampleTagged buildsFive normalizeKeeps) s1 = some s2 ∧
        s2.calls = Call.buildCSGTree 2 :: rest ∧ onlyNormalizeCalls rest :=
  let ⟨s1, h1, h2, h3, h4, root, s2, rest, h5, h6, h7, h8, _⟩ :=
    C10_root_modifier_selected_before_evaluation (Env.sampleTagged buildsFive normalizeKeeps)
      parsedWindow 1 1 rfl rfl rfl
  have hroot : root = 2 := (Option.some.inj (h5.symm.trans h3)).trans rfl
  ⟨s1, h1, h2, h3, h4.trans h3, s2, rest, h6, by rw [h7, hroot]; rfl, h8⟩

/-! ### Shared facts for C11 to C14 and C19 -/

/-- In `compileCSG`, for a non-null evaluated root and no `LOG` raising: the
normalizer is called on the root with the budget `normalizelimit`, its
result is tested for null, and `rootProduct` is the product of the
normalized root, or null. -/
theorem compileCSG_root {Node Term Products : Type} (env : Env Node Term Products)
    (s : MainWindow Node Term Products) (root : Node) (term : Term)
    (hroot : s.rootNode = some root) (hopen : s.isClosing = false)
    (hbuilt : (env.buildCSGTree root).outcome = .returned (some term))
    (hquiet : env.logRaises .Warning = false) (hquietUI : env.logRaises .UI_Warning = false) :
    ∃ s1, compileCSG env s = some s1 ∧
      s1.csgRoot = some term ∧
      s1.normalizedRoot = env.normalize (normalizelimit env) term ∧
      s1.rootProduct
        = (env.normalize (normalizelimit env) term).map (env.importTerm env.newProducts) ∧
      Call.normalize (normalizelimit env) term ∈ s1.calls ∧
      (env.normalize (normalizelimit env) term = none →
        ⟨.Warning, "CSG normalization resulted in an empty tree"⟩ ∈ s1.console) := by
  simp only [compileCSG, hroot, compileCSG_try_eq env root s hopen]
  cases hnorm : env.normalize (normalizelimit env) term with
  | none =>
    simp [hbuilt, hnorm, hquiet, evaluateCSG, normalizeRoot, LOG, print, record,
      Outcome.andThen, createRenderers, compileHighlights_eq, compileBackground_eq,
      makeOpenCSGRenderer, makeThrownTogetherRenderer]
  | some normalized =>
    by_cases hsize : env.size (env.importTerm env.newProducts normalized) > env.openCSGLimit <;>
    simp [hbuilt, hnorm, hquietUI, hsize, evaluateCSG, normalizeRoot, LOG, print, record,
      Outcome.andThen, createRenderers, compileHighlights_eq, compileBackground_eq,
      makeOpenCSGRenderer, makeThrownTogetherRenderer]

/-- A DIFFERENCE fold whose term so far is null stays null whatever children
follow. -/
theorem evaluateRest_difference_null (computeOrFetch : Nat → Option Nat)
    (ctx : TraversalContext) :
    ∀ (rest : List SceneNode) (acc : Evaluated), acc.term = none →
      (evaluateRest computeOrFetch ctx .DIFFERENCE acc rest).term = none := by
  intro rest
  induction rest with
  | nil => intro acc h; simpa [evaluateRest] using h
  | cons child rest ih =>
    intro acc h
    rw [evaluateRest]
    simp only [reduceCtorEq, false_and, if_false]
    apply ih
    simp [combineEvaluated, combineTerms, h]

/-- The budget test of one emission, read as a comparison of the new count
with the budget. -/
theorem emit_eq (budget : Nat) (op : Operator) (left right : CSGTerm) (count : Nat) :
    emit budget op left right count
      = if count + 1 ≤ budget then some (.operation op left right, count + 1) else none := by
  unfold emit
  by_cases h : count + 1 ≤ budget
  · simp [h, Nat.not_lt.mpr h]
  · simp [h, Nat.lt_of_not_le h]

/-- The budgeted DIFFERENCE rewrite succeeds exactly when the count it
reaches without a budget is within the budget, and then with the same term. -/
theorem subtractWithin_eq (cannotOverlap : CSGTerm → CSGTerm → Bool) (budget : Nat) :
    ∀ (b a : CSGTerm) (count : Nat), count ≤ budget →
      subtractWithin cannotOverlap budget a b count
        = if count + (subtractAll cannotOverlap a b).2 ≤ budget then
            some ((subtractAll cannotOverlap a b).1, count + (subtractAll cannotOverlap a b).2)
          else none := by
  intro b
  induction b with
  | primitive p =>
    intro a count hc
    rw [subtractWithin, subtractAll]
    by_cases hp : cannotOverlap a (.primitive p) = true
    · simp [hp, hc]
    · simp [hp, emit_eq]
  | operation op b c ihb ihc =>
    intro a count hc
    cases op with
    | UNION =>
      rw [subtractWithin, subtractAll]
      cases hp : cannotOverlap a (.operation .UNION b c) with
      | true => simp [hc]
      | false =>
        simp only [Bool.false_eq_true, if_false, ihb a count hc]
        by_cases h1 : count + (subtractAll cannotOverlap a b).2 ≤ budget
        · simp only [h1, if_true, Option.some_bind, ihc _ _ h1, Nat.add_assoc]
        · have h2 : ¬ count + ((subtractAll cannotOverlap a b).2 +
              (subtractAll cannotOverlap (subtractAll cannotOverlap a b).1 c).2) ≤ budget := by
            omega
          simp [h1, h2]
    | INTERSECTION =>
      rw [subtractWithin, subtractAll]
      by_cases hp : cannotOverlap a (.operation .INTERSECTION b c) = true
      · simp [hp, hc]
      · simp [hp, emit_eq]
    | DIFFERENCE =>
      rw [subtractWithin, subtractAll]
      by_cases hp : cannotOverlap a (.operation .DIFFERENCE b c) = true
      · simp [hp, hc]
      · simp [hp, emit_eq]

/-- The budgeted UNION succeeds exactly when the count it reaches without a
budget is within the budget, and then with the same term. -/
theorem uniteWithin_eq (budget : Nat) (left right : Option CSGTerm) (count : Nat)
    (hc : count ≤ budget) :
    uniteWithin budget left right count
      = if count + (uniteAll left right).2 ≤ budget then
          some ((uniteAll left right).1, count + (uniteAll left right).2)
        else none := by
  cases left <;> cases right <;> simp [uniteWithin, uniteAll, hc, emit_eq]

/-- The budgeted INTERSECTION rewrite succeeds exactly when the count it
reaches without a budget is within the budget, and then with the same term. -/
theorem intersectWithin_eq (cannotOverlap : CSGTerm → CSGTerm → Bool) (budget : Nat) :
    ∀ (b a : CSGTerm) (count : Nat), count ≤ budget →
      intersectWithin cannotOverlap budget a b count
        = if count + (intersectAll cannotOverlap a b).2 ≤ budget then
            some ((intersectAll cannotOverlap a b).1,
              count + (intersectAll cannotOverlap a b).2)
          else none := by
  intro b
  induction b with
  | primitive p =>
    intro a count hc
    rw [intersectWithin, intersectAll]
    cases hp : cannotOverlap a (.primitive p) with
    | true => simp [hc]
    | false =>
      simp only [Bool.false_eq_true, if_false, emit_eq]
      split <;> simp
  | operation op b c ihb ihc =>
    intro a count hc
    cases op with
    | UNION =>
      rw [intersectWithin, intersectAll]
      cases hp : cannotOverlap a (.operation .UNION b c) with
      | true => simp [hc]
      | false =>
        simp only [Bool.false_eq_true, if_false, ihb a count hc]
        by_cases h1 : count + (intersectAll cannotOverlap a b).2 ≤ budget
        · simp only [h1, if_true, Option.some_bind, ihc _ _ h1]
          by_cases h2 : count + ((intersectAll cannotOverlap a b).2 +
              (intersectAll cannotOverlap a c).2) ≤ budget
          · simp only [Nat.add_assoc, h2, if_true, Option.some_bind,
              uniteWithin_eq _ _ _ _ h2]
          · have h3 : ¬ count + ((intersectAll cannotOverlap a b).2 +
                (intersectAll cannotOverlap a c).2 +
                (uniteAll (intersectAll cannotOverlap a b).1
                  (intersectAll cannotOverlap a c).1).2) ≤ budget := by omega
            simp only [Nat.add_assoc, h2, if_false, Option.none_bind]
            rw [if_neg (by omega)]
        · have h3 : ¬ count + ((intersectAll cannotOverlap a b).2 +
              (intersectAll cannotOverlap a c).2 +
              (uniteAll (intersectAll cannotOverlap a b).1
                (intersectAll cannotOverlap a c).1).2) ≤ budget := by omega
          simp [h1, h3]
    | INTERSECTION =>
      rw [intersectWithin, intersectAll]
      cases hp : cannotOverlap a (.operation .INTERSECTION b c) with
      | true => simp [hc]
      | false =>
        simp only [Bool.false_eq_true, if_false, emit_eq]
        split <;> simp
    | DIFFERENCE =>
      rw [intersectWithin, intersectAll]
      cases hp : cannotOverlap a (.operation .DIFFERENCE b c) with
      | true => simp [hc]
      | false =>
        simp only [Bool.false_eq_true, if_false, emit_eq]
        split <;> simp

/-- The budgeted rewrite at one node succeeds exactly when the count it
reaches without a budget is within the budget, and then with the same term. -/
theorem combineWithin_eq (cannotOverlap : CSGTerm → CSGTerm → Bool) (budget : Nat)
    (op : Operator) (left right : Option CSGTerm) (count : Nat) (hc : count ≤ budget) :
    combineWithin cannotOverlap budget op left right count
      = if count + (combineAll cannotOverlap op left right).2 ≤ budget then
          some ((combineAll cannotOverlap op left right).1,
            count + (combineAll cannotOverlap op left right).2)
        else none := by
  cases op with
  | UNION => simp only [combineWithin, combineAll, uniteWithin_eq _ _ _ _ hc]
  | INTERSECTION =>
    cases left <;> cases right <;>
      simp [combineWithin, combineAll, hc, intersectWithin_eq _ _ _ _ _ hc]
  | DIFFERENCE =>
    cases left <;> cases right <;>
      simp [combineWithin, combineAll, hc, subtractWithin_eq _ _ _ _ _ hc]

/-- The budgeted normalization succeeds exactly when the count it reaches
without a budget is within the budget, and then with the same term. -/
theorem normalizeWithin_eq (cannotOverlap : CSGTerm → CSGTerm → Bool) (budget : Nat) :
    ∀ (term : CSGTerm) (count : Nat), count ≤ budget →
      normalizeWithin cannotOverlap budget term count
        = if count + (normalizeAll cannotOverlap term).2 ≤ budget then
            some ((normalizeAll cannotOverlap term).1,
              count + (normalizeAll cannotOverlap term).2)
          else none := by
  intro term
  induction term with
  | primitive p => intro count hc; simp [normalizeWithin, normalizeAll, hc]
  | operation op left right ihl ihr =>
    intro count hc
    rw [normalizeWithin, normalizeAll]
    simp only [ihl count hc]
    by_cases h1 : count + (normalizeAll cannotOverlap left).2 ≤ budget
    · simp only [h1, if_true, Option.some_bind, ihr _ h1]
      by_cases h2 : count + ((normalizeAll cannotOverlap left).2 +
          (normalizeAll cannotOverlap right).2) ≤ budget
      · simp only [Nat.add_assoc, h2, if_true, Option.some_bind,
          combineWithin_eq _ _ _ _ _ _ h2]
      · have h3 : ¬ count + ((normalizeAll cannotOverlap left).2 +
            (normalizeAll cannotOverlap right).2 +
            (combineAll cannotOverlap op (normalizeAll cannotOverlap left).1
              (normalizeAll cannotOverlap right).1).2) ≤ budget := by omega
        simp only [Nat.add_assoc, h2, if_false, Option.none_bind]
        rw [if_neg (by omega)]
    · have h3 : ¬ count + ((normalizeAll cannotOverlap left).2 +
          (normalizeAll cannotOverlap right).2 +
          (combineAll cannotOverlap op (normalizeAll cannotOverlap left).1
            (normalizeAll cannotOverlap right).1).2) ≤ budget := by omega
      simp [h1, h3]

/-- Without a budget, a term tree whose operation nodes are all UNION is its
own normal form, and each of its operation terms is emitted once. -/
theorem normalizeAll_unionOnly (cannotOverlap : CSGTerm → CSGTerm → Bool) :
    ∀ term : CSGTerm, term.unionOnly = true →
      normalizeAll cannotOverlap term = (some term, term.operations) := by
  intro term
  induction term with
  | primitive p => intro _; rfl
  | operation op left right ihl ihr =>
    intro h
    simp only [CSGTerm.unionOnly, Bool.and_eq_true, beq_iff_eq] at h
    obtain ⟨⟨hop, hl⟩, hr⟩ := h
    subst hop
    simp [normalizeAll, ihl hl, ihr hr, combineAll, uniteAll, CSGTerm.operations]

/-! ### C11 -/

/-- C11: for a tree `difference(cube, union(sphere1, sphere2))` whose three
primitives have geometry, when the bounding boxes of the cube and of the
spheres are not disjoint, the budget `compileCSG` passes is at least the 3
terms this normalization emits and no `LOG` raises, the sequence that
`compileCSG` runs (evaluate, normalize, import) yields the term
`cube - (sphere1 ∪ sphere2)`, its normal form `(cube - sphere1) - sphere2`
and the products ADD cube, SUBTRACT sphere1, SUBTRACT sphere2, in that order,
which are a single chain. -/
theorem C11_difference_of_cube_and_two_spheres
    (env : Env SceneNode CSGTerm (List ProductEntry))
    (s : MainWindow SceneNode CSGTerm (List ProductEntry))
    (computeOrFetch : Nat → Option Nat) (cannotOverlap : CSGTerm → CSGTerm → Bool)
    (iDifference iCube iUnion iSphere1 iSphere2 : Nat)
    (lDifference lCube lUnion lSphere1 lSphere2 : String)
    (fCube fSphere1 fSphere2 gCube gSphere1 gSphere2 : Nat)
    (hevaluator : env.buildCSGTree = buildCSGTree computeOrFetch)
    (hnormalizer : env.normalize = normalizePointer cannotOverlap)
    (hfresh : env.newProducts = []) (hproducts : env.importTerm = importTerm)
    (hquiet : env.logRaises .Warning = false) (hquietUI : env.logRaises .UI_Warning = false)
    (hbudget : 3 ≤ normalizelimit env)
    (hroot : s.rootNode = some
      (.mk iDifference (.booleanOp .DIFFERENCE)
        [.mk iCube (.primitive fCube) [] lCube,
         .mk iUnion (.booleanOp .UNION)
           [.mk iSphere1 (.primitive fSphere1) [] lSphere1,
            .mk iSphere2 (.primitive fSphere2) [] lSphere2] lUnion] lDifference))
    (hopen : s.isClosing = false)
    (hCube : computeOrFetch fCube = some gCube)
    (hSphere1 : computeOrFetch fSphere1 = some gSphere1)
    (hSphere2 : computeOrFetch fSphere2 = some gSphere2)
    (hoverlap : cannotOverlap (.primitive ⟨gCube, [], lCube, iCube⟩)
      (.operation .UNION (.primitive ⟨gSphere1, [], lSphere1, iSphere1⟩)
        (.primitive ⟨gSphere2, [], lSphere2, iSphere2⟩)) = false)
    (hoverlap1 : cannotOverlap (.primitive ⟨gCube, [], lCube, iCube⟩)
      (.primitive ⟨gSphere1, [], lSphere1, iSphere1⟩) = false)
    (hoverlap2 : cannotOverlap
      (.operation .DIFFERENCE (.primitive ⟨gCube, [], lCube, iCube⟩)
        (.primitive ⟨gSphere1, [], lSphere1, iSphere1⟩))
      (.primitive ⟨gSphere2, [], lSphere2, iSphere2⟩) = false) :
    ∃ s1, compileCSG env s = some s1 ∧
      s1.csgRoot = some
        (.operation .DIFFERENCE (.primitive ⟨gCube, [], lCube, iCube⟩)
          (.operation .UNION (.primitive ⟨gSphere1, [], lSphere1, iSphere1⟩)
            (.primitive ⟨gSphere2, [], lSphere2, iSphere2⟩))) ∧
      s1.normalizedRoot = some
        (.operation .DIFFERENCE
          (.operation .DIFFERENCE (.primitive ⟨gCube, [], lCube, iCube⟩)
            (.primitive ⟨gSphere1, [], lSphere1, iSphere1⟩))
          (.primitive ⟨gSphere2, [], lSphere2, iSphere2⟩)) ∧
      s1.rootProduct = some
        [⟨gCube, [], .ADD, iCube⟩, ⟨gSphere1, [], .SUBTRACT, iSphere1⟩,
         ⟨gSphere2, [], .SUBTRACT, iSphere2⟩] ∧
      chains [⟨gCube, [], .ADD, iCube⟩, ⟨gSphere1, [], .SUBTRACT, iSphere1⟩,
              ⟨gSphere2, [], .SUBTRACT, iSphere2⟩]
        = [[⟨gCube, [], .ADD, iCube⟩, ⟨gSphere1, [], .SUBTRACT, iSphere1⟩,
            ⟨gSphere2, [], .SUBTRACT, iSphere2⟩]] := by
  have hbuilt : (env.buildCSGTree
      (.mk iDifference (.booleanOp .DIFFERENCE)
        [.mk iCube (.primitive fCube) [] lCube,
         .mk iUnion (.booleanOp .UNION)
           [.mk iSphere1 (.primitive fSphere1) [] lSphere1,
            .mk iSphere2 (.primitive fSphere2) [] lSphere2] lUnion] lDifference)).outcome
      = .returned (some
        (.operation .DIFFERENCE (.primitive ⟨gCube, [], lCube, iCube⟩)
          (.operation .UNION (.primitive ⟨gSphere1, [], lSphere1, iSphere1⟩)
            (.primitive ⟨gSphere2, [], lSphere2, iSphere2⟩)))) := by
    rw [hevaluator]
    simp [buildCSGTree, evaluateNode, evaluateChildren, evaluateRest, combineEvaluated,
      combineTerms, hCube, hSphere1, hSphere2]
  have hall : normalizeAll cannotOverlap
      (.operation .DIFFERENCE (.primitive ⟨gCube, [], lCube, iCube⟩)
        (.operation .UNION (.primitive ⟨gSphere1, [], lSphere1, iSphere1⟩)
          (.primitive ⟨gSphere2, [], lSphere2, iSphere2⟩)))
      = (some (.operation .DIFFERENCE
          (.operation .DIFFERENCE (.primitive ⟨gCube, [], lCube, iCube⟩)
            (.primitive ⟨gSphere1, [], lSphere1, iSphere1⟩))
          (.primitive ⟨gSphere2, [], lSphere2, iSphere2⟩)), 3) := by
    simp [normalizeAll, combineAll, uniteAll, subtractAll, hoverlap, hoverlap1, hoverlap2]
  have hnorm : env.normalize (normalizelimit env)
      (.operation .DIFFERENCE (.primitive ⟨gCube, [], lCube, iCube⟩)
        (.operation .UNION (.primitive ⟨gSphere1, [], lSphere1, iSphere1⟩)
          (.primitive ⟨gSphere2, [], lSphere2, iSphere2⟩)))
      = some (.operation .DIFFERENCE
          (.operation .DIFFERENCE (.primitive ⟨gCube, [], lCube, iCube⟩)
            (.primitive ⟨gSphere1, [], lSphere1, iSphere1⟩))
          (.primitive ⟨gSphere2, [], lSphere2, iSphere2⟩)) := by
    rw [hnormalizer]
    simp only [normalizePointer, normalize,
      normalizeWithin_eq cannotOverlap _ _ 0 (Nat.zero_le _), hall, Nat.zero_add, hbudget,
      if_true]
  obtain ⟨s1, h1, h2, h3, h4, _, _⟩ :=
    compileCSG_root env s _ _ hroot hopen hbuilt hquiet hquietUI
  refine ⟨s1, h1, h2, h3.trans hnorm, ?_, ?_⟩
  · rw [h4, hnorm, hfresh, hproducts]
    simp [importTerm, importAs, ProductEntry.of]
  · simp [chains]

/-- C11 at a concrete input: the tree `differenceOfCubeAndSpheres`, with
geometry for every primitive, no pruning and an OpenCSG limit of 2000. -/
theorem C11_difference_of_cube_and_two_spheres_witness :
    ∃ s1, compileCSG (coreEnv everyGeometry mayOverlap 2000) cubeAndSpheresWindow = some s1 ∧
      s1.rootProduct = some
        [⟨110, [], .ADD, 1⟩, ⟨111, [], .SUBTRACT, 3⟩, ⟨112, [], .SUBTRACT, 4⟩] :=
  let ⟨s1, h1, _, _, h4, _⟩ :=
    C11_difference_of_cube_and_two_spheres (coreEnv everyGeometry mayOverlap 2000)
      cubeAndSpheresWindow everyGeometry mayOverlap 0 1 2 3 4
      "difference" "cube" "union" "sphere1" "sphere2" 10 11 12 110 111 112
      rfl rfl rfl rfl rfl rfl (by decide) rfl rfl rfl rfl rfl rfl rfl rfl
  ⟨s1, h1, h4⟩

/-! ### C12 -/

/-- C12: for every term tree whose operation nodes are all UNION, every
disjointness test and every budget of at least the number of operation
terms of the tree, normalization completes with the tree itself,
structurally equal. -/
theorem C12_union_only_normalization_is_identity
    (cannotOverlap : CSGTerm → CSGTerm → Bool) (term : CSGTerm) (budget : Nat)
    (hunion : term.unionOnly = true) (hbudget : term.operations ≤ budget) :
    normalize cannotOverlap budget term = .complete (some term) ∧
    normalizePointer cannotOverlap budget term = some term := by
  have h : normalize cannotOverlap budget term = .complete (some term) := by
    simp only [normalize, normalizeWithin_eq cannotOverlap _ _ 0 (Nat.zero_le _),
      normalizeAll_unionOnly cannotOverlap term hunion, Nat.zero_add, hbudget, if_true]
  exact ⟨h, by simp only [normalizePointer, h]⟩

/-- C12 at a concrete input: `union(union(a, b), c)` with budget 2. -/
theorem C12_union_only_witness :
    normalize mayOverlap 2 unionOfThree = .complete (some unionOfThree) :=
  (C12_union_only_normalization_is_identity mayOverlap unionOfThree 2 rfl (by decide)).1

/-! ### C13 -/

/-- C13: for every budget and every term, when the normalization needs more
emitted terms than the budget the normalizer returns the failure sentinel
(null through the pointer); and whenever it completes, its result is the
full normal form and the emitted terms are within the budget, so no
truncated tree is ever returned.  `compileCSG`, for a non-null evaluated root
and no `LOG` raising, calls the normalizer with the budget `normalizelimit`
and tests the result for null: when the normalization of the root needs more
than that budget, `normalizedRoot` and `rootProduct` are null and the
Warning is logged. -/
theorem C13_budget_exceeded_returns_failure_sentinel
    (cannotOverlap : CSGTerm → CSGTerm → Bool) (budget : Nat) (term : CSGTerm) :
    (budget < emittedTerms cannotOverlap term →
      normalize cannotOverlap budget term = .incomplete ∧
      normalizePointer cannotOverlap budget term = none) ∧
    (∀ result, normalize cannotOverlap budget term = .complete result →
      result = normalForm cannotOverlap term ∧ emittedTerms cannotOverlap term ≤ budget) ∧
    (∀ {Node Products : Type} (env : Env Node CSGTerm Products)
        (s : MainWindow Node CSGTerm Products) (root : Node),
      env.normalize = normalizePointer cannotOverlap →
      s.rootNode = some root → s.isClosing = false →
      (env.buildCSGTree root).outcome = .returned (some term) →
      env.logRaises .Warning = false → env.logRaises .UI_Warning = false →
      normalizelimit env < emittedTerms cannotOverlap term →
      ∃ s1, compileCSG env s = some s1 ∧
        Call.normalize (normalizelimit env) term ∈ s1.calls ∧
        s1.normalizedRoot = none ∧ s1.rootProduct = none ∧
        ⟨.Warning, "CSG normalization resulted in an empty tree"⟩ ∈ s1.console) := by
  have hrun := normalizeWithin_eq cannotOverlap budget term 0 (Nat.zero_le _)
  have hfail : ∀ limit, limit < emittedTerms cannotOverlap term →
      normalize cannotOverlap limit term = .incomplete := by
    intro limit hlt
    have hnot : ¬ (normalizeAll cannotOverlap term).2 ≤ limit := Nat.not_le.mpr hlt
    simp only [normalize, normalizeWithin_eq cannotOverlap limit term 0 (Nat.zero_le _),
      Nat.zero_add, hnot, if_false]
  refine ⟨fun hlt => ?_, fun result hres => ?_, ?_⟩
  · exact ⟨hfail budget hlt, by simp only [normalizePointer, hfail budget hlt]⟩
  · by_cases hle : (normalizeAll cannotOverlap term).2 ≤ budget
    · simp only [normalize, hrun, Nat.zero_add, hle, if_true] at hres
      exact ⟨(Normalized.complete.inj hres).symm, hle⟩
    · simp only [normalize, hrun, Nat.zero_add, hle, if_false] at hres
      exact absurd hres (by simp)
  · intro Node Products env s root hnormalizer hroot hopen hbuilt hquiet hquietUI hlt
    have hnone : env.normalize (normalizelimit env) term = none := by
      rw [hnormalizer]
      simp only [normalizePointer, hfail _ hlt]
    obtain ⟨s1, h1, _, h3, h4, h5, h6⟩ :=
      compileCSG_root env s root term hroot hopen hbuilt hquiet hquietUI
    exact ⟨s1, h1, h5, h3.trans hnone, by rw [h4, hnone]; rfl, h6 hnone⟩

/-- C13 at a concrete input: `a ∩ (b ∪ c)` needs 4 emitted terms; with a
budget of 3 the normalizer reports the failure sentinel, with a budget of 4
it completes with the full normal form. -/
theorem C13_budget_witness :
    normalize mayOverlap 3 intersectionOverUnion = .incomplete ∧
    normalize mayOverlap 4 intersectionOverUnion
      = .complete (normalForm mayOverlap intersectionOverUnion) :=
  ⟨((C13_budget_exceeded_returns_failure_sentinel mayOverlap 3 intersectionOverUnion).1
      (by decide)).1,
   by
    have h := (C13_budget_exceeded_returns_failure_sentinel mayOverlap 4
      intersectionOverUnion).2.1 _ rfl
    rw [← h.1]
    rfl⟩

/-! ### C14 -/

/-- C14: in the term evaluator, a DIFFERENCE node whose first child evaluates
to a null term evaluates to a null term, for every list of remaining
children (and every provider, context, index and label). -/
theorem C14_difference_with_null_first_child_is_null
    (computeOrFetch : Nat → Option Nat) (ctx : TraversalContext)
    (index : Nat) (label : String) (first : SceneNode) (rest : List SceneNode)
    (hfirst : (evaluateNode computeOrFetch ctx first).term = none) :
    (evaluateNode computeOrFetch ctx
      (.mk index (.booleanOp .DIFFERENCE) (first :: rest) label)).term = none := by
  rw [evaluateNode]
  cases hstate : ctx.state <;> simp only [evaluateChildren] <;>
    first
    | exact evaluateRest_difference_null computeOrFetch ctx rest _ hfirst
    | rfl

/-- C14 at a concrete input: the cube of `differenceOfCubeAndSpheres` has no
geometry, so the difference evaluates to the null term although both spheres
have geometry. -/
theorem C14_difference_with_null_first_child_witness :
    (evaluateNode noCubeGeometry ⟨[], .normal⟩ differenceOfCubeAndSpheres).term = none :=
  C14_difference_with_null_first_child_is_null noCubeGeometry ⟨[], .normal⟩ 0 "difference"
    (.mk 1 (.primitive 10) [] "cube")
    [.mk 2 (.booleanOp .UNION)
       [.mk 3 (.primitive 11) [] "sphere1", .mk 4 (.primitive 12) [] "sphere2"] "union"]
    (by decide)

/-! ### C15 -/

/-- The sixteen digits of `%x`: each has its value, is one of `0` to `9` and
`a` to `f`, and is not the dot. -/
theorem digitChar_hex (k : Nat) (hk : k < 16) :
    hexDigitValue (Nat.digitChar k) = k ∧ Nat.digitChar k ≠ '.' ∧
      Nat.digitChar k ∈ "0123456789abcdef".toList := by
  interval_cases k <;> decide

/-- The digits that `Nat.toDigitsCore` puts in front, read as a hexadecimal
number, give the number back. -/
theorem toDigitsCore_hex :
    ∀ (fuel n : Nat) (ds : List Char), n < fuel →
      ∃ front, Nat.toDigitsCore 16 fuel n ds = front ++ ds ∧
        front.foldl (fun value c => value * 16 + hexDigitValue c) 0 = n ∧
        ∀ c ∈ front, c ≠ '.' ∧ c ∈ "0123456789abcdef".toList := by
  intro fuel
  induction fuel with
  | zero => intro n ds h; omega
  | succ fuel ih =>
    intro n ds h
    obtain ⟨hv, hdot, hmem⟩ := digitChar_hex (n % 16) (Nat.mod_lt _ (by decide))
    by_cases hq : n / 16 = 0
    · refine ⟨[Nat.digitChar (n % 16)], ?_, ?_, ?_⟩
      · simp [Nat.toDigitsCore, hq]
      · simp only [List.foldl_cons, List.foldl_nil, hv]
        omega
      · intro c hc
        rw [List.mem_singleton.mp hc]
        exact ⟨hdot, hmem⟩
    · obtain ⟨front, h1, h2, h3⟩ := ih (n / 16) (Nat.digitChar (n % 16) :: ds) (by omega)
      refine ⟨front ++ [Nat.digitChar (n % 16)], ?_, ?_, ?_⟩
      · simp [Nat.toDigitsCore, hq, h1]
      · simp only [List.foldl_append, List.foldl_cons, List.foldl_nil, h2, hv]
        omega
      · intro c hc
        rcases List.mem_append.mp hc with h | h
        · exact h3 c h
        · rw [List.mem_singleton.mp h]
          exact ⟨hdot, hmem⟩

/-- The conversion `%x` writes the number in hexadecimal digits, none of them
a dot. -/
theorem hexDigits_spec (n : Nat) :
    hexValue (hexDigits n) = n ∧
      ∀ c ∈ (hexDigits n).toList, c ≠ '.' ∧ c ∈ "0123456789abcdef".toList := by
  obtain ⟨front, h1, h2, h3⟩ := toDigitsCore_hex (n + 1) n [] (by omega)
  have hd : (hexDigits n).toList = front := by
    simp [hexDigits, Nat.toDigits, h1]
  refine ⟨?_, ?_⟩
  · simp only [hexValue, hd, h2]
  · rw [hd]; exact h3

/-- Two lists joined by a separator that occurs in neither front part can be
taken apart in one way only. -/
theorem append_separator_inj {α : Type} (sep : α) :
    ∀ (x x2 y y2 : List α), sep ∉ x → sep ∉ x2 → x ++ sep :: y = x2 ++ sep :: y2 →
      x = x2 ∧ y = y2 := by
  intro x
  induction x with
  | nil =>
    intro x2 y y2 _ h2 heq
    cases x2 with
    | nil => simpa using heq
    | cons a rest =>
      simp only [List.nil_append, List.cons_append, List.cons.injEq] at heq
      exact absurd (heq.1 ▸ List.mem_cons_self _ _) h2
  | cons a rest ih =>
    intro x2 y y2 h1 h2 heq
    cases x2 with
    | nil =>
      simp only [List.nil_append, List.cons_append, List.cons.injEq] at heq
      exact absurd (heq.1 ▸ List.mem_cons_self _ _) h1
    | cons b rest2 =>
      simp only [List.cons_append, List.cons.injEq] at heq
      obtain ⟨hx, hy⟩ := ih rest2 y y2 (fun h => h1 (List.mem_cons_of_mem _ h))
        (fun h => h2 (List.mem_cons_of_mem _ h)) heq.2
      exact ⟨by rw [heq.1, hx], hy⟩

/-- The identifier determines the modification time and the size. -/
theorem autoReloadIdOf_injective (a b : Stat) :
    autoReloadIdOf a = autoReloadIdOf b ↔ a = b := by
  constructor
  · intro h
    have hl : (autoReloadIdOf a).toList = (autoReloadIdOf b).toList := by rw [h]
    simp only [autoReloadIdOf, String.toList, String.data_append] at hl
    simp only [List.append_assoc, List.singleton_append] at hl
    obtain ⟨h1, h2⟩ := append_separator_inj '.' _ _ _ _
      (fun hm => ((hexDigits_spec a.st_mtime).2 _ hm).1 rfl)
      (fun hm => ((hexDigits_spec b.st_mtime).2 _ hm).1 rfl) hl
    have e1 : a.st_mtime = b.st_mtime := by
      have := congrArg (fun l => hexValue (String.mk l)) h1
      simpa [(hexDigits_spec _).1] using this
    have e2 : a.st_size = b.st_size := by
      have := congrArg (fun l => hexValue (String.mk l)) h2
      simpa [(hexDigits_spec _).1] using this
    cases a; cases b
    simp only [Stat.mk.injEq]
    exact ⟨e1, e2⟩
  · intro h; rw [h]

/-- C15: `fileChangedOnDisk` returns false and leaves the window (so
`autoReloadId`) unchanged when `filepath` is empty or `stat` fails; otherwise
it returns true iff the identifier of the file's modification time and size
differs from `autoReloadId`, and the window it leaves differs from the one
before only in `autoReloadId`, which holds the new identifier; so a repeated
call on the unchanged file returns false.  The identifier is the modification
time and the size in hexadecimal digits, joined by a dot; it determines both
numbers, so with the identifier of an earlier call in `autoReloadId` the
result is true iff the modification time or the size has changed since. -/
theorem C15_fileChangedOnDisk_detects_new_content
    {Node Term Products : Type} (stat : String → Option Stat)
    (s : MainWindow Node Term Products) :
    (s.activeEditor.filepath = "" → fileChangedOnDisk stat s = (false, s)) ∧
    (stat s.activeEditor.filepath = none → fileChangedOnDisk stat s = (false, s)) ∧
    (∀ st, s.activeEditor.filepath ≠ "" → stat s.activeEditor.filepath = some st →
      (fileChangedOnDisk stat s).1 = decide (autoReloadIdOf st ≠ s.activeEditor.autoReloadId) ∧
      (fileChangedOnDisk stat s).2
        = { s with activeEditor := { s.activeEditor with autoReloadId := autoReloadIdOf st } } ∧
      (fileChangedOnDisk stat (fileChangedOnDisk stat s).2).1 = false) ∧
    (∀ st : Stat,
      autoReloadIdOf st = hexDigits st.st_mtime ++ "." ++ hexDigits st.st_size ∧
      hexValue (hexDigits st.st_mtime) = st.st_mtime ∧
      hexValue (hexDigits st.st_size) = st.st_size) ∧
    (∀ a b : Stat, autoReloadIdOf a = autoReloadIdOf b ↔
      a.st_mtime = b.st_mtime ∧ a.st_size = b.st_size) ∧
    (∀ st old : Stat, s.activeEditor.filepath ≠ "" → stat s.activeEditor.filepath = some st →
      s.activeEditor.autoReloadId = autoReloadIdOf old →
      ((fileChangedOnDisk stat s).1 = true ↔
        st.st_mtime ≠ old.st_mtime ∨ st.st_size ≠ old.st_size)) := by
  have hinj : ∀ a b : Stat, autoReloadIdOf a = autoReloadIdOf b ↔
      a.st_mtime = b.st_mtime ∧ a.st_size = b.st_size := by
    intro a b
    rw [autoReloadIdOf_injective]
    cases a; cases b
    simp
  refine ⟨fun h => ?_, fun h => ?_, fun st hpath hstat => ?_,
    fun st => ⟨rfl, (hexDigits_spec _).1, (hexDigits_spec _).1⟩, hinj,
    fun st old hpath hstat hold => ?_⟩
  · simp [fileChangedOnDisk, h]
  · by_cases hpath : s.activeEditor.filepath = "" <;> simp [fileChangedOnDisk, h, hpath]
  · by_cases hid : autoReloadIdOf st = s.activeEditor.autoReloadId
    · simp [fileChangedOnDisk, hpath, hstat, hid]
    · simp [fileChangedOnDisk, hpath, hstat, hid]
  · have hiff := hinj st old
    by_cases hid : autoReloadIdOf st = autoReloadIdOf old
    · have hsame := hiff.mp hid
      simp [fileChangedOnDisk, hpath, hstat, hold, hid, hsame.1, hsame.2]
    · have hdiff : ¬ (st.st_mtime = old.st_mtime ∧ st.st_size = old.st_size) :=
        fun h => hid (hiff.mpr h)
      simp only [fileChangedOnDisk, hpath, hstat, hold, ne_eq, not_false_eq_true, if_true, hid]
      simp only [true_iff]
      by_cases hm : st.st_mtime = old.st_mtime
      · exact Or.inr fun hs => hdiff ⟨hm, hs⟩
      · exact Or.inl hm

/-- C15 at a concrete input: the saved file, whose identifier "10.20" stands
for the modification time 16 and the size 32, has the new modification time
17; the first call returns true and stores "11.20", the second returns
false. -/
theorem C15_fileChangedOnDisk_witness :
    (fileChangedOnDisk touchedOnDisk savedFileWindow).1 = true ∧
    (fileChangedOnDisk touchedOnDisk savedFileWindow).2.activeEditor.autoReloadId = "11.20" ∧
    (fileChangedOnDisk touchedOnDisk
      (fileChangedOnDisk touchedOnDisk savedFileWindow).2).1 = false :=
  have h := (C15_fileChangedOnDisk_detects_new_content touchedOnDisk savedFileWindow).2.2.1
    ⟨17, 32⟩ (by decide) rfl
  ⟨((C15_fileChangedOnDisk_detects_new_content touchedOnDisk savedFileWindow).2.2.2.2.2
      ⟨17, 32⟩ ⟨16, 32⟩ (by decide) rfl (by decide)).mpr (Or.inl (by decide)),
   by rw [h.2.1]; decide, h.2.2⟩

/-! ### C16 -/

/-- C16: `canExport(dim)` returns true only when `rootGeom` is non-null, of
dimension `dim` and not empty (and no prompt that was shown was declined);
whenever `rootGeom` is null, of another dimension or empty, or the user
declines a prompt that is shown, it never returns true: it returns false,
unless the Error message logged on the way is raised as a hard warning. -/
theorem C16_canExport_true_only_for_exportable_geometry
    {Node Term Products : Type} (env : Env Node Term Products)
    (answerModified answerOtherTab : StandardButton) (dim : Nat)
    (s : MainWindow Node Term Products) :
    (∀ s1, canExport env answerModified answerOtherTab dim s = .value true s1 →
      (∃ geom, s.rootGeom = some geom ∧ geom.dimension = dim ∧ geom.isEmpty = false) ∧
      (s.activeEditor.contentsRendered = true ∨ answerModified = .Yes) ∧
      (s.renderedEditor = some s.activeEditor.address ∨ answerOtherTab = .Yes)) ∧
    ((s.rootGeom = none ∨
      (∃ geom, s.rootGeom = some geom ∧ (geom.dimension ≠ dim ∨ geom.isEmpty = true)) ∨
      (s.activeEditor.contentsRendered = false ∧ answerModified ≠ .Yes) ∨
      (s.renderedEditor ≠ some s.activeEditor.address ∧ answerOtherTab ≠ .Yes)) →
      (∀ s1, canExport env answerModified answerOtherTab dim s ≠ .value true s1) ∧
      (env.logRaises .Error = false → env.logRaises .UI_Error = false →
        ∃ s1, canExport env answerModified answerOtherTab dim s = .value false s1)) := by
  have hthen : ∀ (o : Outcome (MainWindow Node Term Products)) (s1 : MainWindow Node Term Products),
      o.thenReturn false ≠ Returned.value true s1 := by
    intro o s1 h
    cases o <;> simp [Outcome.thenReturn] at h
  have hlog : ∀ (g : message_group) (text : String) (s0 : MainWindow Node Term Products),
      env.logRaises g = false →
      ∃ s1, (LOG env g text s0).thenReturn false = Returned.value false s1 := by
    intro g text s0 hg
    exact ⟨print g text s0, by simp [LOG, hg, Outcome.thenReturn]⟩
  cases hgeom : s.rootGeom with
  | none =>
    refine ⟨fun s1 h => ?_, fun _ => ⟨fun s1 h => ?_, fun hE _ => ?_⟩⟩
    · simp only [canExport, hgeom] at h
      exact absurd h (hthen _ _)
    · simp only [canExport, hgeom] at h
      exact absurd h (hthen _ _)
    · simp only [canExport, hgeom]
      exact hlog _ _ _ hE
  | some geom =>
    by_cases h1 : s.activeEditor.contentsRendered = false ∧ answerModified ≠ .Yes
    · have hval : canExport env answerModified answerOtherTab dim s = .value false s := by
        simp only [canExport, hgeom]
        rw [if_pos h1]
      refine ⟨fun s1 h => ?_, fun _ => ⟨fun s1 h => ?_, fun _ _ => ⟨s, hval⟩⟩⟩
      · rw [hval] at h; simp at h
      · rw [hval] at h; simp at h
    · by_cases h2 : s.renderedEditor ≠ some s.activeEditor.address ∧ answerOtherTab ≠ .Yes
      · have hval : canExport env answerModified answerOtherTab dim s = .value false s := by
          simp only [canExport, hgeom]
          rw [if_neg h1, if_pos h2]
        refine ⟨fun s1 h => ?_, fun _ => ⟨fun s1 h => ?_, fun _ _ => ⟨s, hval⟩⟩⟩
        · rw [hval] at h; simp at h
        · rw [hval] at h; simp at h
      · have p1 : s.activeEditor.contentsRendered = true ∨ answerModified = .Yes := by
          by_cases hc : s.activeEditor.contentsRendered = true
          · exact Or.inl hc
          · by_cases ha : answerModified = .Yes
            · exact Or.inr ha
            · exact absurd ⟨by simpa using hc, ha⟩ h1
        have p2 : s.renderedEditor = some s.activeEditor.address ∨ answerOtherTab = .Yes := by
          by_cases hc : s.renderedEditor = some s.activeEditor.address
          · exact Or.inl hc
          · by_cases ha : answerOtherTab = .Yes
            · exact Or.inr ha
            · exact absurd ⟨hc, ha⟩ h2
        by_cases h3 : geom.dimension ≠ dim
        · have hval : canExport env answerModified answerOtherTab dim s
              = (LOG env .UI_Error "Current top level object is not a %1$dD object."
                  s).thenReturn false := by
            simp only [canExport, hgeom]
            rw [if_neg h1, if_neg h2, if_pos h3]
          refine ⟨fun s1 h => ?_, fun _ => ⟨fun s1 h => ?_, fun _ hU => ?_⟩⟩
          · rw [hval] at h; exact absurd h (hthen _ _)
          · rw [hval] at h; exact absurd h (hthen _ _)
          · rw [hval]; exact hlog _ _ _ hU
        · by_cases h4 : geom.isEmpty = true
          · have hval : canExport env answerModified answerOtherTab dim s
                = (LOG env .UI_Error "Current top level object is empty." s).thenReturn false := by
              simp only [canExport, hgeom]
              rw [if_neg h1, if_neg h2, if_neg h3, if_pos h4]
            refine ⟨fun s1 h => ?_, fun _ => ⟨fun s1 h => ?_, fun _ hU => ?_⟩⟩
            · rw [hval] at h; exact absurd h (hthen _ _)
            · rw [hval] at h; exact absurd h (hthen _ _)
            · rw [hval]; exact hlog _ _ _ hU
          · refine ⟨fun s1 _ => ⟨⟨geom, rfl, by simpa using h3, by simpa using h4⟩, p1, p2⟩,
              fun hbad => ?_⟩
            rcases hbad with hbad | ⟨g, hg, hbad⟩ | hbad | hbad
            · exact absurd hbad (by simp)
            · cases Option.some.inj hg
              rcases hbad with hbad | hbad
              · exact absurd hbad h3
              · exact absurd hbad h4
            · exact absurd hbad h1
            · exact absurd hbad h2

/-- C16 at a concrete input: after a render of a non-empty 3D object in the
active editor, `canExport(3)` returns true, and the geometry is as stated. -/
theorem C16_canExport_witness :
    canExport (Env.sample buildsFive normalizeKeeps) .No .No 3 renderedWindow
      = .value true renderedWindow ∧
    ∃ geom, renderedWindow.rootGeom = some geom ∧ geom.dimension = 3 ∧ geom.isEmpty = false :=
  ⟨rfl,
   ((C16_canExport_true_only_for_exportable_geometry (Env.sample buildsFive normalizeKeeps)
      .No .No 3 renderedWindow).1 renderedWindow rfl).1⟩

/-! ### C17 -/

/-- C17 fails on the code: a preview run that starts in `actionRenderPreview`
with lock count 0, reaches `csgRender`, and in which `compileCSG` ends
through its `HardWarningException` handler (node 1 evaluates to term 5, its
normalization returns null and the Warning raises) releases the lock twice,
once in `exceptionCleanup` and once in `compileEnded`: the second `guiLocked--`
happens at 0 and wraps, so the count is 4294967295 and `isLocked()` is true
when `csgRender` has returned.  The same run without the raise ends with
count 0. -/
theorem C17_lock_released_twice_after_hard_warning :
    parsedWindow.guiLocked = 0 ∧
    (actionRenderPreview (previewEnv (Env.sampleHardWarnings buildsFive normalizeFails) id)
      parsedWindow).guiLocked = 4294967295 ∧
    GuiLocker.isLocked
      (actionRenderPreview (previewEnv (Env.sampleHardWarnings buildsFive normalizeFails) id)
        parsedWindow) = true ∧
    Call.buildCSGTree 1 ∈
      (actionRenderPreview (previewEnv (Env.sampleHardWarnings buildsFive normalizeFails) id)
        parsedWindow).calls ∧
    ⟨.NONE, "Execution aborted"⟩ ∈
      (actionRenderPreview (previewEnv (Env.sampleHardWarnings buildsFive normalizeFails) id)
        parsedWindow).console ∧
    (actionRenderPreview (previewEnv (Env.sample buildsFive normalizeFails) id)
      parsedWindow).guiLocked = 0 := by
  refine ⟨rfl, by decide, by decide, by decide, by decide, by decide⟩

/-! ### C18 -/

/-- C18 fails on the code: the counter of `convertTabsToSpaces` has a period
of 5, not 4.  A tab that follows four characters (column 4) is replaced by no
space at all, and a tab that follows five characters (column 5) by four
spaces, which ends at column 9; a tab at columns 0 to 3 is converted as
stated. -/
theorem C18_tab_at_column_four_is_dropped :
    convertTabsToSpaces ['a', 'b', 'c', 'd', '\t', 'x'] = ['a', 'b', 'c', 'd', 'x'] ∧
    convertTabsToSpaces ['a', 'b', 'c', 'd', 'e', '\t', 'x']
      = ['a', 'b', 'c', 'd', 'e', ' ', ' ', ' ', ' ', 'x'] ∧
    convertTabsToSpaces ['a', 'b', 'c', '\t', 'x'] = ['a', 'b', 'c', ' ', 'x'] ∧
    convertTabsToSpaces ['\t', 'x'] = [' ', ' ', ' ', ' ', 'x'] := by
  decide

/-! ### C19 -/

/-- The part of `compileCSG` that follows the evaluation, with no `LOG`
raising and no OpenCSG renderer at the start: it completes, every call it
makes to the normalizer has the given budget, the root term is normalized
with it, and the renderers and the message depend on the size of
`rootProduct` only. -/
theorem compileCSG_after_evaluation {Node Term Products : Type}
    (env : Env Node Term Products) (budget : Nat) (highlights background : List Term)
    (s : MainWindow Node Term Products) (hfresh : s.opencsgRenderer = none)
    (hquiet : env.logRaises .Warning = false) (hquietUI : env.logRaises .UI_Warning = false) :
    ∃ s1,
      ((normalizeRoot env budget s).andThen fun s4 =>
        (createRenderers env
          (compileBackground env budget background
            (compileHighlights env budget highlights s4))).andThen
          fun s7 => .done (print .NONE "Compile and preview finished." s7)) = .done s1 ∧
      s1.calls = s.calls ++ s1.calls.drop s.calls.length ∧
      s1.console = s.console ++ s1.console.drop s.console.length ∧
      (∀ limit term, Call.normalize limit term ∈ s1.calls.drop s.calls.length →
        limit = budget) ∧
      (∀ term, s.csgRoot = some term →
        Call.normalize budget term ∈ s1.calls.drop s.calls.length ∧
        s1.normalizedRoot = env.normalize budget term) ∧
      (s1.opencsgRenderer.isSome = true ↔
        (s1.rootProduct = none ∨
          ∃ products, s1.rootProduct = some products ∧
            env.size products ≤ env.openCSGLimit)) ∧
      (s1.opencsgRenderer.isSome = true →
        s1.opencsgRenderer = some ⟨.OpenCSGRenderer, s1.rootProduct, s1.highlightsProducts,
          s1.backgroundProducts⟩) ∧
      (⟨.UI_Warning, "OpenCSG rendering has been disabled."⟩
          ∈ s1.console.drop s.console.length ↔
        ∃ products, s1.rootProduct = some products ∧
          env.openCSGLimit < env.size products) ∧
      s1.thrownTogetherRenderer = some ⟨.ThrownTogetherRenderer, s1.rootProduct,
        s1.highlightsProducts, s1.backgroundProducts⟩ := by
  have hsplit : ∀ products : Products,
      env.openCSGLimit < env.size products ∨ env.size products ≤ env.openCSGLimit :=
    fun products => Nat.lt_or_ge _ _
  cases hroot : s.csgRoot with
  | none =>
    cases hprod : s.rootProduct with
    | none =>
      simp [hroot, hprod, hfresh, normalizeRoot, print, record,
        Outcome.andThen, createRenderers, compileHighlights_eq, compileBackground_eq,
        makeOpenCSGRenderer, makeThrownTogetherRenderer]
      rintro limit t (⟨_, h⟩ | ⟨_, h⟩) <;> exact h.symm
    | some products =>
      rcases hsplit products with hsize | hsize
      · simp [hroot, hprod, hfresh, hsize, hquietUI, normalizeRoot, LOG, print, record,
          Outcome.andThen, createRenderers, compileHighlights_eq, compileBackground_eq,
          makeOpenCSGRenderer, makeThrownTogetherRenderer]
        rintro limit t (⟨_, h⟩ | ⟨_, h⟩) <;> exact h.symm
      · have hnot : ¬ env.openCSGLimit < env.size products := Nat.not_lt.mpr hsize
        simp [hroot, hprod, hfresh, hsize, hnot, normalizeRoot, print, record,
          Outcome.andThen, createRenderers, compileHighlights_eq, compileBackground_eq,
          makeOpenCSGRenderer, makeThrownTogetherRenderer]
        rintro limit t (⟨_, h⟩ | ⟨_, h⟩) <;> exact h.symm
  | some term =>
    cases hnorm : env.normalize budget term with
    | none =>
      simp [hroot, hnorm, hquiet, hfresh, normalizeRoot, LOG, print, record,
        Outcome.andThen, createRenderers, compileHighlights_eq, compileBackground_eq,
        makeOpenCSGRenderer, makeThrownTogetherRenderer]
      rintro limit t (⟨h, _⟩ | ⟨_, h⟩ | ⟨_, h⟩) <;> first | exact h | exact h.symm
    | some normalized =>
      rcases hsplit (env.importTerm env.newProducts normalized) with hsize | hsize
      · simp [hroot, hnorm, hquietUI, hsize, hfresh, normalizeRoot, LOG, print,
          record, Outcome.andThen, createRenderers, compileHighlights_eq,
          compileBackground_eq, makeOpenCSGRenderer, makeThrownTogetherRenderer]
        rintro limit t (⟨h, _⟩ | ⟨_, h⟩ | ⟨_, h⟩) <;> first | exact h | exact h.symm
      · have hnot : ¬ env.openCSGLimit < env.size (env.importTerm env.newProducts normalized) :=
          Nat.not_lt.mpr hsize
        simp [hroot, hnorm, hsize, hnot, hfresh, normalizeRoot, print,
          record, Outcome.andThen, createRenderers, compileHighlights_eq,
          compileBackground_eq, makeOpenCSGRenderer, makeThrownTogetherRenderer]
        rintro limit t (⟨h, _⟩ | ⟨_, h⟩ | ⟨_, h⟩) <;> first | exact h | exact h.symm

/-- C19 as stated does not hold in two cases.  With an `unsigned long` of 32
bits the product `2ul * limit` wraps: for the 32-bit limit 2^31 the budget is
0, not 2^32.  And with hard warnings enabled and a root term whose
normalization fails, `rootProduct` is null and yet no OpenCSG renderer (and no
thrown-together renderer) is created: the Warning raises and the handler of
`compileCSG` ends the run. -/
theorem C19_budget_wraps_and_aborted_compile_has_no_renderer :
    Env.sampleShortLong.openCSGLimit < 2 ^ 32 ∧
    2 * Env.sampleShortLong.openCSGLimit = 4294967296 ∧
    normalizelimit Env.sampleShortLong = 0 ∧
    (compileCSG (Env.sampleHardWarnings buildsFive normalizeFails) readyWindow).map
      (fun s1 => (s1.rootProduct, s1.opencsgRenderer, s1.thrownTogetherRenderer))
      = some (none, none, none) := by
  decide

/-- C19, amended: on a platform whose `unsigned long` has more than 32 bits,
for every 32-bit `openCSGLimit`, the budget `normalizelimit` is exactly twice
the limit;
and in every run of `compileCSG` on a window that has a root node, is not
closing and holds no OpenCSG renderer, with no `LOG` raising: every call of
the normalizer made by the run has that budget, the root term is normalized
with it, the OpenCSG renderer is created iff `rootProduct` is null or has at
most `openCSGLimit` entries, the message "OpenCSG rendering has been
disabled." is logged by the run iff `rootProduct` has more entries than that,
and the thrown-together renderer is created in both cases. -/
theorem C19_normalizer_budget_and_opencsg_limit {Node Term Products : Type}
    (env : Env Node Term Products) (s : MainWindow Node Term Products) (root : Node)
    (hlimit : env.openCSGLimit < 2 ^ 32) (hlong : 32 < env.ulongBits)
    (hroot : s.rootNode = some root) (hopen : s.isClosing = false)
    (hfresh : s.opencsgRenderer = none)
    (hquiet : env.logRaises .Warning = false) (hquietUI : env.logRaises .UI_Warning = false) :
    normalizelimit env = 2 * env.openCSGLimit ∧
    ∃ s1, compileCSG env s = some s1 ∧
      (∀ limit term, Call.normalize limit term ∈ s1.calls.drop s.calls.length →
        limit = 2 * env.openCSGLimit) ∧
      (∀ term, (env.buildCSGTree root).outcome = .returned (some term) →
        Call.normalize (2 * env.openCSGLimit) term ∈ s1.calls.drop s.calls.length ∧
        s1.normalizedRoot = env.normalize (2 * env.openCSGLimit) term) ∧
      (s1.opencsgRenderer.isSome = true ↔
        (s1.rootProduct = none ∨
          ∃ products, s1.rootProduct = some products ∧
            env.size products ≤ env.openCSGLimit)) ∧
      (s1.opencsgRenderer.isSome = true →
        s1.opencsgRenderer = some ⟨.OpenCSGRenderer, s1.rootProduct, s1.highlightsProducts,
          s1.backgroundProducts⟩) ∧
      (⟨.UI_Warning, "OpenCSG rendering has been disabled."⟩
          ∈ s1.console.drop s.console.length ↔
        ∃ products, s1.rootProduct = some products ∧
          env.openCSGLimit < env.size products) ∧
      s1.thrownTogetherRenderer = some ⟨.ThrownTogetherRenderer, s1.rootProduct,
        s1.highlightsProducts, s1.backgroundProducts⟩ := by
  have hL : normalizelimit env = 2 * env.openCSGLimit := by
    unfold normalizelimit
    apply Nat.mod_eq_of_lt
    have hpow : 2 ^ 33 ≤ 2 ^ env.ulongBits := Nat.pow_le_pow_right (by decide) hlong
    have h33 : 2 * 2 ^ 32 = 2 ^ 33 := by decide
    omega
  refine ⟨hL, ?_⟩
  rw [← hL]
  obtain ⟨s3, hs3⟩ : ∃ s3, s3 = print .NONE "Compiling design (CSG Products normalization)..."
      (evaluateCSG root (env.buildCSGTree root)
        (print .NONE "Compiling design (CSG Products generation)..." s)) := ⟨_, rfl⟩
  have f1 : s3.calls = s.calls ++ [Call.buildCSGTree root] := by
    rw [hs3]
    cases hout : (env.buildCSGTree root).outcome <;> simp [evaluateCSG, print, record, hout]
  have f2 : ∃ logged, s3.console = s.console ++ logged ∧
      ⟨.UI_Warning, "OpenCSG rendering has been disabled."⟩ ∉ logged := by
    rw [hs3]
    cases hout : (env.buildCSGTree root).outcome
    · exact ⟨[⟨.NONE, "Compiling design (CSG Products generation)..."⟩,
        ⟨.NONE, "Compiling design (CSG Products normalization)..."⟩],
        by simp [evaluateCSG, print, record, hout], by simp⟩
    · exact ⟨[⟨.NONE, "Compiling design (CSG Products generation)..."⟩,
        ⟨.NONE, "CSG generation cancelled."⟩,
        ⟨.NONE, "Compiling design (CSG Products normalization)..."⟩],
        by simp [evaluateCSG, print, record, hout], by simp⟩
    · exact ⟨[⟨.NONE, "Compiling design (CSG Products generation)..."⟩,
        ⟨.NONE, "CSG generation cancelled due to hardwarning being enabled."⟩,
        ⟨.NONE, "Compiling design (CSG Products normalization)..."⟩],
        by simp [evaluateCSG, print, record, hout], by simp⟩
  have f3 : s3.opencsgRenderer = none := by
    rw [hs3]
    cases hout : (env.buildCSGTree root).outcome <;>
      simp [evaluateCSG, print, record, hout, hfresh]
  have f4 : ∀ term, (env.buildCSGTree root).outcome = .returned (some term) →
      s3.csgRoot = some term := by
    intro term hout
    rw [hs3]
    simp [evaluateCSG, print, record, hout]
  obtain ⟨s1, h1, hcalls, hcons, hbudget, hnormalized, hiff, hcreated, hmsg, hthrown⟩ :=
    compileCSG_after_evaluation env (normalizelimit env) (env.buildCSGTree root).highlightNodes
      (env.buildCSGTree root).backgroundNodes s3 f3 hquiet hquietUI
  obtain ⟨made, hmade⟩ : ∃ made, made = s1.calls.drop s3.calls.length := ⟨_, rfl⟩
  obtain ⟨said, hsaid⟩ : ∃ said, said = s1.console.drop s3.console.length := ⟨_, rfl⟩
  rw [← hmade] at hcalls hbudget hnormalized
  rw [← hsaid] at hcons hmsg
  obtain ⟨logged, hlogged, hnotlogged⟩ := f2
  have hc : s1.calls.drop s.calls.length = Call.buildCSGTree root :: made := by
    rw [hcalls, f1]
    simp
  have hm : s1.console.drop s.console.length = logged ++ said := by
    rw [hcons, hlogged]
    simp
  refine ⟨s1, ?_, ?_, ?_, hiff, hcreated, ?_, hthrown⟩
  · simp only [compileCSG, hroot, compileCSG_try_eq env root s hopen]
    rw [← hs3, h1]
  · intro limit term hmem
    rw [hc] at hmem
    rcases List.mem_cons.mp hmem with h | h
    · exact absurd h (by simp)
    · exact hbudget limit term h
  · intro term hout
    rw [hc]
    exact ⟨List.mem_cons_of_mem _ (hnormalized term (f4 term hout)).1,
      (hnormalized term (f4 term hout)).2⟩
  · rw [hm, ← hmsg]
    simp [hnotlogged]

/-- C19 at a concrete input: with the limit 2000 and a 64-bit `unsigned long`
the budget is 4000, and the run on the window whose root node is 1 calls the
normalizer on term 5 with that budget and creates both renderers. -/
theorem C19_normalizer_budget_witness :
    normalizelimit (Env.sample buildsFive normalizeKeeps) = 4000 ∧
    ∃ s1, compileCSG (Env.sample buildsFive normalizeKeeps) readyWindow = some s1 ∧
      Call.normalize 4000 5 ∈ s1.calls.drop readyWindow.calls.length ∧
      s1.normalizedRoot = some 5 ∧
      s1.thrownTogetherRenderer = some ⟨.ThrownTogetherRenderer, s1.rootProduct,
        s1.highlightsProducts, s1.backgroundProducts⟩ := by
  obtain ⟨hL, s1, h1, _, h3, _, _, _, h7⟩ :=
    C19_normalizer_budget_and_opencsg_limit (Env.sample buildsFive normalizeKeeps)
      readyWindow 1 (by decide) (by decide) rfl rfl rfl rfl rfl
  exact ⟨hL, s1, h1, (h3 5 rfl).1, (h3 5 rfl).2, h7⟩

/-! ### C20 -/

/-- C20 as stated does not hold, in its two consequences.  The window keeps
one rejected name only: after the user rejects "a.py" (content "evil()") and
then rejects "b.py", a call on "a.py" whose content matches the stored hash
returns true, and the next call on "a.py" with the rejected content returns
true as well, without any approval (the answer given is No).  And content of
one byte is trusted on a hash mismatch without approval although the file is
not the trusted edit document. -/
theorem C20_rejected_file_trusted_again :
    (trust_python_file sampleHash .No "a.py" "evil()" approvedEarlier).1 = false ∧
    (trust_python_file sampleHash .No "a.py" "print(1)"
      (trust_python_file sampleHash .No "a.py" "evil()" approvedEarlier).2).1 = false ∧
    (trust_python_file sampleHash .No "b.py" "other()"
      (trust_python_file sampleHash .No "a.py" "evil()" approvedEarlier).2).1 = false ∧
    (trust_python_file sampleHash .No "a.py" "print(1)"
      (trust_python_file sampleHash .No "b.py" "other()"
        (trust_python_file sampleHash .No "a.py" "evil()" approvedEarlier).2).2).1 = true ∧
    (trust_python_file sampleHash .No "a.py" "evil()"
      (trust_python_file sampleHash .No "a.py" "print(1)"
        (trust_python_file sampleHash .No "b.py" "other()"
          (trust_python_file sampleHash .No "a.py" "evil()" approvedEarlier).2).2).2).1
      = true ∧
    (freshTrust.python_trusted = false ∧
      "a.py" ≠ freshTrust.trusted_edit_document_name ∧
      ref_hash freshTrust "a.py" ≠ sampleHash "x" ∧
      (trust_python_file sampleHash .No "a.py" "x" freshTrust).1 = true) := by
  decide

/-- C20, amended: `trust_python_file(file, content)` returns false iff
`python_trusted` is false and either the file is the untrusted edit document,
or all of: it is not the trusted edit document, the content has more than one
byte, the reference hash (the stored one, or the empty string) differs from
the hash of the content, and the answer is neither Yes nor Yes-to-all.  A
call on the untrusted edit document is refused and changes nothing, whatever
the content; a rejection at the prompt makes the file the untrusted edit
document, so the next call on it is refused whatever content and answer.
When the call returns true on a hash mismatch without approval, then
`python_trusted` is set, or the file is not the untrusted edit document and
is the trusted edit document or the content has at most one byte. -/
theorem C20_trust_python_file_refusal (SHA256HashString : String → String)
    (answer : StandardButton) (file content : String) (t : TrustState) :
    ((trust_python_file SHA256HashString answer file content t).1 = false ↔
      t.python_trusted = false ∧
        (file = t.untrusted_edit_document_name ∨
          (file ≠ t.trusted_edit_document_name ∧ 1 < content.utf8ByteSize ∧
            ref_hash t file ≠ SHA256HashString content ∧
            answer ≠ .Yes ∧ answer ≠ .YesAll))) ∧
    (t.python_trusted = false → file = t.untrusted_edit_document_name →
      trust_python_file SHA256HashString answer file content t = (false, t)) ∧
    (t.python_trusted = false → file ≠ t.untrusted_edit_document_name →
      file ≠ t.trusted_edit_document_name → 1 < content.utf8ByteSize →
      ref_hash t file ≠ SHA256HashString content → answer = .No →
      (trust_python_file SHA256HashString answer file content t).1 = false ∧
      ∀ (later : StandardButton) (changed : String),
        (trust_python_file SHA256HashString later file changed
          (trust_python_file SHA256HashString answer file content t).2).1 = false) ∧
    ((trust_python_file SHA256HashString answer file content t).1 = true →
      ref_hash t file ≠ SHA256HashString content → answer ≠ .Yes → answer ≠ .YesAll →
      t.python_trusted = true ∨
        (file ≠ t.untrusted_edit_document_name ∧
          (file = t.trusted_edit_document_name ∨ content.utf8ByteSize ≤ 1))) := by
  refine ⟨?_, ?_, ?_, ?_⟩
  · cases hp : t.python_trusted with
    | true => simp [trust_python_file, hp]
    | false =>
      by_cases hu : file = t.untrusted_edit_document_name
      · simp [trust_python_file, hp, hu]
      · by_cases ht : file = t.trusted_edit_document_name
        · subst ht
          simp [trust_python_file, hp, hu]
        · by_cases hs : content.utf8ByteSize ≤ 1
          · have hs2 : ¬ 1 < content.utf8ByteSize := Nat.not_lt.mpr hs
            simp [trust_python_file, hp, hu, ht, hs, hs2]
          · have hs2 : 1 < content.utf8ByteSize := Nat.lt_of_not_le hs
            by_cases hh : SHA256HashString content = ref_hash t file
            · simp [trust_python_file, hp, hu, ht, hs, hh]
            · have hh2 : ref_hash t file ≠ SHA256HashString content := fun h => hh h.symm
              cases answer <;> simp [trust_python_file, hp, hu, ht, hs, hs2, hh, hh2]
  · intro hp hu
    simp [trust_python_file, hp, hu]
  · intro hp hu ht hs hh ha
    have hs2 : ¬ content.utf8ByteSize ≤ 1 := Nat.not_le.mpr hs
    have hh2 : ¬ SHA256HashString content = ref_hash t file := fun h => hh h.symm
    subst ha
    simp [trust_python_file, hp, hu, ht, hs2, hh2]
  · intro hres hh hy hya
    cases hp : t.python_trusted with
    | true => exact Or.inl rfl
    | false =>
      refine Or.inr ?_
      have hh2 : ¬ SHA256HashString content = ref_hash t file := fun h => hh h.symm
      by_cases hu : file = t.untrusted_edit_document_name
      · simp [trust_python_file, hp, hu] at hres
      · refine ⟨hu, ?_⟩
        by_cases ht : file = t.trusted_edit_document_name
        · exact Or.inl ht
        · by_cases hs : content.utf8ByteSize ≤ 1
          · exact Or.inr hs
          · exfalso
            cases answer with
            | Yes => exact hy rfl
            | YesAll => exact hya rfl
            | No => simp [trust_python_file, hp, hu, ht, hs, hh2] at hres
            | NoButton => simp [trust_python_file, hp, hu, ht, hs, hh2] at hres

/-- C20 amended, at a concrete input: the rejection of "a.py" at the prompt
is a refusal, and the next call on "a.py" is refused although its content
matches the stored hash and the answer would be Yes. -/
theorem C20_trust_python_file_witness :
    (trust_python_file sampleHash .No "a.py" "evil()" approvedEarlier).1 = false ∧
    (trust_python_file sampleHash .Yes "a.py" "print(1)"
      (trust_python_file sampleHash .No "a.py" "evil()" approvedEarlier).2).1 = false :=
  ⟨((C20_trust_python_file_refusal sampleHash .No "a.py" "evil()" approvedEarlier).2.2.1
      (by decide) (by decide) (by decide) (by decide) (by decide) rfl).1,
   ((C20_trust_python_file_refusal sampleHash .No "a.py" "evil()" approvedEarlier).2.2.1
      (by decide) (by decide) (by decide) (by decide) (by decide) rfl).2 .Yes "print(1)"⟩

/-! ### C21 -/

/-- The integer part of the `double` quotient: for a rounding `rd` that is
monotone, exact on the integers up to 2^53 and rounds up by a relative error
of at most 2^-53 (as the rounding to nearest of `double` is), the rounded
quotient of `a < 2^53` by `b > 0` has the floor of the exact quotient. -/
theorem rounded_quotient_floor (rd : ℚ → ℚ) (hmono : Monotone rd)
    (hexact : ∀ n : ℤ, 0 ≤ n → n ≤ 2 ^ 53 → rd n = n)
    (herr : ∀ x : ℚ, 0 ≤ x → rd x ≤ x * (1 + 1 / 2 ^ 53))
    (a b : ℤ) (ha0 : 0 ≤ a) (ha : a < 2 ^ 53) (hb : 0 < b) :
    ⌊rd ((a : ℚ) / b)⌋ = a / b := by
  have hbq : (0 : ℚ) < b := by exact_mod_cast hb
  have hk0 : 0 ≤ a / b := Int.ediv_nonneg ha0 hb.le
  have hka : a / b ≤ a := Int.ediv_le_self _ ha0
  have hlow : ((a / b : ℤ) : ℚ) ≤ (a : ℚ) / b := by
    rw [le_div_iff₀ hbq]
    have : a / b * b ≤ a := Int.ediv_mul_le a hb.ne'
    exact_mod_cast this
  have hup : (a : ℚ) + 1 ≤ ((a / b : ℤ) : ℚ) * b + b := by
    have : a < a / b * b + b := Int.lt_ediv_add_one_mul_self a hb |> fun h => by
      rw [Int.add_mul, Int.one_mul] at h; exact h
    have h2 : a + 1 ≤ a / b * b + b := this
    exact_mod_cast h2
  rw [Int.floor_eq_iff]
  constructor
  · calc ((a / b : ℤ) : ℚ) = rd ((a / b : ℤ) : ℚ) := (hexact _ hk0 (by omega)).symm
      _ ≤ rd ((a : ℚ) / b) := hmono hlow
  · have hx0 : (0 : ℚ) ≤ (a : ℚ) / b := div_nonneg (by exact_mod_cast ha0) hbq.le
    refine lt_of_le_of_lt (herr _ hx0) ?_
    have haq : (a : ℚ) < 2 ^ 53 := by exact_mod_cast ha
    have ha0q : (0 : ℚ) ≤ a := by exact_mod_cast ha0
    rw [div_mul_eq_mul_div, div_lt_iff₀ hbq]
    have : (a : ℚ) * (1 + 1 / 2 ^ 53) < a + 1 := by
      have : (a : ℚ) * (1 / 2 ^ 53) < 1 := by
        rw [mul_one_div, div_lt_one (by positivity)]
        exact haq
      nlinarith
    nlinarith

/-- What one call forwards: a value is forwarded iff the call passes the
throttle and `permille` exceeds the widget's value; that value is then the
widget's value, and without a forwarded value the widget keeps its own. -/
theorem report_func_value (count : Int) (c : ReportCall) (p : ProgressState) :
    (∀ v, (report_func count c p).setValue = some v ↔
      hasExpired p c.now MIN_TIMEOUT = true ∧
        v = permille count c.mark c.outOfRange ∧ p.value < v) ∧
    (∀ v, (report_func count c p).setValue = some v → (report_func count c p).state.value = v) ∧
    ((report_func count c p).setValue = none → (report_func count c p).state.value = p.value) := by
  unfold report_func
  by_cases h : hasExpired p c.now MIN_TIMEOUT = true
  · by_cases h2 : permille count c.mark c.outOfRange > p.value
    · simp [h, h2]
      intro v
      constructor
      · intro hv; subst hv; exact ⟨rfl, h2⟩
      · intro hv; exact hv.1.symm
    · simp [h, h2]
      omega
  · simp [h]

/-- The clamp `v < 1000 ? v : 999`: whatever the conversion gives, `permille`
is at most 999. -/
theorem permille_le (count mark u : Int) : permille count mark u ≤ 999 := by
  unfold permille
  dsimp only
  split_ifs <;> omega

/-- Where the quotient is an `int`, `permille` is the floor of the exact
quotient, clamped to 999. -/
theorem permille_eq (count mark u : Int) (hmark : 0 ≤ mark) (hcount : 0 < count)
    (hfit : mark * 1000 / count ≤ INT_MAX) :
    permille count mark u = min ⌊((1000 * mark : Int) : ℚ) / (count : Int)⌋ 999 := by
  have hfloor : ⌊((1000 * mark : Int) : ℚ) / (count : Int)⌋ = mark * 1000 / count := by
    have h := Rat.floor_intCast_div_natCast (1000 * mark) count.toNat
    rw [← Int.toNat_of_nonneg hcount.le]
    rw [Int.mul_comm mark 1000]
    exact_mod_cast h
  have hq : 0 ≤ mark * 1000 / count := Int.ediv_nonneg (by omega) hcount.le
  rw [hfloor]
  unfold permille static_cast_int
  rw [Int.tdiv_eq_ediv (by omega) hcount.le]
  unfold INT_MAX at hfit
  unfold INT_MIN INT_MAX
  generalize mark * 1000 / count = q at hq hfit ⊢
  dsimp only
  split_ifs <;> omega

/-- One call never lowers the widget's value and never takes it to 1000. -/
theorem report_func_monotone (count : Int) (c : ReportCall) (p : ProgressState) :
    p.value ≤ (report_func count c p).state.value ∧
    (p.value < 1000 → (report_func count c p).state.value < 1000) := by
  have hle := permille_le count c.mark c.outOfRange
  unfold report_func
  by_cases h : hasExpired p c.now MIN_TIMEOUT = true
  · by_cases h2 : permille count c.mark c.outOfRange > p.value
    · simp [h, h2]
      omega
    · simp [h, h2]
  · simp [h]

/-- No sequence of calls lowers the widget's value or takes it to 1000. -/
theorem displayedAfter_monotone (count : Int) (calls : List ReportCall) :
    ∀ p : ProgressState, p.value ≤ displayedAfter count p calls ∧
      (p.value < 1000 → displayedAfter count p calls < 1000) := by
  induction calls with
  | nil => intro p; simp [displayedAfter]
  | cons c rest ih =>
    intro p
    have h1 := report_func_monotone count c p
    have h2 := ih (report_func count c p).state
    simp only [displayedAfter, List.foldl_cons] at h2 ⊢
    exact ⟨le_trans h1.1 h2.1, fun hlt => h2.2 (h1.2 hlt)⟩

/-- C21 does not hold for every `mark ≥ 0` and `progress_report_count > 0`:
with `mark = 2147484` and `progress_report_count = 1` the quotient 2147484000
is not an `int`, so the conversion is undefined.  Where it produces `INT_MIN`
(x86-64), `permille` is -2147483648 instead of 999 and the call, which passes
the throttle with the widget at 0, forwards nothing. -/
theorem C21_quotient_beyond_int_range :
    (0 : Int) ≤ 2147484 ∧ (0 : Int) < 1 ∧
    min ((2147484 : Int) * 1000 / 1) 999 = 999 ∧
    permille 1 2147484 INT_MIN = -2147483648 ∧
    (report_func 1 ⟨201, 2147484, false, INT_MIN⟩ ⟨0, 0⟩).passed = true ∧
    (report_func 1 ⟨201, 2147484, false, INT_MIN⟩ ⟨0, 0⟩).setValue = none ∧
    (report_func 1 ⟨201, 2147484, false, INT_MIN⟩ ⟨0, 0⟩).state.value = 0 := by
  decide

/-- C21, amended: for every `mark ≥ 0` and `progress_report_count > 0` whose
quotient `1000·mark / progress_report_count` is at most `INT_MAX`, the value
`permille` is `min(floor(1000·mark / progress_report_count), 999)`.  For every
call whatever (the conversion producing some `int`): a value is forwarded iff
the call passes the throttle and `permille` is strictly greater than the
widget's value, the forwarded value is `permille`, is at most 999 and becomes
the widget's value, and nothing else changes the value; so over every
sequence of calls the displayed value is non-decreasing, and stays below 1000
when it starts below 1000. -/
theorem C21_forwarded_permille (progress_report_count : Int) (c : ReportCall)
    (p : ProgressState) :
    (0 ≤ c.mark → 0 < progress_report_count →
      c.mark * 1000 / progress_report_count ≤ INT_MAX →
      permille progress_report_count c.mark c.outOfRange
        = min ⌊((1000 * c.mark : Int) : ℚ) / (progress_report_count : Int)⌋ 999) ∧
    (∀ v, (report_func progress_report_count c p).setValue = some v ↔
      hasExpired p c.now MIN_TIMEOUT = true ∧
        v = permille progress_report_count c.mark c.outOfRange ∧ p.value < v) ∧
    (∀ v, (report_func progress_report_count c p).setValue = some v →
      v ≤ 999 ∧ (report_func progress_report_count c p).state.value = v) ∧
    ((report_func progress_report_count c p).setValue = none →
      (report_func progress_report_count c p).state.value = p.value) ∧
    (∀ calls : List ReportCall,
      p.value ≤ displayedAfter progress_report_count p calls ∧
      (p.value < 1000 → displayedAfter progress_report_count p calls < 1000)) := by
  obtain ⟨h1, h2, h3⟩ := report_func_value progress_report_count c p
  refine ⟨fun hmark hcount hfit => permille_eq _ _ _ hmark hcount hfit, h1, fun v hv => ?_, h3,
    fun calls => displayedAfter_monotone progress_report_count calls p⟩
  refine ⟨?_, h2 v hv⟩
  rw [((h1 v).mp hv).2.1]
  exact permille_le _ _ _

/-- C21 amended, at a concrete input: 5 marks of 10 give 500, forwarded over
the widget's value 100. -/
theorem C21_forwarded_permille_witness :
    permille 10 5 0 = min ⌊((1000 * 5 : Int) : ℚ) / (10 : Int)⌋ 999 ∧
    (report_func 10 ⟨201, 5, false, 0⟩ ⟨0, 100⟩).setValue = some 500 :=
  ⟨(C21_forwarded_permille 10 ⟨201, 5, false, 0⟩ ⟨0, 100⟩).1 (by decide) (by decide) (by decide),
   ((C21_forwarded_permille 10 ⟨201, 5, false, 0⟩ ⟨0, 100⟩).2.1 500).mpr (by decide)⟩

/-! ### C22 -/

/-- For the offsets +1 and -1 the dividend is non-negative, so the `%` of C++
is the mathematical one. -/
theorem target_eq (idx o offset : Int) (hoffset : offset = 1 ∨ offset = -1)
    (hidx : 0 ≤ idx ∧ idx < 7) (ho : 1 ≤ o ∧ o < 7) :
    0 ≤ docks_size + idx + o * offset ∧
    target idx o offset = (idx + o * offset) % 7 := by
  unfold target docks_size
  have hnonneg : 0 ≤ 7 + idx + o * offset := by
    rcases hoffset with h | h <;> subst h <;> omega
  refine ⟨hnonneg, ?_⟩
  rw [Int.tmod_eq_emod hnonneg (by decide)]
  omega

/-- The loop over `o` focuses the first visible dock among its targets and
never leaves the array. -/
theorem tryOffsets_eq (isVisible : Nat → Bool) (idx offset : Int)
    (hoffset : offset = 1 ∨ offset = -1) (hidx : 0 ≤ idx ∧ idx < 7) :
    ∀ os : List Int, (∀ o ∈ os, 1 ≤ o ∧ o < 7) →
      tryOffsets isVisible idx offset os
        = ((os.map fun o : Int => (target idx o offset).toNat).find? isVisible).map
            Activation.focused := by
  intro os
  induction os with
  | nil => intro _; rfl
  | cons o later ih =>
    intro h
    have ho := h o (List.mem_cons_self _ _)
    have ht := (target_eq idx o offset hoffset hidx ho).2
    have hrange : 0 ≤ target idx o offset ∧ target idx o offset < docks_size := by
      rw [ht]; unfold docks_size; omega
    have hlater := ih fun o2 h2 => h o2 (List.mem_cons_of_mem _ h2)
    simp only [tryOffsets, docks_at, hrange, and_self, if_true, List.map_cons, List.find?_cons]
    cases hv : isVisible (target idx o offset).toNat with
    | true => simp
    | false => simp [hlater]

/-- Indices whose dock is not the widget are passed over. -/
theorem tryDocks_skip (dockWidget : Nat → Nat) (isVisible : Nat → Bool) (offset : Int)
    (widget : Nat) (later : List Nat) :
    ∀ skipped : List Nat, (∀ j ∈ skipped, widget ≠ dockWidget j) →
      tryDocks dockWidget isVisible offset widget (skipped ++ later)
        = tryDocks dockWidget isVisible offset widget later := by
  intro skipped
  induction skipped with
  | nil => intro _; rfl
  | cons j rest ih =>
    intro h
    have hj := h j (List.mem_cons_self _ _)
    simp only [List.cons_append, tryDocks, hj, if_false]
    exact ih fun k hk => h k (List.mem_cons_of_mem _ hk)

/-- The loop over `idx` never ends in an out-of-range lookup. -/
theorem tryDocks_in_range (dockWidget : Nat → Nat) (isVisible : Nat → Bool) (offset : Int)
    (hoffset : offset = 1 ∨ offset = -1) (widget : Nat) :
    ∀ idxs : List Nat, (∀ idx ∈ idxs, idx < 7) →
      tryDocks dockWidget isVisible offset widget idxs ≠ some .out_of_range := by
  intro idxs
  induction idxs with
  | nil => intro _; simp [tryDocks]
  | cons idx later ih =>
    intro h
    have hidx := h idx (List.mem_cons_self _ _)
    have hlater := ih fun k hk => h k (List.mem_cons_of_mem _ hk)
    have htry := tryOffsets_eq isVisible idx offset hoffset ⟨by omega, by omega⟩
      [1, 2, 3, 4, 5, 6] (by decide)
    simp only [tryDocks]
    split_ifs with hw
    · rw [htry]
      cases hfind : List.find? isVisible
          (List.map (fun o : Int => (target idx o offset).toNat) [1, 2, 3, 4, 5, 6]) with
      | none => simpa using hlater
      | some d => simp
    · exact hlater

/-- No call of `activateWindow(+1)` or `activateWindow(-1)` ends in an
out-of-range lookup. -/
theorem activateWindow_in_range (dockWidget : Nat → Nat) (isVisible : Nat → Bool) (offset : Int)
    (hoffset : offset = 1 ∨ offset = -1) :
    ∀ chain : List Nat, activateWindow dockWidget isVisible offset chain ≠ .out_of_range := by
  intro chain
  induction chain with
  | nil => simp [activateWindow]
  | cons widget parents ih =>
    have h := tryDocks_in_range dockWidget isVisible offset hoffset widget
      [0, 1, 2, 3, 4, 5, 6] (by decide)
    simp only [activateWindow]
    cases hd : tryDocks dockWidget isVisible offset widget [0, 1, 2, 3, 4, 5, 6] with
    | none => simpa using ih
    | some result =>
      rw [hd] at h
      simpa using h

/-- The docks tried from the dock `idx` are all the other docks, each once. -/
theorem triedDocks_once (idx : Nat) (offset : Int) (hoffset : offset = 1 ∨ offset = -1)
    (hidx : idx < 7) :
    (triedDocks idx offset).Nodup ∧ idx ∉ triedDocks idx offset ∧
      ∀ d, d < 7 → d ≠ idx → d ∈ triedDocks idx offset := by
  rcases hoffset with h | h <;> subst h <;> interval_cases idx <;> decide

/-- C22: in `activateWindow` with offset +1 or -1, for every focused dock
index `idx` in 0..6 and every step `o` in 1..6, the target index is computed
from a non-negative value, is `(idx + o·offset) mod 7`, lies in 0..6 (so the
lookup `docks.at(target)` is in bounds), differs from `idx`, and differs for
different `o`; the docks tried are each other dock exactly once; no call
ends in an out-of-range lookup, whatever widgets have the focus; and when
the focus widget is the dock `idx` (and no dock before it in the array), the
first visible dock in that order is focused. -/
theorem C22_activateWindow_cyclic_targets (dockWidget : Nat → Nat) (isVisible : Nat → Bool)
    (offset : Int) (idx : Nat) (hoffset : offset = 1 ∨ offset = -1) (hidx : idx < 7) :
    (∀ o : Int, 1 ≤ o → o < 7 →
      0 ≤ docks_size + idx + o * offset ∧
      target idx o offset = (idx + o * offset) % 7 ∧
      0 ≤ target idx o offset ∧ target idx o offset < 7 ∧
      docks_at (target idx o offset) = some (target idx o offset).toNat ∧
      target idx o offset ≠ idx ∧
      ∀ o2 : Int, 1 ≤ o2 → o2 < 7 → target idx o offset = target idx o2 offset → o = o2) ∧
    ((triedDocks idx offset).Nodup ∧ idx ∉ triedDocks idx offset ∧
      ∀ d, d < 7 → d ≠ idx → d ∈ triedDocks idx offset) ∧
    (∀ chain : List Nat, activateWindow dockWidget isVisible offset chain ≠ .out_of_range) ∧
    (∀ parents : List Nat, (∀ j, j < idx → dockWidget j ≠ dockWidget idx) →
      (∀ d, (triedDocks idx offset).find? isVisible = some d →
        activateWindow dockWidget isVisible offset (dockWidget idx :: parents) = .focused d)) := by
  have hidxInt : (0 : Int) ≤ idx ∧ (idx : Int) < 7 := ⟨by omega, by omega⟩
  refine ⟨fun o ho1 ho7 => ?_, triedDocks_once idx offset hoffset hidx,
    activateWindow_in_range dockWidget isVisible offset hoffset, fun parents hfirst d hd => ?_⟩
  · obtain ⟨h0, ht⟩ := target_eq idx o offset hoffset hidxInt ⟨ho1, ho7⟩
    have hlow : 0 ≤ target idx o offset := by rw [ht]; omega
    have hhigh : target idx o offset < 7 := by rw [ht]; omega
    refine ⟨h0, ht, hlow, hhigh, ?_, ?_, fun o2 h1 h7 heq => ?_⟩
    · simp only [docks_at, docks_size, hlow, hhigh, and_self, if_true]
    · rw [ht]
      rcases hoffset with h | h <;> subst h <;> omega
    · rw [ht, (target_eq idx o2 offset hoffset hidxInt ⟨h1, h7⟩).2] at heq
      rcases hoffset with h | h <;> subst h <;> omega
  · have hsplit : ([0, 1, 2, 3, 4, 5, 6] : List Nat)
        = List.range idx ++ idx :: List.range' (idx + 1) (6 - idx) := by
      interval_cases idx <;> rfl
    have htry := tryOffsets_eq isVisible idx offset hoffset hidxInt [1, 2, 3, 4, 5, 6]
      (by decide)
    have hfound : tryOffsets isVisible idx offset [1, 2, 3, 4, 5, 6] = some (.focused d) := by
      rw [htry]
      unfold triedDocks at hd
      rw [hd]
      rfl
    simp only [activateWindow, hsplit]
    rw [tryDocks_skip dockWidget isVisible offset (dockWidget idx) _ (List.range idx)
      (fun j hj => (hfirst j (List.mem_range.mp hj)).symm)]
    simp only [tryDocks, if_true, hfound]

/-- C22 at a concrete input: with the console dock (index 1) focused and only
the editor (0) and the animate dock (5) visible, the next window is the
animate dock and the previous window is the editor. -/
theorem C22_activateWindow_witness :
    activateWindow (fun idx => idx + 10) (fun dock => dock == 0 || dock == 5) 1 [11, 3]
      = .focused 5 ∧
    activateWindow (fun idx => idx + 10) (fun dock => dock == 0 || dock == 5) (-1) [11, 3]
      = .focused 0 :=
  ⟨(C22_activateWindow_cyclic_targets (fun idx => idx + 10) (fun dock => dock == 0 || dock == 5)
      1 1 (by decide) (by decide)).2.2.2 [3] (by decide) 5 (by decide),
   (C22_activateWindow_cyclic_targets (fun idx => idx + 10) (fun dock => dock == 0 || dock == 5)
      (-1) 1 (by decide) (by decide)).2.2.2 [3] (by decide) 0 (by decide)⟩

/-! ### C23 -/

/-- One inclusion with non-negative line numbers: the first position becomes
the lexicographic minimum of the old one and the one of the location. -/
theorem includeLocation_first (location : NodeLocation) (r : CodeRange)
    (hr : 0 ≤ r.firstLine) (hloc : 0 ≤ location.firstLine) :
    0 ≤ (includeLocation location r).firstLine ∧
    (((includeLocation location r).firstLine, (includeLocation location r).firstColumn)
        = (r.firstLine, r.firstColumn) ∨
      ((includeLocation location r).firstLine, (includeLocation location r).firstColumn)
        = (location.firstLine, location.firstColumn)) ∧
    toLex ((includeLocation location r).firstLine, (includeLocation location r).firstColumn)
      ≤ toLex (r.firstLine, r.firstColumn) ∧
    toLex ((includeLocation location r).firstLine, (includeLocation location r).firstColumn)
      ≤ toLex (location.firstLine, location.firstColumn) := by
  simp only [Prod.Lex.le_iff, Prod.mk.injEq]
  unfold includeLocation includeFirst
  dsimp only
  split_ifs <;> (try dsimp only at *) <;> omega

/-- One inclusion with non-negative line numbers: the last position becomes
the lexicographic maximum of the old one and the one of the location. -/
theorem includeLocation_last (location : NodeLocation) (r : CodeRange)
    (hr : 0 ≤ r.lastLine) (hloc : 0 ≤ location.lastLine) :
    0 ≤ (includeLocation location r).lastLine ∧
    (((includeLocation location r).lastLine, (includeLocation location r).lastColumn)
        = (r.lastLine, r.lastColumn) ∨
      ((includeLocation location r).lastLine, (includeLocation location r).lastColumn)
        = (location.lastLine, location.lastColumn)) ∧
    toLex (r.lastLine, r.lastColumn)
      ≤ toLex ((includeLocation location r).lastLine, (includeLocation location r).lastColumn) ∧
    toLex (location.lastLine, location.lastColumn)
      ≤ toLex ((includeLocation location r).lastLine,
          (includeLocation location r).lastColumn) := by
  simp only [Prod.Lex.le_iff, Prod.mk.injEq]
  unfold includeLocation includeFirst
  dsimp only
  split_ifs <;> (try dsimp only at *) <;> omega

mutual
/-- From an included level, `getCodeLocation` includes the locations of the
nodes visited at depth 0, one after the other. -/
theorem getCodeLocation_eq_foldl (self : AbstractNode) (currentLevel includeLevel : Int)
    (r : CodeRange) (nestedModuleDepth : Int) (hlevel : includeLevel ≤ currentLevel) :
    getCodeLocation self currentLevel includeLevel r nestedModuleDepth
      = (visitedAtDepthZero self nestedModuleDepth).foldl
          (fun range location => includeLocation location range) r := by
  match self with
  | .mk location verbose_name modinst_name children =>
    have hbelow := fun r1 depth =>
      getCodeLocationOfChildren_eq_foldl children (currentLevel + 1) includeLevel r1 depth
        (by omega)
    simp only [getCodeLocation, visitedAtDepthZero, List.foldl_append, ge_iff_le, hlevel,
      true_and]
    generalize childrenDepth verbose_name modinst_name nestedModuleDepth = depth
    by_cases hzero : nestedModuleDepth = 0 <;> by_cases hdepth : 0 ≤ depth <;>
      simp [hzero, hdepth, hbelow]

/-- The same for the loop over the children. -/
theorem getCodeLocationOfChildren_eq_foldl (nodes : List AbstractNode)
    (currentLevel includeLevel : Int) (r : CodeRange) (nestedModuleDepth : Int)
    (hlevel : includeLevel ≤ currentLevel) :
    getCodeLocationOfChildren nodes currentLevel includeLevel r nestedModuleDepth
      = (visitedBelow nodes nestedModuleDepth).foldl
          (fun range location => includeLocation location range) r := by
  match nodes with
  | [] => simp [getCodeLocationOfChildren, visitedBelow]
  | node :: later =>
    simp only [getCodeLocationOfChildren, visitedBelow, List.foldl_append]
    rw [getCodeLocation_eq_foldl node currentLevel includeLevel r nestedModuleDepth hlevel,
      getCodeLocationOfChildren_eq_foldl later currentLevel includeLevel _ nestedModuleDepth
        hlevel]
end

/-- Including a list of locations with non-negative line numbers leaves the
minimum of the first positions and the maximum of the last positions. -/
theorem foldl_includeLocation (locations : List NodeLocation) :
    ∀ r : CodeRange, 0 ≤ r.firstLine → 0 ≤ r.lastLine →
      (∀ location ∈ locations, 0 ≤ location.firstLine ∧ 0 ≤ location.lastLine) →
      ((((locations.foldl (fun range location => includeLocation location range) r).firstLine,
          (locations.foldl (fun range location => includeLocation location range) r).firstColumn)
          ∈ (r.firstLine, r.firstColumn) ::
            locations.map fun location => (location.firstLine, location.firstColumn)) ∧
        ∀ candidate ∈ (r.firstLine, r.firstColumn) ::
            locations.map fun location => (location.firstLine, location.firstColumn),
          toLex ((locations.foldl (fun range location => includeLocation location range)
              r).firstLine,
            (locations.foldl (fun range location => includeLocation location range)
              r).firstColumn) ≤ toLex candidate) ∧
      ((((locations.foldl (fun range location => includeLocation location range) r).lastLine,
          (locations.foldl (fun range location => includeLocation location range) r).lastColumn)
          ∈ (r.lastLine, r.lastColumn) ::
            locations.map fun location => (location.lastLine, location.lastColumn)) ∧
        ∀ candidate ∈ (r.lastLine, r.lastColumn) ::
            locations.map fun location => (location.lastLine, location.lastColumn),
          toLex candidate ≤
            toLex ((locations.foldl (fun range location => includeLocation location range)
                r).lastLine,
              (locations.foldl (fun range location => includeLocation location range)
                r).lastColumn)) := by
  induction locations with
  | nil =>
    intro r _ _ _
    simp
  | cons location later ih =>
    intro r hfirst hlast hloc
    obtain ⟨hlf, hll⟩ := hloc location (List.mem_cons_self _ _)
    obtain ⟨f0, f1, f2, f3⟩ := includeLocation_first location r hfirst hlf
    obtain ⟨l0, l1, l2, l3⟩ := includeLocation_last location r hlast hll
    obtain ⟨⟨a1, a2⟩, b1, b2⟩ := ih (includeLocation location r) f0 l0
      fun other hother => hloc other (List.mem_cons_of_mem _ hother)
    simp only [List.foldl_cons, List.map_cons]
    refine ⟨⟨?_, ?_⟩, ?_, ?_⟩
    · rcases List.mem_cons.mp a1 with h | h
      · rw [h]
        rcases f1 with h1 | h1
        · rw [h1]; exact List.mem_cons_self _ _
        · rw [h1]; exact List.mem_cons_of_mem _ (List.mem_cons_self _ _)
      · exact List.mem_cons_of_mem _ (List.mem_cons_of_mem _ h)
    · intro candidate hc
      have hstep := a2 _ (List.mem_cons_self _ _)
      rcases List.mem_cons.mp hc with h | h
      · rw [h]; exact le_trans hstep f2
      · rcases List.mem_cons.mp h with h | h
        · rw [h]; exact le_trans hstep f3
        · exact a2 _ (List.mem_cons_of_mem _ h)
    · rcases List.mem_cons.mp b1 with h | h
      · rw [h]
        rcases l1 with h1 | h1
        · rw [h1]; exact List.mem_cons_self _ _
        · rw [h1]; exact List.mem_cons_of_mem _ (List.mem_cons_self _ _)
      · exact List.mem_cons_of_mem _ (List.mem_cons_of_mem _ h)
    · intro candidate hc
      have hstep := b2 _ (List.mem_cons_self _ _)
      rcases List.mem_cons.mp hc with h | h
      · rw [h]; exact le_trans l2 hstep
      · rcases List.mem_cons.mp h with h | h
        · rw [h]; exact le_trans l3 hstep
        · exact b2 _ (List.mem_cons_of_mem _ h)

/-- C23: for every node tree whose locations have non-negative line numbers
and every initial range with non-negative line numbers,
`getCodeLocation(node, 0, 0, …, 0)` returns (the model is a total function)
and leaves `(firstLine, firstColumn)` equal to the lexicographic minimum, and
`(lastLine, lastColumn)` equal to the lexicographic maximum, of the initial
values and the locations of the nodes it visits at nested-module depth 0:
each is one of these pairs and bounds all of them.  Hence the resulting range
contains the initial one. -/
theorem C23_getCodeLocation_lexicographic_bounds (self : AbstractNode) (r : CodeRange)
    (hfirst : 0 ≤ r.firstLine) (hlast : 0 ≤ r.lastLine)
    (hlines : ∀ location ∈ visitedAtDepthZero self 0,
      0 ≤ location.firstLine ∧ 0 ≤ location.lastLine) :
    (((getCodeLocation self 0 0 r 0).firstLine, (getCodeLocation self 0 0 r 0).firstColumn)
        ∈ (r.firstLine, r.firstColumn) ::
          (visitedAtDepthZero self 0).map fun location =>
            (location.firstLine, location.firstColumn)) ∧
    (∀ candidate ∈ (r.firstLine, r.firstColumn) ::
        (visitedAtDepthZero self 0).map fun location =>
          (location.firstLine, location.firstColumn),
      toLex ((getCodeLocation self 0 0 r 0).firstLine,
        (getCodeLocation self 0 0 r 0).firstColumn) ≤ toLex candidate) ∧
    (((getCodeLocation self 0 0 r 0).lastLine, (getCodeLocation self 0 0 r 0).lastColumn)
        ∈ (r.lastLine, r.lastColumn) ::
          (visitedAtDepthZero self 0).map fun location =>
            (location.lastLine, location.lastColumn)) ∧
    (∀ candidate ∈ (r.lastLine, r.lastColumn) ::
        (visitedAtDepthZero self 0).map fun location =>
          (location.lastLine, location.lastColumn),
      toLex candidate ≤ toLex ((getCodeLocation self 0 0 r 0).lastLine,
        (getCodeLocation self 0 0 r 0).lastColumn)) ∧
    toLex ((getCodeLocation self 0 0 r 0).firstLine, (getCodeLocation self 0 0 r 0).firstColumn)
      ≤ toLex (r.firstLine, r.firstColumn) ∧
    toLex (r.lastLine, r.lastColumn)
      ≤ toLex ((getCodeLocation self 0 0 r 0).lastLine,
          (getCodeLocation self 0 0 r 0).lastColumn) := by
  rw [getCodeLocation_eq_foldl self 0 0 r 0 (le_refl _)]
  obtain ⟨⟨a1, a2⟩, b1, b2⟩ :=
    foldl_includeLocation (visitedAtDepthZero self 0) r hfirst hlast hlines
  exact ⟨a1, a2, b1, b2, a2 _ (List.mem_cons_self _ _), b2 _ (List.mem_cons_self _ _)⟩

/-- C23 at a concrete input: from the range 3:5-3:20 of the selected node, the
module instance and the sphere are visited at depth 0 and the cube inside the
module is not; the range becomes 2:7-4:2, which contains 3:5-3:20. -/
theorem C23_getCodeLocation_witness :
    getCodeLocation selectedNode 0 0 ⟨3, 5, 3, 20⟩ 0 = ⟨2, 7, 4, 2⟩ ∧
    toLex ((getCodeLocation selectedNode 0 0 ⟨3, 5, 3, 20⟩ 0).firstLine,
        (getCodeLocation selectedNode 0 0 ⟨3, 5, 3, 20⟩ 0).firstColumn)
      ≤ toLex ((3 : Int), (5 : Int)) ∧
    toLex ((3 : Int), (20 : Int))
      ≤ toLex ((getCodeLocation selectedNode 0 0 ⟨3, 5, 3, 20⟩ 0).lastLine,
          (getCodeLocation selectedNode 0 0 ⟨3, 5, 3, 20⟩ 0).lastColumn) :=
  ⟨by decide,
   (C23_getCodeLocation_lexicographic_bounds selectedNode ⟨3, 5, 3, 20⟩ (by decide) (by decide)
      (by decide)).2.2.2.2⟩

end OpenSCAD
